import Mathlib

/-! Omnifin chat client: conversation and message lifecycle.

A shallow embedding of the text chat page (`frontend/src/pages/ChatPage.js`),
its transport (`frontend/src/services/chatService.js`) and the voice chat page
(`frontend/src/pages/VoiceChatPage.js`).

Each React component is a record of its `useState` cells and `useRef` cells,
extended with the part of the environment its handlers talk to: the calls
suspended at an `await`, the requests posted so far and the notifications shown.
An `async` handler is split at its `await`: the part before it runs when the
handler is invoked, the part after it runs when the awaited promise settles.
Constants bound by the render in which the handler was invoked (`conversationId`,
`inputMessage`) are carried by the suspended call; state written through a
functional updater (`setMessages(prev => ...)`) is read when the update runs.
`Date.now()` is an argument of the event that reads it.
-/

namespace Omnifin

/-! ## JavaScript values -/

/-- Code points removed by `String.prototype.trim` (white space and line terminators). -/
def isJsWhitespace (c : Char) : Bool :=
  c.toNat = 0x09 || c.toNat = 0x0A || c.toNat = 0x0B || c.toNat = 0x0C || c.toNat = 0x0D ||
  c.toNat = 0x20 || c.toNat = 0xA0 || c.toNat = 0x1680 ||
  (0x2000 ≤ c.toNat && c.toNat ≤ 0x200A) ||
  c.toNat = 0x2028 || c.toNat = 0x2029 || c.toNat = 0x202F || c.toNat = 0x205F ||
  c.toNat = 0x3000 || c.toNat = 0xFEFF

/-- The characters of `s.trim()`: white space dropped at both ends. -/
def trimChars (cs : List Char) : List Char :=
  ((cs.dropWhile isJsWhitespace).reverse.dropWhile isJsWhitespace).reverse

/-- The method `String.prototype.trim`. -/
def jsTrim (s : String) : String := ⟨trimChars s.data⟩

/-- Truthiness of a string: every string but the empty one. -/
def truthyString (s : String) : Bool := !s.data.isEmpty

/-- Truthiness of a possibly `undefined` string property. -/
def truthyStr : Option String → Bool
  | none => false
  | some s => truthyString s

/-- The expression `a || b` on possibly `undefined` strings. -/
def orStr (a b : Option String) : Option String :=
  if truthyStr a then a else b

/-- A conversation identifier as the server sends it: a string or an integer. -/
inductive JsId where
  | str (s : String)
  | num (n : Int)
deriving DecidableEq, Repr

/-- Truthiness of an identifier: not `''`, not `0`. -/
def JsId.truthy : JsId → Bool
  | .str s => truthyString s
  | .num n => decide (n ≠ 0)

/-- Truthiness of a possibly `null` or `undefined` identifier. -/
def truthyId : Option JsId → Bool
  | none => false
  | some i => i.truthy

/-- An object the remote agent supplies, kept as its key and value pairs. -/
abbrev Metadata := List (String × String)

/-- What an awaited transport promise settles to: fulfilled with the response
data, or rejected. -/
inductive Settled (α : Type) where
  | ok (data : α)
  | err
deriving DecidableEq, Repr

/-- A call of `showNotification(message, severity)`. -/
structure Notification where
  message : String
  severity : String
deriving DecidableEq, Repr

/-! ## Text chat page (`ChatPage.js`) -/

/-- The `sender` of a text chat message. -/
inductive Sender where
  | user
  | ai
deriving DecidableEq, Repr

/-- An entry of `messages`. `metadata` is `none` where the object literal has no
such property (user and welcome messages). -/
structure Message where
  id : Nat
  content : String
  sender : Sender
  timestamp : Nat
  metadata : Option Metadata
deriving DecidableEq, Repr

/-- The property `ai_response` of a chat response. -/
structure AiResponse where
  content : Option String
  metadata : Option Metadata
deriving DecidableEq, Repr

/-- The data of a response of `POST /chat/message/`. -/
structure ChatResponse where
  conversation_id : Option JsId
  welcome_message : Option String
  ai_response : Option AiResponse
  metadata : Option Metadata
deriving DecidableEq, Repr

/-- The arguments of one `chatService.sendMessage(conversationId, message)`; they
are the `conversationId` and `inputMessage` bound by the render in which
`sendMessage` was invoked, which the rest of that invocation still sees after
its `await`. -/
structure SendCall where
  conversationId : Option JsId
  message : String
deriving DecidableEq, Repr

/-- A request posted by `chatService` to `/chat/message/`. -/
inductive TransportCall where
  | start (orderType : String)
  | message (conversation_id : Option JsId) (message : String)
deriving DecidableEq, Repr

/-- The chat page: its five `useState` cells, then its environment. -/
structure ChatPage where
  messages : List Message
  inputMessage : String
  loading : Bool
  conversationId : Option JsId
  isTyping : Bool
  /-- the mount effect has run -/
  mounted : Bool
  /-- a `startConversation` call is suspended at its `await` -/
  startInFlight : Bool
  /-- the `sendMessage` calls suspended at their `await`, oldest first -/
  sendsInFlight : List SendCall
  /-- every request posted so far, oldest first -/
  requests : List TransportCall
  notifications : List Notification
deriving DecidableEq, Repr

/-- The page as first rendered: the `useState` defaults, nothing posted. -/
def ChatPage.initial : ChatPage :=
  { messages := [], inputMessage := "", loading := false, conversationId := none,
    isTyping := false, mounted := false, startInFlight := false, sendsInFlight := [],
    requests := [], notifications := [] }

/-- The body of `startConversation` up to its `await`:
`setLoading(true)` and `chatService.startConversation('loan')`. -/
def startConversation (s : ChatPage) : ChatPage :=
  { s with
    loading := true
    startInFlight := true
    requests := s.requests ++ [TransportCall.start "loan"] }

/-- The welcome message `startConversation` builds. -/
def welcomeMessage (now : Nat) (content : String) : Message :=
  { id := now, content := content, sender := Sender.ai, timestamp := now, metadata := none }

/-- The expression `response.ai_response?.content`. -/
def ChatResponse.aiContent (r : ChatResponse) : Option String :=
  match r.ai_response with
  | none => none
  | some a => a.content

/-- The body of `startConversation` after its `await`. -/
def startConversationSettled (r : Settled ChatResponse) (now : Nat) (s : ChatPage) : ChatPage :=
  match r with
  | .ok response =>
    let s1 : ChatPage :=
      if truthyId response.conversation_id then
        { s with conversationId := response.conversation_id }
      else s
    let welcomeContent := orStr response.welcome_message response.aiContent
    let s2 : ChatPage :=
      match welcomeContent with
      | some c =>
        if truthyString c then { s1 with messages := [welcomeMessage now c] } else s1
      | none => s1
    { s2 with loading := false }
  | .err =>
    { s with
      notifications := s.notifications ++ [⟨"Failed to start conversation", "error"⟩]
      loading := false }

/-- The `userMessage` of `sendMessage`. -/
def userMessage (now : Nat) (inputMessage : String) : Message :=
  { id := now, content := inputMessage, sender := Sender.user, timestamp := now,
    metadata := none }

/-- The expression `response.ai_response?.metadata || response.metadata`; an
object is always truthy. -/
def ChatResponse.replyMetadata (r : ChatResponse) : Option Metadata :=
  match r.ai_response with
  | none => r.metadata
  | some a =>
    match a.metadata with
    | some m => some m
    | none => r.metadata

/-- The `aiMessage` of `sendMessage`. -/
def aiMessage (now : Nat) (response : ChatResponse) : Message :=
  { id := now + 1
    content := (orStr response.aiContent (some "I have received your message.")).getD
      "I have received your message."
    sender := Sender.ai
    timestamp := now
    metadata := response.replyMetadata }

/-- The guard of `sendMessage`:
`!inputMessage.trim() || !conversationId || loading`. -/
def sendRejected (s : ChatPage) : Bool :=
  !truthyString (jsTrim s.inputMessage) || !truthyId s.conversationId || s.loading

/-- The body of `sendMessage` up to its `await`. -/
def sendMessage (now : Nat) (s : ChatPage) : ChatPage :=
  if sendRejected s then s
  else
    { s with
      messages := s.messages ++ [userMessage now s.inputMessage]
      inputMessage := ""
      isTyping := true
      sendsInFlight := s.sendsInFlight ++ [⟨s.conversationId, s.inputMessage⟩]
      requests := s.requests ++ [TransportCall.message s.conversationId s.inputMessage] }

/-- The body of `sendMessage` after its `await`, for the invocation that posted
`call`. The comparison `response.conversation_id !== conversationId` reads the
`conversationId` of that invocation. -/
def sendMessageSettled (call : SendCall) (r : Settled ChatResponse) (now : Nat)
    (s : ChatPage) : ChatPage :=
  match r with
  | .ok response =>
    let s1 : ChatPage :=
      if truthyId response.conversation_id && response.conversation_id != call.conversationId then
        { s with conversationId := response.conversation_id }
      else s
    { s1 with
      messages := s1.messages ++ [aiMessage now response]
      isTyping := false }
  | .err =>
    { s with
      notifications := s.notifications ++ [⟨"Failed to send message", "error"⟩]
      isTyping := false }

/-- What happens to the chat page. -/
inductive ChatEvent where
  /-- the mount effect `useEffect(() => { startConversation(); }, [])` -/
  | mount
  /-- the start request settles -/
  | startSettled (r : Settled ChatResponse) (now : Nat)
  /-- the user edits the text field (`onChange`), which is disabled while `loading` -/
  | typeInput (value : String)
  /-- the user clicks send or presses Enter: `sendMessage()` -/
  | send (now : Nat)
  /-- the request of the `i`-th suspended `sendMessage` settles -/
  | sendSettled (i : Nat) (r : Settled ChatResponse) (now : Nat)
deriving DecidableEq, Repr

/-- One event on the chat page. An event that cannot occur in the state (a
second mount, a settlement with no call suspended) leaves it unchanged. -/
def ChatPage.step (s : ChatPage) : ChatEvent → ChatPage
  | .mount => if s.mounted then s else startConversation { s with mounted := true }
  | .startSettled r now =>
    if s.startInFlight then startConversationSettled r now { s with startInFlight := false }
    else s
  | .typeInput value => if s.loading then s else { s with inputMessage := value }
  | .send now => sendMessage now s
  | .sendSettled i r now =>
    match s.sendsInFlight[i]? with
    | none => s
    | some call =>
      sendMessageSettled call r now { s with sendsInFlight := s.sendsInFlight.eraseIdx i }

/-- The page after a sequence of events. -/
def ChatPage.run (s : ChatPage) (es : List ChatEvent) : ChatPage :=
  es.foldl ChatPage.step s

/-- The states the chat page can be in: those some sequence of events leads to
from the first render. -/
def ChatPage.Reachable (s : ChatPage) : Prop :=
  ∃ es : List ChatEvent, ChatPage.initial.run es = s

/-- One text turn whose request is fulfilled before anything else happens: the
user types `text`, sends it at `sentAt`, and the response arrives at `repliedAt`. -/
structure Turn where
  text : String
  sentAt : Nat
  response : ChatResponse
  repliedAt : Nat
deriving DecidableEq, Repr

/-- The events of a turn. -/
def Turn.events (t : Turn) : List ChatEvent :=
  [ChatEvent.typeInput t.text, ChatEvent.send t.sentAt,
   ChatEvent.sendSettled 0 (Settled.ok t.response) t.repliedAt]

/-- The two transcript entries of a turn. -/
def Turn.entries (t : Turn) : List Message :=
  [userMessage t.sentAt t.text, aiMessage t.repliedAt t.response]

/-- No call is suspended and a send would pass the identifier and loading guards. -/
def ChatPage.Ready (s : ChatPage) : Prop :=
  s.startInFlight = false ∧ s.sendsInFlight = [] ∧ s.loading = false ∧
  truthyId s.conversationId = true


/-! ## Voice chat page (`VoiceChatPage.js`) -/

/-- A number as the page meets it: a duration in seconds, `Infinity` or `NaN`. -/
inductive JsNumber where
  | finite (q : ℚ)
  | infinity
  | nan
deriving DecidableEq, Repr

/-- Truthiness of a number: neither `0` nor `NaN`. -/
def JsNumber.truthy : JsNumber → Bool
  | .finite q => decide (q ≠ 0)
  | .infinity => true
  | .nan => false

/-- The constant `SUPPORTED_AUDIO_TYPES`. -/
def SUPPORTED_AUDIO_TYPES : List String :=
  ["audio/webm;codecs=opus", "audio/ogg;codecs=opus", "audio/webm"]

/-- What the page asks of the browser before it records. -/
structure Browser where
  /-- `typeof window !== 'undefined' && window.MediaRecorder` -/
  hasMediaRecorder : Bool
  /-- `MediaRecorder.isTypeSupported` -/
  isTypeSupported : String → Bool

/-- The function `getSupportedMimeType`. -/
def getSupportedMimeType (b : Browser) : String :=
  if !b.hasMediaRecorder then "audio/webm"
  else
    match SUPPORTED_AUDIO_TYPES.find? b.isTypeSupported with
    | some t => if truthyString t then t else "audio/webm"
    | none => "audio/webm"

/-- A `Blob`: its bytes and its media type. -/
structure Blob where
  bytes : List Nat
  type : String
deriving DecidableEq, Repr

/-- A `File`: a blob with a name. -/
structure File where
  bytes : List Nat
  name : String
  type : String
deriving DecidableEq, Repr

/-- The `type` a `Blob` or `File` constructor stores for the `type` option it
is given: the empty string when a character lies outside U+0020 to U+007E,
otherwise the option in ASCII lower case. -/
def normalizeType (type : String) : String :=
  if type.data.all (fun c => decide (0x20 ≤ c.toNat) && decide (c.toNat ≤ 0x7E))
  then ⟨type.data.map Char.toLower⟩ else ""

/-- The call `new Blob(parts, { type })`: the parts' bytes in order, the type
as the constructor stores it. -/
def Blob.ofParts (parts : List Blob) (type : String) : Blob :=
  { bytes := (parts.map Blob.bytes).flatten, type := normalizeType type }

/-- The method `String.prototype.includes` on characters. -/
def includesChars : List Char → List Char → Bool
  | [], needle => needle.isEmpty
  | c :: cs, needle => ((c :: cs).take needle.length == needle) || includesChars cs needle

/-- The method `String.prototype.includes`. -/
def jsIncludes (s sub : String) : Bool := includesChars s.data sub.data

/-- The `type` of a voice chat message. -/
inductive Author where
  | user
  | ai
deriving DecidableEq, Repr

/-- The `status` of a voice chat message. -/
inductive UploadStatus where
  | uploading
  | uploaded
  | error
deriving DecidableEq, Repr

/-- The `id` of a voice chat message: the number `Date.now()` for the user's,
the string made of that number and `-result` for the reply. -/
inductive VoiceId where
  | clock (n : Nat)
  | result (n : Nat)
deriving DecidableEq, Repr

/-- The `audioUrl` of a voice chat message: an object URL made by
`URL.createObjectURL`, numbered in creation order, or the `audio_file` of a
response. -/
inductive AudioRef where
  | object (n : Nat)
  | remote (url : String)
deriving DecidableEq, Repr

/-- The data of a response of `POST /chat/voice/`. -/
structure VoiceResponse where
  ai_response : Option String
  transcript : Option String
  audio_file : Option String
  confidence_score : Option JsNumber
  others : Metadata
deriving DecidableEq, Repr

/-- The `metadata` of a voice chat message: `{ duration }` for the user's, the
whole response for the reply. -/
inductive VoiceMetadata where
  | duration (durationSeconds : JsNumber)
  | response (apiResponse : Option VoiceResponse)
deriving DecidableEq, Repr

/-- An entry of `conversation`. `status` is `none` where the object literal has
no such property (the reply). -/
structure VoiceMessage where
  id : VoiceId
  type : Author
  content : String
  timestamp : Nat
  audioUrl : Option AudioRef
  status : Option UploadStatus
  metadata : VoiceMetadata
deriving DecidableEq, Repr

/-- The life of a `MediaRecorder`: recording since `start()`; stopping once
`stop()` was called and its `stop` event is still to be dispatched; inactive
after that. -/
inductive RecorderState where
  | recording
  | stopping
  | inactive
deriving DecidableEq, Repr

/-- A `MediaRecorder` the page created, with the stream it records. -/
structure Recorder where
  mimeType : String
  state : RecorderState
  /-- the tracks of its stream have not been stopped -/
  tracksLive : Bool
deriving DecidableEq, Repr

/-- An `onstop` handler suspended at `await getAudioDuration(audioBlob)`. -/
structure Probe where
  audioBlob : Blob
  blobType : String
deriving DecidableEq, Repr

/-- A call `chatService.uploadVoiceRecording(audioFile, durationSeconds)`. -/
structure UploadCall where
  audioFile : File
  durationSeconds : JsNumber
deriving DecidableEq, Repr

/-- The voice page: its four `useState` cells, its four `useRef` cells, then
its environment. Object URLs are numbered in creation order. -/
structure VoicePage where
  isRecording : Bool
  conversation : List VoiceMessage
  isProcessing : Bool
  isUploading : Bool
  /-- `mediaRecorderRef.current`, as an index in `recorders` -/
  mediaRecorderRef : Option Nat
  audioChunksRef : List Blob
  objectUrlsRef : List Nat
  mimeTypeRef : String
  /-- every `MediaRecorder` created so far, oldest first -/
  recorders : List Recorder
  /-- the calls of `getUserMedia` so far -/
  micRequests : Nat
  /-- the `startRecording` calls suspended at `await getUserMedia` -/
  micPending : Nat
  /-- the `onstop` handlers suspended at the duration probe, oldest first -/
  probes : List Probe
  /-- the `Date.now()` that is the `userMessage.id` of each `processVoiceRecording`
  suspended at its upload, oldest first -/
  uploadsInFlight : List Nat
  /-- every upload posted so far, oldest first -/
  uploads : List UploadCall
  /-- the object URLs created for messages so far -/
  urlsCreated : Nat
  /-- the object URLs revoked so far, in order -/
  revoked : List Nat
  /-- the cleanup of the mount effect has run -/
  unmounted : Bool
  notifications : List Notification
deriving DecidableEq, Repr

/-- The page as first rendered in browser `b`. -/
def VoicePage.initial (b : Browser) : VoicePage :=
  { isRecording := false, conversation := [], isProcessing := false, isUploading := false,
    mediaRecorderRef := none, audioChunksRef := [], objectUrlsRef := [],
    mimeTypeRef := getSupportedMimeType b, recorders := [], micRequests := 0, micPending := 0,
    probes := [], uploadsInFlight := [], uploads := [], urlsCreated := 0, revoked := [],
    unmounted := false, notifications := [] }

/-- The body of `startRecording` up to its `await`: the guard
`isProcessing || isUploading`, then `getUserMedia({ audio: true })`. -/
def startRecording (s : VoicePage) : VoicePage :=
  if s.isProcessing || s.isUploading then s
  else { s with micRequests := s.micRequests + 1, micPending := s.micPending + 1 }

/-- How the `try` block of `startRecording` goes on after its `await`:
`getUserMedia` gave a stream and `new MediaRecorder` a recorder that reports
the media type it will use; `getUserMedia` was rejected; or `getUserMedia`
gave a stream and `new MediaRecorder` threw, as it does for a media type the
browser cannot record. -/
inductive MicResult where
  | granted (recorderMimeType : String)
  | denied
  | recorderFailed
deriving DecidableEq, Repr

/-- The body of `startRecording` after its `await`. -/
def startRecordingSettled (r : MicResult) (s : VoicePage) : VoicePage :=
  match r with
  | .granted recorderMimeType =>
    { s with
      recorders := s.recorders ++
        [{ mimeType := recorderMimeType, state := RecorderState.recording, tracksLive := true }]
      mediaRecorderRef := some s.recorders.length
      mimeTypeRef := if truthyString recorderMimeType then recorderMimeType else s.mimeTypeRef
      audioChunksRef := []
      isRecording := true }
  | .denied =>
    { s with
      notifications := s.notifications ++ [⟨"Failed to access microphone", "error"⟩] }
  | .recorderFailed =>
    { s with
      notifications := s.notifications ++ [⟨"Failed to access microphone", "error"⟩] }

/-- The handler `ondataavailable`: `audioChunksRef.current.push(event.data)`. -/
def ondataavailable (data : Blob) (s : VoicePage) : VoicePage :=
  { s with audioChunksRef := s.audioChunksRef ++ [data] }

/-- The recorders after `stop()` and `stream.getTracks().forEach(track => track.stop())`
on the `i`-th one. -/
def stopRecorder (i : Nat) (rs : List Recorder) : List Recorder :=
  rs.modify
    (fun r =>
      { r with
        state := if r.state = RecorderState.recording then RecorderState.stopping else r.state
        tracksLive := false })
    i

/-- The function `stopRecording`. -/
def stopRecording (s : VoicePage) : VoicePage :=
  match s.mediaRecorderRef with
  | some i =>
    if s.isRecording then
      { s with recorders := stopRecorder i s.recorders, isRecording := false }
    else s
  | none => s

/-- The handler `onstop` up to its `await`: the blob is built from the chunks
and the media type the refs hold when the `stop` event is dispatched. -/
def onstop (s : VoicePage) : VoicePage :=
  let blobType := if truthyString s.mimeTypeRef then s.mimeTypeRef else "audio/webm"
  let audioBlob := Blob.ofParts s.audioChunksRef blobType
  { s with probes := s.probes ++ [⟨audioBlob, blobType⟩] }

/-- How the throwaway `Audio` element of `getAudioDuration` answers:
`loadedmetadata` with its `duration`, or `error`. -/
inductive ProbeResult where
  | loadedmetadata (duration : JsNumber)
  | error
deriving DecidableEq, Repr

/-- The function `getAudioDuration`: fulfilled with `audio.duration || 0` when
the metadata loaded, rejected when the probe failed. -/
def getAudioDuration : ProbeResult → Settled JsNumber
  | .loadedmetadata d => Settled.ok (if d.truthy then d else JsNumber.finite 0)
  | .error => Settled.err

/-- The value of `await getAudioDuration(audioBlob).catch(() => 0)`. -/
def durationOf (r : ProbeResult) : JsNumber :=
  match getAudioDuration r with
  | .ok d => d
  | .err => JsNumber.finite 0

/-- The `userMessage` of `processVoiceRecording`. -/
def voiceUserMessage (now : Nat) (audioUrl : Nat) (durationSeconds : JsNumber) :
    VoiceMessage :=
  { id := VoiceId.clock now
    type := Author.user
    content := "Voice message recorded"
    timestamp := now
    audioUrl := some (AudioRef.object audioUrl)
    status := some UploadStatus.uploading
    metadata := VoiceMetadata.duration durationSeconds }

/-- The `audioFile` of `processVoiceRecording`: `new File([audioBlob],
fileName, { type: blobType })`, the type as the constructor stores it. -/
def voiceFile (now : Nat) (audioBlob : Blob) (blobType : String) : File :=
  { bytes := audioBlob.bytes
    name := "voice-" ++ toString now ++ "." ++
      (if truthyString blobType && jsIncludes blobType "ogg" then "ogg" else "webm")
    type := normalizeType blobType }

/-- The body of `processVoiceRecording` up to its `await`. -/
def processVoiceRecording (audioBlob : Blob) (durationSeconds : JsNumber) (blobType : String)
    (now : Nat) (s : VoicePage) : VoicePage :=
  { s with
    isProcessing := true
    isUploading := true
    urlsCreated := s.urlsCreated + 1
    objectUrlsRef := s.objectUrlsRef ++ [s.urlsCreated]
    conversation := s.conversation ++ [voiceUserMessage now s.urlsCreated durationSeconds]
    uploads := s.uploads ++ [⟨voiceFile now audioBlob blobType, durationSeconds⟩]
    uploadsInFlight := s.uploadsInFlight ++ [now] }

/-- The updater `prev.map(message => message.id === id ? { ...message, status } : message)`. -/
def setStatus (id : VoiceId) (status : UploadStatus) (prev : List VoiceMessage) :
    List VoiceMessage :=
  prev.map fun message => if message.id = id then { message with status := some status } else message

/-- The `resultMessage` of `processVoiceRecording`. -/
def resultMessage (userId : Nat) (now : Nat) (apiResponse : Option VoiceResponse) :
    VoiceMessage :=
  { id := VoiceId.result userId
    type := Author.ai
    content :=
      (orStr (orStr (apiResponse.bind VoiceResponse.ai_response)
          (apiResponse.bind VoiceResponse.transcript))
        (some "Voice recording processed.")).getD "Voice recording processed."
    timestamp := now
    audioUrl := (apiResponse.bind VoiceResponse.audio_file).map AudioRef.remote
    status := none
    metadata := VoiceMetadata.response apiResponse }

/-- The body of `processVoiceRecording` after its `await`, for the invocation
whose `userMessage.id` is `userId`. -/
def processVoiceRecordingSettled (userId : Nat) (r : Settled (Option VoiceResponse))
    (now : Nat) (s : VoicePage) : VoicePage :=
  match r with
  | .ok apiResponse =>
    { s with
      conversation :=
        setStatus (VoiceId.clock userId) UploadStatus.uploaded s.conversation ++
          [resultMessage userId now apiResponse]
      notifications := s.notifications ++ [⟨"Voice message processed successfully", "success"⟩]
      isProcessing := false
      isUploading := false }
  | .err =>
    { s with
      conversation := setStatus (VoiceId.clock userId) UploadStatus.error s.conversation
      notifications := s.notifications ++ [⟨"Failed to process voice recording", "error"⟩]
      isProcessing := false
      isUploading := false }

/-- The cleanup of the mount effect:
`objectUrlsRef.current.forEach((url) => URL.revokeObjectURL(url))`. -/
def cleanup (s : VoicePage) : VoicePage :=
  { s with revoked := s.revoked ++ s.objectUrlsRef, unmounted := true }

/-- What happens to the voice page. -/
inductive VoiceEvent where
  /-- the user presses the microphone button: `startRecording()` -/
  | startRecording
  /-- the `getUserMedia` of a suspended `startRecording` settles -/
  | micSettled (r : MicResult)
  /-- the `i`-th recorder dispatches `dataavailable` -/
  | dataAvailable (i : Nat) (data : Blob)
  /-- the user releases or clicks the stop button: `stopRecording()` -/
  | stopRecording
  /-- the `i`-th recorder dispatches `stop` -/
  | recorderStopped (i : Nat)
  /-- the duration probe of the `j`-th suspended `onstop` answers -/
  | probeSettled (j : Nat) (r : ProbeResult) (now : Nat)
  /-- the upload of the `k`-th suspended `processVoiceRecording` settles -/
  | uploadSettled (k : Nat) (r : Settled (Option VoiceResponse)) (now : Nat)
  /-- the page is unmounted -/
  | unmount

/-- One event on the voice page. An event that cannot occur in the state (a
settlement with no call suspended, an event of a recorder that is not in the
state that dispatches it, a press after the page is gone) leaves it unchanged. -/
def VoicePage.step (s : VoicePage) : VoiceEvent → VoicePage
  | .startRecording => if s.unmounted then s else startRecording s
  | .micSettled r =>
    if s.micPending = 0 then s
    else startRecordingSettled r { s with micPending := s.micPending - 1 }
  | .dataAvailable i data =>
    match s.recorders[i]? with
    | some rec => if rec.state = RecorderState.inactive then s else ondataavailable data s
    | none => s
  | .stopRecording => if s.unmounted then s else stopRecording s
  | .recorderStopped i =>
    match s.recorders[i]? with
    | some rec =>
      if rec.state = RecorderState.stopping then
        onstop { s with
          recorders := s.recorders.modify (fun r => { r with state := RecorderState.inactive }) i }
      else s
    | none => s
  | .probeSettled j r now =>
    match s.probes[j]? with
    | some p =>
      processVoiceRecording p.audioBlob (durationOf r) p.blobType now
        { s with probes := s.probes.eraseIdx j }
    | none => s
  | .uploadSettled k r now =>
    match s.uploadsInFlight[k]? with
    | some userId =>
      processVoiceRecordingSettled userId r now
        { s with uploadsInFlight := s.uploadsInFlight.eraseIdx k }
    | none => s
  | .unmount => if s.unmounted then s else cleanup s

/-- The page after a sequence of events. -/
def VoicePage.run (s : VoicePage) (es : List VoiceEvent) : VoicePage :=
  es.foldl VoicePage.step s

/-- The states the voice page can be in. -/
def VoicePage.Reachable (s : VoicePage) : Prop :=
  ∃ (b : Browser) (es : List VoiceEvent), (VoicePage.initial b).run es = s

/-- The number of Messages of a transcript with status `uploading`. -/
def uploadingCount (ms : List VoiceMessage) : Nat :=
  (ms.filter fun m => decide (m.status = some UploadStatus.uploading)).length

/-- Whether the event is the settlement of an upload. -/
def VoiceEvent.isUploadSettled : VoiceEvent → Bool
  | .uploadSettled _ _ _ => true
  | _ => false

/-! ## Text chat page: concrete pages and turns -/

/-- The page once `startConversation` has been answered with identifier `c1` and
a welcome message. -/
def welcomedPage : ChatPage :=
  ChatPage.initial.run
    [ChatEvent.mount,
     ChatEvent.startSettled (Settled.ok ⟨some (JsId.str "c1"), some "Welcome", none, none⟩) 10]

/-- A turn used as a concrete example: `hello`, answered `Hi`. -/
def helloTurn : Turn :=
  { text := "hello", sentAt := 20,
    response := ⟨some (JsId.str "c1"), none, some ⟨some "Hi", none⟩, none⟩, repliedAt := 30 }

/-- The number of agent Messages in a transcript. -/
def agentCount (ms : List Message) : Nat :=
  (ms.filter fun m => decide (m.sender = Sender.ai)).length

/-- The welcomed page with `hello` typed in the text field. -/
def typedPage : ChatPage :=
  welcomedPage.step (ChatEvent.typeInput "hello")

/-- The welcomed page with only white space typed in the text field. -/
def blankPage : ChatPage :=
  welcomedPage.step (ChatEvent.typeInput " \t\n ")

/-- A page whose `startConversation` was rejected, so that no identifier is
held, with `hello` typed in the text field. -/
def noIdentifierPage : ChatPage :=
  ChatPage.initial.run
    [ChatEvent.mount, ChatEvent.startSettled Settled.err 10, ChatEvent.typeInput "hello"]

/-- The welcomed page with the send of `first` in flight and `second` typed. -/
def oneInFlightPage : ChatPage :=
  welcomedPage.run
    [ChatEvent.typeInput "first", ChatEvent.send 20, ChatEvent.typeInput "second"]

/-- A response that carries the identifier `c` and the reply `content`. -/
def replyWith (c : String) (content : String) : ChatResponse :=
  ⟨some (JsId.str c), none, some ⟨some content, none⟩, none⟩

/-- Two sends initiated while `c1` is held and both in flight; the first is
answered with identifier `c2`. -/
def overlappedPage : ChatPage :=
  oneInFlightPage.run
    [ChatEvent.send 21, ChatEvent.sendSettled 0 (Settled.ok (replyWith "c2" "one")) 30]

/-- The texts of the user's Messages of a transcript, in transcript order. -/
def userTexts (ms : List Message) : List String :=
  (ms.filter fun m => decide (m.sender = Sender.user)).map Message.content

/-- The texts posted by `chatService.sendMessage`, in posting order. -/
def sentTexts (rs : List TransportCall) : List String :=
  rs.filterMap fun r =>
    match r with
    | TransportCall.message _ m => some m
    | TransportCall.start _ => none

/-- What holds of the chat page in every state it can reach: the user's
Messages are the texts posted, in order; before the mount effect nothing is
held, shown or in flight; and while the start request is in flight the
transcript is empty, the page is loading and no send is in flight. -/
structure ChatPage.Inv (s : ChatPage) : Prop where
  texts : userTexts s.messages = sentTexts s.requests
  unmounted : s.mounted = false →
    s.conversationId = none ∧ s.messages = [] ∧ s.startInFlight = false ∧ s.sendsInFlight = []
  starting : s.startInFlight = true →
    s.messages = [] ∧ s.loading = true ∧ s.sendsInFlight = []

/-! ## Voice chat page: concrete browsers and pages -/

/-- A browser with `MediaRecorder` that supports every media type. -/
def anyBrowser : Browser := { hasMediaRecorder := true, isTypeSupported := fun _ => true }

/-- One recording from press to the dispatch of `stop`: the microphone is
granted, the button is released, the recorder hands over its data and stops. -/
def recordOnce (i : Nat) (bytes : List Nat) : List VoiceEvent :=
  [VoiceEvent.startRecording, VoiceEvent.micSettled (MicResult.granted "audio/webm;codecs=opus"),
   VoiceEvent.stopRecording,
   VoiceEvent.dataAvailable i ⟨bytes, "audio/webm;codecs=opus"⟩,
   VoiceEvent.recorderStopped i]

/-- One recording whose duration probe has answered: its Message is in the
transcript with status `uploading` and its upload is in flight. -/
def uploadingPage : VoicePage :=
  (VoicePage.initial anyBrowser).run
    (recordOnce 0 [1, 2, 3] ++
      [VoiceEvent.probeSettled 0 (ProbeResult.loadedmetadata (JsNumber.finite 2)) 100])

/-- Two recordings made one after the other, the second started while the
duration probe of the first had not answered; then both probes answer. -/
def twoUploadingPage : VoicePage :=
  (VoicePage.initial anyBrowser).run
    (recordOnce 0 [1, 2, 3] ++ recordOnce 1 [4, 5] ++
      [VoiceEvent.probeSettled 0 (ProbeResult.loadedmetadata (JsNumber.finite 2)) 100,
       VoiceEvent.probeSettled 0 (ProbeResult.loadedmetadata (JsNumber.finite 1)) 200])

/-- One recording stopped and handed over, its duration probe not yet answered. -/
def probingPage : VoicePage :=
  (VoicePage.initial anyBrowser).run (recordOnce 0 [1, 2, 3])

/-- A recording in progress: the microphone was granted and nothing else
happened since. -/
def recordingPage : VoicePage :=
  (VoicePage.initial anyBrowser).run
    [VoiceEvent.startRecording, VoiceEvent.micSettled (MicResult.granted "audio/webm;codecs=opus")]

/-- A browser with `MediaRecorder` that supports none of the preferred types. -/
def bareBrowser : Browser := { hasMediaRecorder := true, isTypeSupported := fun _ => false }

/-- The number of positions at which two transcripts differ. -/
def changedCount (before after : List VoiceMessage) : Nat :=
  ((before.zip after).filter fun p => decide (p.1 ≠ p.2)).length

/-- Two entries that agree on everything but, possibly, the status. -/
def sameButStatus (before after : VoiceMessage) : Prop :=
  after.id = before.id ∧ after.type = before.type ∧ after.content = before.content ∧
  after.timestamp = before.timestamp ∧ after.audioUrl = before.audioUrl ∧
  after.metadata = before.metadata

/-- The clock reading an id was made from. -/
def VoiceId.time : VoiceId → Nat
  | .clock n => n
  | .result n => n

/-- The clock readings at which the duration probes of a run answer, in order. -/
def probeTimes : List VoiceEvent → List Nat
  | [] => []
  | e :: es =>
    match e with
    | VoiceEvent.probeSettled _ _ now => now :: probeTimes es
    | _ => probeTimes es

/-- The part of the voice page the upload of an artifact works on is the same
in `v'` as in `v`. -/
def VoicePage.SameUploads (v v' : VoicePage) : Prop :=
  v'.conversation = v.conversation ∧ v'.uploadsInFlight = v.uploadsInFlight ∧
  v'.objectUrlsRef = v.objectUrlsRef ∧ v'.urlsCreated = v.urlsCreated ∧
  v'.revoked = v.revoked ∧ v'.unmounted = v.unmounted ∧ v'.uploads = v.uploads

/-- What holds of the voice page in every state it can reach: the object URLs
held in `objectUrlsRef` are all those created so far, in creation order; none
is revoked before the page is unmounted; after that the revoked ones are those
that had been created when the cleanup ran, each once; and every Message of the
user carries an object URL that was created. -/
structure VoicePage.Inv (v : VoicePage) : Prop where
  urls : v.objectUrlsRef = List.range v.urlsCreated
  kept : v.unmounted = false → v.revoked = []
  released : v.unmounted = true → ∃ n, n ≤ v.urlsCreated ∧ v.revoked = List.range n
  handles : ∀ m ∈ v.conversation, m.type = Author.user →
    ∃ n, m.audioUrl = some (AudioRef.object n) ∧ n < v.urlsCreated

/-- What holds of the voice page when the clock readings `used` by the duration
probes answered so far are pairwise distinct: the ids of the transcript are
distinct and made from those readings, the uploads in flight are distinct, and
each upload in flight has its user Message in the transcript, with status
`uploading`, and no reply yet. -/
structure VoicePage.Fresh (used : List Nat) (v : VoicePage) : Prop where
  ids : (v.conversation.map VoiceMessage.id).Nodup
  inFlight : v.uploadsInFlight.Nodup
  usedIds : ∀ m ∈ v.conversation, m.id.time ∈ used
  usedInFlight : ∀ u ∈ v.uploadsInFlight, u ∈ used
  pending : ∀ u ∈ v.uploadsInFlight, ∃ m ∈ v.conversation,
    m.id = VoiceId.clock u ∧ m.type = Author.user ∧ m.status = some UploadStatus.uploading
  unanswered : ∀ u ∈ v.uploadsInFlight, ∀ m ∈ v.conversation, m.id ≠ VoiceId.result u

/-- The page with its first recording uploaded and answered. -/
def answeredPage : VoicePage :=
  uploadingPage.step
    (VoiceEvent.uploadSettled 0
      (Settled.ok (some ⟨some "Hello", some "hi there", none, none, []⟩)) 300)

/-- Every recorder created along the run reports, as the `MediaRecorder` contract
has it, the media type it was asked for or none. -/
def recorderHonoursRequest : VoicePage → List VoiceEvent → Prop
  | _, [] => True
  | v, e :: es =>
    (∀ r, e = VoiceEvent.micSettled (MicResult.granted r) →
      truthyString r = false ∨ r = v.mimeTypeRef) ∧
    recorderHonoursRequest (v.step e) es

/-- The negotiated media type and the type of every artifact built or uploaded
so far are `'audio/webm'`. -/
structure VoicePage.AllDefault (v : VoicePage) : Prop where
  negotiated : v.mimeTypeRef = "audio/webm"
  blobs : ∀ p ∈ v.probes, p.blobType = "audio/webm" ∧ p.audioBlob.type = "audio/webm"
  files : ∀ u ∈ v.uploads, u.audioFile.type = "audio/webm"

/-- One recording, from press to upload, on a recorder that reports the media
type `'audio/webm'` it was asked for; the duration probe fails. -/
def defaultRun : List VoiceEvent :=
  [VoiceEvent.startRecording, VoiceEvent.micSettled (MicResult.granted "audio/webm"),
   VoiceEvent.stopRecording, VoiceEvent.dataAvailable 0 ⟨[1, 2, 3], "audio/webm"⟩,
   VoiceEvent.recorderStopped 0, VoiceEvent.probeSettled 0 ProbeResult.error 100]

/-! ## Duration display and upload form -/

/-- The method `String.prototype.padStart` with a one-character pad string. -/
def padStart (targetLength : Nat) (pad : Char) (s : String) : String :=
  ⟨List.replicate (targetLength - s.data.length) pad ++ s.data⟩

/-- The function `Math.round` on a finite number: halves go up. -/
def mathRound (q : ℚ) : Int := ⌊q + 1 / 2⌋

/-! ### Numbers as the page computes with them

A finite number of the page is an IEEE 754 double. Its value is kept as a
rational; the result of a division is the double nearest to the exact quotient,
and a number is printed with the fewest digits that read back as the same
double. -/

/-- Rounding to the nearest integer, a tie going to the even one. -/
def roundHalfEven (q : ℚ) : Int :=
  if q - ⌊q⌋ < 1 / 2 then ⌊q⌋
  else if 1 / 2 < q - ⌊q⌋ then ⌊q⌋ + 1
  else if ⌊q⌋ % 2 = 0 then ⌊q⌋ else ⌊q⌋ + 1

/-- The double nearest to `q`, a tie going to the even significand: `q` is
rounded to 53 significant bits. The exponent is not bounded, so this is the
double for magnitudes from `2 ^ (-1022)` up to the largest double. -/
def toDouble (q : ℚ) : ℚ :=
  if q = 0 then 0
  else (roundHalfEven (q / 2 ^ (Int.log 2 |q| - 52)) : ℚ) * 2 ^ (Int.log 2 |q| - 52)

/-- A significand of `k` digits that came out as `10 ^ k` is written `10 ^ (k - 1)`
one decimal place higher. -/
def carry (k : Nat) (s n : Int) : Int × Int :=
  if s = 10 ^ k then (10 ^ (k - 1), n + 1) else (s, n)

/-- The significand `s` and the exponent `n` of a decimal `s * 10 ^ (n - k)` of
`k` digits that reads back as the double `x`, for `0 < x`: of the two decimals
of `k` digits around `x` the one nearer to `x` is taken when it reads back,
else the other one when that reads back. -/
def digitsFor (x : ℚ) (k : Nat) : Option (Int × Int) :=
  let n := Int.log 10 x + 1
  let y := x / 10 ^ (n - k)
  let near := roundHalfEven y
  let other := if near = ⌊y⌋ then ⌊y⌋ + 1 else ⌊y⌋
  ([carry k near n, carry k other n]).find?
    (fun c => decide (toDouble ((c.1 : ℚ) * 10 ^ (c.2 - k)) = x))

/-- The `k`, `s` and `n` of `Number::toString` for `0 < x`: `k` is the least
number of digits, up to the 17 that every double reads back from, for which
`digitsFor` finds a decimal. -/
def shortest (x : ℚ) : Nat × Int × Int :=
  match (List.range 17).findSome? (fun i => (digitsFor x (i + 1)).map (fun c => (i + 1, c))) with
  | some r => r
  | none => (17, carry 17 (roundHalfEven (x / 10 ^ (Int.log 10 x + 1 - 17))) (Int.log 10 x + 1))

/-- A run of `n` zeros. -/
def zeros (n : Nat) : String := ⟨List.replicate n '0'⟩

/-- The text `Number::toString` builds from `k`, `s` and `n`: plain digits with
trailing zeros, digits around a decimal point, `0.` with leading zeros, or the
exponent form. -/
def layout (k : Nat) (s n : Int) : String :=
  let digits := toString s.toNat
  if (k : Int) ≤ n ∧ n ≤ 21 then digits ++ zeros (n - k).toNat
  else if 0 < n ∧ n ≤ 21 then
    ⟨digits.data.take n.toNat⟩ ++ "." ++ ⟨digits.data.drop n.toNat⟩
  else if -6 < n ∧ n ≤ 0 then "0." ++ zeros (-n).toNat ++ digits
  else
    let e := n - 1
    let exp := (if 0 ≤ e then "+" else "-") ++ toString e.natAbs
    if k = 1 then digits ++ "e" ++ exp
    else ⟨digits.data.take 1⟩ ++ "." ++ ⟨digits.data.drop 1⟩ ++ "e" ++ exp

/-- The text of a double `0 < x`: the digits `shortest` finds, laid out by
`layout`. -/
def positiveToString (x : ℚ) : String :=
  layout (shortest x).1 (shortest x).2.1 (shortest x).2.2

/-- The method `Number.prototype.toString` with no radix, also what a template
literal prints for a number. -/
def numberToString : JsNumber → String
  | .finite q =>
    if q = 0 then "0"
    else if q < 0 then "-" ++ positiveToString (-q)
    else positiveToString q
  | .infinity => "Infinity"
  | .nan => "NaN"

/-- The function `formatDuration`; `none` is an `undefined` argument.
`Math.round`, `Math.max`, `Math.floor` and `%` give exact results on doubles;
the division `rounded / 60` gives the double nearest to the quotient. -/
def formatDuration : Option JsNumber → String
  | none => "0:00"
  | some JsNumber.nan => "0:00"
  | some JsNumber.infinity => "Infinity:NaN"
  | some (JsNumber.finite q) =>
    let rounded : Int := max 0 (mathRound q)
    let mins : Int := ⌊toDouble ((rounded : ℚ) / 60)⌋
    let secs : Int := rounded % 60
    numberToString (JsNumber.finite mins) ++ ":" ++
      padStart 2 '0' (numberToString (JsNumber.finite secs))

/-- A value passed as `durationSeconds`. -/
inductive JsValue where
  | undefined
  | null
  | number (n : JsNumber)
  | string (s : String)
deriving DecidableEq, Repr

/-- The expression `typeof v === 'number' && !Number.isNaN(v)`. -/
def JsValue.isRealNumber : JsValue → Bool
  | .number JsNumber.nan => false
  | .number _ => true
  | _ => false

/-- A value appended to a `FormData`. -/
inductive FormValue where
  | file (f : File)
  | text (s : String)
deriving DecidableEq, Repr

/-- The request `chatService.uploadVoiceRecording` posts. -/
structure UploadRequest where
  url : String
  formData : List (String × FormValue)
  contentType : String
deriving DecidableEq, Repr

/-- The function `chatService.uploadVoiceRecording`, up to its `await`. -/
def uploadVoiceRecording (audioFile : File) (durationSeconds : JsValue) : UploadRequest :=
  let formData : List (String × FormValue) := [("audio_file", FormValue.file audioFile)]
  let formData :=
    match durationSeconds with
    | .number n =>
      if durationSeconds.isRealNumber then
        formData ++ [("duration", FormValue.text (numberToString n))]
      else formData
    | _ => formData
  { url := "/chat/voice/", formData := formData, contentType := "multipart/form-data" }

/-! ## Text chat page: more of what holds in every state -/

/-- While a send is in flight the page is not loading and holds an identifier. -/
def ChatPage.Busy (s : ChatPage) : Prop :=
  s.sendsInFlight ≠ [] → s.loading = false ∧ truthyId s.conversationId = true

/-- One text send answered at 105, and a second send initiated at 106. -/
def reusedIdPage : ChatPage :=
  welcomedPage.run
    [ChatEvent.typeInput "first", ChatEvent.send 100,
     ChatEvent.sendSettled 0 (Settled.ok (replyWith "c1" "one")) 105,
     ChatEvent.typeInput "second", ChatEvent.send 106]

/-- Two recordings whose duration probes answer at the same clock reading. -/
def sameReadingPage : VoicePage :=
  (VoicePage.initial anyBrowser).run
    (recordOnce 0 [1, 2, 3] ++ recordOnce 1 [4, 5] ++
      [VoiceEvent.probeSettled 0 (ProbeResult.loadedmetadata (JsNumber.finite 2)) 100,
       VoiceEvent.probeSettled 0 (ProbeResult.loadedmetadata (JsNumber.finite 1)) 100])

/-! ## Voice chat page: one recording session -/

/-- The session of the `n`-th recorder as the page holds it: the recorder is in
state `st`, it is the one in `mediaRecorderRef`, the buffer holds `chunks`, the
recording flag is `recording`, the page is mounted, the suspended duration
probes are `probes` and the negotiated media type is `mimeType`. -/
structure VoicePage.Session (w : VoicePage) (n : Nat) (st : RecorderState)
    (chunks : List Blob) (recording : Bool) (probes : List Probe) (mimeType : String) :
    Prop where
  recorder : ∃ rec, w.recorders[n]? = some rec ∧ rec.state = st
  buffer : w.audioChunksRef = chunks
  current : w.mediaRecorderRef = some n
  flag : w.isRecording = recording
  mounted : w.unmounted = false
  pending : w.probes = probes
  negotiated : w.mimeTypeRef = mimeType

/-- The events of one recording session on the recorder `n`: the microphone is
granted, the chunks `before` arrive, the button is released, the chunks `after`
arrive, the recorder dispatches `stop`. -/
def sessionEvents (n : Nat) (r : String) (before after : List Blob) : List VoiceEvent :=
  [VoiceEvent.micSettled (MicResult.granted r)] ++ before.map (VoiceEvent.dataAvailable n) ++
    [VoiceEvent.stopRecording] ++ after.map (VoiceEvent.dataAvailable n) ++
    [VoiceEvent.recorderStopped n]

/-- The page whose first recording was answered, with the button pressed again:
the buffer still holds the chunk of the first recording. -/
def pressedAgainPage : VoicePage :=
  answeredPage.step VoiceEvent.startRecording

/-! ## Voice chat page: presses, probes and teardown that overlap -/

/-- The page of `twoUploadingPage` after the first of its two uploads was
answered: the second upload is still in flight. -/
def oneSettledPage : VoicePage :=
  twoUploadingPage.step (VoiceEvent.uploadSettled 0 (Settled.ok none) 300)

/-- The page left while the duration probe of its one recording was pending;
the probe answers after the teardown. -/
def lateProbePage : VoicePage :=
  probingPage.run
    [VoiceEvent.unmount,
     VoiceEvent.probeSettled 0 (ProbeResult.loadedmetadata (JsNumber.finite 2)) 100]

/-- Two recording sessions that overlap: the button is released and pressed
again, and the second recorder is created before the first recorder has handed
over its data. The first recorder then delivers its one chunk and stops; the
second session is ended, its recorder delivers its one chunk and stops. -/
def overlappingSessions : List VoiceEvent :=
  [VoiceEvent.startRecording, VoiceEvent.micSettled (MicResult.granted "audio/webm;codecs=opus"),
   VoiceEvent.stopRecording,
   VoiceEvent.startRecording, VoiceEvent.micSettled (MicResult.granted "audio/webm;codecs=opus"),
   VoiceEvent.dataAvailable 0 ⟨[1], "audio/webm;codecs=opus"⟩,
   VoiceEvent.recorderStopped 0,
   VoiceEvent.stopRecording,
   VoiceEvent.dataAvailable 1 ⟨[2, 3], "audio/webm;codecs=opus"⟩,
   VoiceEvent.recorderStopped 1]

/-- One recording, up to the dispatch of `stop`, on a recorder that was asked
for `'audio/webm'` and reports `'audio/mp4'`. -/
def otherTypeRun : List VoiceEvent :=
  [VoiceEvent.startRecording, VoiceEvent.micSettled (MicResult.granted "audio/mp4"),
   VoiceEvent.stopRecording, VoiceEvent.dataAvailable 0 ⟨[1, 2, 3], "audio/mp4"⟩,
   VoiceEvent.recorderStopped 0]

/-- One recording, up to the dispatch of `stop`, on a recorder that reports its
media type with capital letters. -/
def capitalTypeRun : List VoiceEvent :=
  [VoiceEvent.startRecording, VoiceEvent.micSettled (MicResult.granted "audio/OGG;codecs=opus"),
   VoiceEvent.stopRecording, VoiceEvent.dataAvailable 0 ⟨[1, 2, 3], "audio/ogg;codecs=opus"⟩,
   VoiceEvent.recorderStopped 0]

/-- One press on which `new MediaRecorder` throws. -/
def refusedRun : List VoiceEvent :=
  [VoiceEvent.startRecording, VoiceEvent.micSettled MicResult.recorderFailed]

/-- The non-empty media types the recorders created along a run reported. -/
def reportedTypes : List VoiceEvent → List String
  | [] => []
  | VoiceEvent.micSettled (MicResult.granted r) :: es =>
    if truthyString r then r :: reportedTypes es else reportedTypes es
  | _ :: es => reportedTypes es

/-- The negotiated media type and the `blobType` of every artifact are among
`types`; each blob and each file has the type its constructor stores for such a
`blobType`. -/
structure VoicePage.TypedBy (types : List String) (v : VoicePage) : Prop where
  negotiated : v.mimeTypeRef ∈ types
  blobs : ∀ p ∈ v.probes, p.blobType ∈ types ∧ p.audioBlob.type = normalizeType p.blobType
  files : ∀ u ∈ v.uploads, ∃ t ∈ types, u.audioFile.type = normalizeType t
/-! ## Text chat page: lemmas -/

theorem trimChars_eq_nil_of_whitespace (cs : List Char)
    (h : ∀ c ∈ cs, isJsWhitespace c = true) : trimChars cs = [] := by
  have h1 : cs.dropWhile isJsWhitespace = [] := List.dropWhile_eq_nil_iff.mpr h
  simp [trimChars, h1]

theorem sendMessage_of_rejected (now : Nat) (s : ChatPage) (h : sendRejected s = true) :
    sendMessage now s = s := by
  simp [sendMessage, h]

theorem sendMessage_of_accepted (now : Nat) (s : ChatPage) (h : sendRejected s = false) :
    sendMessage now s =
      { s with
        messages := s.messages ++ [userMessage now s.inputMessage]
        inputMessage := ""
        isTyping := true
        sendsInFlight := s.sendsInFlight ++ [⟨s.conversationId, s.inputMessage⟩]
        requests := s.requests ++ [TransportCall.message s.conversationId s.inputMessage] } := by
  simp [sendMessage, h]

theorem sendRejected_eq_false_iff (s : ChatPage) :
    sendRejected s = false ↔
      truthyString (jsTrim s.inputMessage) = true ∧ truthyId s.conversationId = true ∧
        s.loading = false := by
  simp [sendRejected, and_assoc]

theorem run_append (s : ChatPage) (es fs : List ChatEvent) :
    s.run (es ++ fs) = (s.run es).run fs := by
  simp [ChatPage.run, List.foldl_append]

theorem run_cons (s : ChatPage) (e : ChatEvent) (es : List ChatEvent) :
    s.run (e :: es) = (s.step e).run es := rfl

theorem run_nil (s : ChatPage) : s.run [] = s := rfl

/-- The identifier held after a fulfilled send is truthy when it was before. -/
theorem sendMessageSettled_ok_truthy (call : SendCall) (response : ChatResponse) (now : Nat)
    (s : ChatPage) (h : truthyId s.conversationId = true) :
    truthyId (sendMessageSettled call (Settled.ok response) now s).conversationId = true := by
  unfold sendMessageSettled
  by_cases hc : (truthyId response.conversation_id &&
      response.conversation_id != call.conversationId) = true
  · have ht : truthyId response.conversation_id = true := by
      simp only [Bool.and_eq_true] at hc
      exact hc.1
    simp only [if_pos hc]
    exact ht
  · simp only [if_neg hc]
    exact h

theorem sendMessageSettled_ok_messages (call : SendCall) (response : ChatResponse) (now : Nat)
    (s : ChatPage) :
    (sendMessageSettled call (Settled.ok response) now s).messages =
      s.messages ++ [aiMessage now response] := by
  unfold sendMessageSettled
  by_cases hc : (truthyId response.conversation_id &&
      response.conversation_id != call.conversationId) = true
  · simp [hc]
  · simp [hc]

theorem sendMessageSettled_frame (call : SendCall) (r : Settled ChatResponse) (now : Nat)
    (s : ChatPage) :
    (sendMessageSettled call r now s).loading = s.loading ∧
    (sendMessageSettled call r now s).startInFlight = s.startInFlight ∧
    (sendMessageSettled call r now s).sendsInFlight = s.sendsInFlight ∧
    (sendMessageSettled call r now s).requests = s.requests ∧
    (sendMessageSettled call r now s).mounted = s.mounted := by
  unfold sendMessageSettled
  cases r with
  | err => simp
  | ok response =>
    by_cases hc : (truthyId response.conversation_id &&
        response.conversation_id != call.conversationId) = true
    · simp [hc]
    · simp [hc]

/-- One uninterrupted fulfilled turn from a ready page appends its two entries
and leaves the page ready. -/
theorem run_turn (t : Turn) (s : ChatPage) (hs : s.Ready)
    (ht : truthyString (jsTrim t.text) = true) :
    (s.run t.events).messages = s.messages ++ t.entries ∧ (s.run t.events).Ready := by
  obtain ⟨hstart, hsends, hload, hid⟩ := hs
  have hacc : sendRejected { s with inputMessage := t.text } = false := by
    rw [sendRejected_eq_false_iff]
    exact ⟨ht, hid, hload⟩
  have hrun : s.run t.events =
      sendMessageSettled ⟨s.conversationId, t.text⟩ (Settled.ok t.response) t.repliedAt
        { s with
          messages := s.messages ++ [userMessage t.sentAt t.text]
          inputMessage := ""
          isTyping := true
          sendsInFlight := []
          requests := s.requests ++ [TransportCall.message s.conversationId t.text] } := by
    have h1 : s.step (ChatEvent.typeInput t.text) = { s with inputMessage := t.text } := by
      simp [ChatPage.step, hload]
    have h2 : ChatPage.step { s with inputMessage := t.text } (ChatEvent.send t.sentAt) =
        { s with
          messages := s.messages ++ [userMessage t.sentAt t.text]
          inputMessage := ""
          isTyping := true
          sendsInFlight := [⟨s.conversationId, t.text⟩]
          requests := s.requests ++ [TransportCall.message s.conversationId t.text] } := by
      simp only [ChatPage.step]
      rw [sendMessage_of_accepted _ _ hacc]
      simp [hsends]
    simp only [Turn.events, run_cons, run_nil, h1, h2]
    simp [ChatPage.step]
  have hf := sendMessageSettled_frame ⟨s.conversationId, t.text⟩ (Settled.ok t.response)
    t.repliedAt { s with
          messages := s.messages ++ [userMessage t.sentAt t.text]
          inputMessage := ""
          isTyping := true
          sendsInFlight := []
          requests := s.requests ++ [TransportCall.message s.conversationId t.text] }
  rw [hrun]
  refine ⟨?_, ?_, ?_, ?_, ?_⟩
  · rw [sendMessageSettled_ok_messages]
    simp [Turn.entries]
  · rw [hf.2.1]; exact hstart
  · rw [hf.2.2.1]
  · rw [hf.1]; exact hload
  · exact sendMessageSettled_ok_truthy _ _ _ _ hid

theorem run_turns (turns : List Turn) (s : ChatPage) (hs : s.Ready)
    (ht : ∀ t ∈ turns, truthyString (jsTrim t.text) = true) :
    (s.run (turns.flatMap Turn.events)).messages = s.messages ++ turns.flatMap Turn.entries ∧
      (s.run (turns.flatMap Turn.events)).Ready := by
  induction turns generalizing s with
  | nil => exact ⟨by simp [run_nil], hs⟩
  | cons t ts ih =>
    have h1 := run_turn t s hs (ht t (List.mem_cons_self t ts))
    have h2 := ih (s.run t.events) h1.2 (fun u hu => ht u (List.mem_cons_of_mem t hu))
    rw [List.flatMap_cons, run_append, List.flatMap_cons]
    refine ⟨?_, h2.2⟩
    rw [h2.1, h1.1, List.append_assoc]

/-- C1 (as stated, refuted): after `startConversation` has put its welcome
message in the transcript, one fulfilled text send leaves three messages, not
two. -/
theorem welcome_then_send_three_messages :
    welcomedPage.Ready ∧ truthyString (jsTrim helloTurn.text) = true ∧
    (welcomedPage.run helloTurn.events).messages.length = 3 ∧
    (welcomedPage.run helloTurn.events).messages.map Message.sender =
      [Sender.ai, Sender.user, Sender.ai] := by
  refine ⟨⟨rfl, rfl, rfl, rfl⟩, ?_, ?_, ?_⟩ <;> decide

/-- C1 (amended): from a page that holds an identifier, is not loading and has
nothing in flight, N non-blank text sends, each fulfilled before the next is
initiated, leave the transcript that was there before followed by one user
Message and one agent Message per send, in initiation order: 2N messages more,
and exactly 2N when the transcript was empty before. -/
theorem text_sends_append_two_each (turns : List Turn) (s : ChatPage) (hs : s.Ready)
    (ht : ∀ t ∈ turns, truthyString (jsTrim t.text) = true) :
    (s.run (turns.flatMap Turn.events)).messages = s.messages ++ turns.flatMap Turn.entries ∧
    (s.run (turns.flatMap Turn.events)).messages.length =
      s.messages.length + 2 * turns.length ∧
    (s.messages = [] →
      (s.run (turns.flatMap Turn.events)).messages.length = 2 * turns.length) := by
  have h := (run_turns turns s hs ht).1
  have hlen : (turns.flatMap Turn.entries).length = 2 * turns.length := by
    clear h ht
    induction turns with
    | nil => rfl
    | cons t ts ih =>
      rw [List.flatMap_cons, List.length_append, ih]
      simp [Turn.entries]
      omega
  refine ⟨h, ?_, ?_⟩
  · rw [h, List.length_append, hlen]
  · intro he
    rw [h, List.length_append, hlen, he]
    simp

/-- C1 (amended), at two sends after the welcome message. -/
theorem text_sends_append_two_each_witness :
    welcomedPage.Ready ∧
    (∀ t ∈ [helloTurn, helloTurn], truthyString (jsTrim t.text) = true) ∧
    (welcomedPage.run ([helloTurn, helloTurn].flatMap Turn.events)).messages.length =
      welcomedPage.messages.length + 2 * [helloTurn, helloTurn].length :=
  ⟨⟨rfl, rfl, rfl, rfl⟩, by decide,
    (text_sends_append_two_each [helloTurn, helloTurn] welcomedPage ⟨rfl, rfl, rfl, rfl⟩
      (by decide)).2.1⟩


theorem step_send_settled_last (s : ChatPage) (call : SendCall) (r : Settled ChatResponse)
    (now : Nat) (pre : List SendCall) (h : s.sendsInFlight = pre ++ [call]) :
    s.step (ChatEvent.sendSettled pre.length r now) =
      sendMessageSettled call r now { s with sendsInFlight := pre } := by
  simp only [ChatPage.step, h, List.getElem?_concat_length]
  rw [List.eraseIdx_append_of_length_le (Nat.le_refl _)]
  simp

theorem sendMessageSettled_err_eq (call : SendCall) (now : Nat) (s : ChatPage) :
    sendMessageSettled call Settled.err now s =
      { s with
        notifications := s.notifications ++ [⟨"Failed to send message", "error"⟩]
        isTyping := false } := rfl

/-- C2: an accepted text send appends exactly the user's Message when it is
initiated, and the rejection of its request appends nothing, whatever happened
in between; so a send that fails right away leaves the transcript one Message
longer, with the same number of agent Messages. -/
theorem failed_send_appends_one_user_message (s : ChatPage) (sentAt failedAt : Nat)
    (h : sendRejected s = false) :
    (s.step (ChatEvent.send sentAt)).messages =
      s.messages ++ [userMessage sentAt s.inputMessage] ∧
    (userMessage sentAt s.inputMessage).sender = Sender.user ∧
    (∀ (p : ChatPage) (i : Nat),
      (p.step (ChatEvent.sendSettled i Settled.err failedAt)).messages = p.messages) ∧
    (s.run [ChatEvent.send sentAt,
        ChatEvent.sendSettled s.sendsInFlight.length Settled.err failedAt]).messages =
      s.messages ++ [userMessage sentAt s.inputMessage] ∧
    agentCount (s.run [ChatEvent.send sentAt,
        ChatEvent.sendSettled s.sendsInFlight.length Settled.err failedAt]).messages =
      agentCount s.messages := by
  have hsend : s.step (ChatEvent.send sentAt) = _ := sendMessage_of_accepted sentAt s h
  have hrun : (s.run [ChatEvent.send sentAt,
        ChatEvent.sendSettled s.sendsInFlight.length Settled.err failedAt]).messages =
      s.messages ++ [userMessage sentAt s.inputMessage] := by
    rw [run_cons, run_cons, run_nil, hsend,
      step_send_settled_last _ ⟨s.conversationId, s.inputMessage⟩ _ _ s.sendsInFlight rfl,
      sendMessageSettled_err_eq]
  refine ⟨by rw [hsend], rfl, ?_, hrun, ?_⟩
  · intro p i
    simp only [ChatPage.step]
    cases p.sendsInFlight[i]? with
    | none => rfl
    | some call => rfl
  · rw [hrun]
    simp [agentCount, userMessage]

/-- C2, at the welcomed page with `hello` typed. -/
theorem failed_send_appends_one_user_message_witness :
    sendRejected typedPage = false ∧
    (typedPage.run [ChatEvent.send 20,
        ChatEvent.sendSettled typedPage.sendsInFlight.length Settled.err 30]).messages =
      typedPage.messages ++ [userMessage 20 typedPage.inputMessage] :=
  ⟨by decide, (failed_send_appends_one_user_message typedPage 20 30 (by decide)).2.2.2.1⟩

/-- C3: a text send does not change the held conversation identifier when it is
initiated, nor does the rejection of a request, whatever happened in between;
so after a send that fails the held identifier is the one held before it. -/
theorem failed_send_keeps_identifier (s : ChatPage) (sentAt failedAt : Nat) :
    (s.step (ChatEvent.send sentAt)).conversationId = s.conversationId ∧
    (∀ (p : ChatPage) (i : Nat),
      (p.step (ChatEvent.sendSettled i Settled.err failedAt)).conversationId =
        p.conversationId) ∧
    (s.run [ChatEvent.send sentAt,
        ChatEvent.sendSettled s.sendsInFlight.length Settled.err failedAt]).conversationId =
      s.conversationId := by
  have hsettle : ∀ (p : ChatPage) (i : Nat),
      (p.step (ChatEvent.sendSettled i Settled.err failedAt)).conversationId =
        p.conversationId := by
    intro p i
    simp only [ChatPage.step]
    cases p.sendsInFlight[i]? with
    | none => rfl
    | some call => rfl
  have hsend : (s.step (ChatEvent.send sentAt)).conversationId = s.conversationId := by
    simp only [ChatPage.step, sendMessage]
    cases sendRejected s <;> rfl
  refine ⟨hsend, hsettle, ?_⟩
  rw [run_cons, run_cons, run_nil, hsettle, hsend]

/-- C6: when the text field is empty or holds only white space (the characters
`trim` removes), `sendMessage` returns at its guard: no request is posted and the
transcript, the held identifier, the typing and loading indicators and the
rest of the page are as before. -/
theorem blank_input_rejected (s : ChatPage) (now : Nat)
    (h : ∀ c ∈ s.inputMessage.data, isJsWhitespace c = true) :
    s.step (ChatEvent.send now) = s := by
  apply sendMessage_of_rejected
  simp [sendRejected, jsTrim, truthyString, trimChars_eq_nil_of_whitespace _ h]

/-- C6, at the welcomed page with blanks, a tab and a line feed typed. -/
theorem blank_input_rejected_witness :
    (∀ c ∈ blankPage.inputMessage.data, isJsWhitespace c = true) ∧
    blankPage.inputMessage.data.length = 4 ∧
    blankPage.step (ChatEvent.send 20) = blankPage :=
  ⟨by decide, by decide, blank_input_rejected blankPage 20 (by decide)⟩

/-- C4 (the code at the failing input): two sends are initiated while `c1` is
held; the first response carries `c2`, which is adopted; the second response
carries `c1`, which differs from the held `c2`, and the held identifier stays
`c2`, because the comparison reads the `c1` that was held when the second send
was initiated. -/
theorem stale_identifier_comparison :
    overlappedPage.conversationId = some (JsId.str "c2") ∧
    overlappedPage.sendsInFlight = [⟨some (JsId.str "c1"), "second"⟩] ∧
    (replyWith "c1" "two").conversation_id = some (JsId.str "c1") ∧
    (overlappedPage.step
      (ChatEvent.sendSettled 0 (Settled.ok (replyWith "c1" "two")) 31)).conversationId =
        some (JsId.str "c2") := by
  refine ⟨?_, ?_, ?_, ?_⟩ <;> decide

/-- C5 (as stated, refuted): with no identifier held, not loading and `hello`
typed, `sendMessage` returns at its guard: the page is unchanged and the only
request ever posted is the start request. -/
theorem cold_send_rejected :
    noIdentifierPage.conversationId = none ∧ noIdentifierPage.loading = false ∧
    noIdentifierPage.inputMessage = "hello" ∧
    noIdentifierPage.step (ChatEvent.send 20) = noIdentifierPage ∧
    (noIdentifierPage.step (ChatEvent.send 20)).requests = [TransportCall.start "loan"] := by
  refine ⟨?_, ?_, ?_, ?_, ?_⟩ <;> decide

/-- C5 (amended): while no identifier is held a text send is rejected; the
identifier comes from `startConversation`: when its response carries
`conversation_id = "c1"` the held identifier becomes `"c1"`; and every text send
accepted afterwards posts the identifier held at that moment, `"c1"` while it is
the one held, without the caller supplying it. -/
theorem identifier_from_start_then_carried (s : ChatPage) (r : ChatResponse) (now : Nat)
    (hr : r.conversation_id = some (JsId.str "c1")) :
    (s.conversationId = none → s.step (ChatEvent.send now) = s) ∧
    (s.startInFlight = true →
      (s.step (ChatEvent.startSettled (Settled.ok r) now)).conversationId =
        some (JsId.str "c1")) ∧
    (sendRejected s = false →
      (s.step (ChatEvent.send now)).requests =
        s.requests ++ [TransportCall.message s.conversationId s.inputMessage]) ∧
    (s.conversationId = some (JsId.str "c1") → sendRejected s = false →
      (s.step (ChatEvent.send now)).requests =
        s.requests ++ [TransportCall.message (some (JsId.str "c1")) s.inputMessage]) := by
  have hacc : sendRejected s = false →
      (s.step (ChatEvent.send now)).requests =
        s.requests ++ [TransportCall.message s.conversationId s.inputMessage] := by
    intro h
    simp only [ChatPage.step]
    rw [sendMessage_of_accepted now s h]
  refine ⟨?_, ?_, hacc, ?_⟩
  · intro h
    apply sendMessage_of_rejected
    simp [sendRejected, h, truthyId]
  · intro h
    have ht : truthyId r.conversation_id = true := by
      rw [hr]; decide
    simp only [ChatPage.step, h, if_true, startConversationSettled, ht]
    cases hw : orStr r.welcome_message r.aiContent with
    | none => exact hr
    | some c =>
      by_cases hc : truthyString c = true
      · simp only [hc, if_true]; exact hr
      · simp only [hc]; exact hr
  · intro h hrej
    rw [hacc hrej, h]

/-- C5 (amended), at the mounted page and the response of the scenario. -/
theorem identifier_from_start_then_carried_witness :
    (replyWith "c1" "Welcome").conversation_id = some (JsId.str "c1") ∧
    (ChatPage.initial.step ChatEvent.mount).startInFlight = true ∧
    ((ChatPage.initial.step ChatEvent.mount).step
      (ChatEvent.startSettled (Settled.ok (replyWith "c1" "Welcome")) 10)).conversationId =
        some (JsId.str "c1") :=
  ⟨rfl, rfl,
    (identifier_from_start_then_carried (ChatPage.initial.step ChatEvent.mount)
      (replyWith "c1" "Welcome") 10 rfl).2.1 rfl⟩

/-- C7 (as stated, refuted): with the send of `first` in flight (typing
indicator set, one call suspended) and `second` typed, `sendMessage` is accepted:
a second request is posted and a second user Message is appended. -/
theorem second_send_accepted_in_flight :
    oneInFlightPage.isTyping = true ∧
    oneInFlightPage.sendsInFlight = [⟨some (JsId.str "c1"), "first"⟩] ∧
    (oneInFlightPage.step (ChatEvent.send 21)).requests =
      oneInFlightPage.requests ++ [TransportCall.message (some (JsId.str "c1")) "second"] ∧
    (oneInFlightPage.step (ChatEvent.send 21)).messages =
      oneInFlightPage.messages ++ [userMessage 21 "second"] := by
  refine ⟨?_, ?_, ?_, ?_⟩ <;> decide

/-- C7 (amended): a text send is rejected, leaving the page unchanged, exactly
when the text is blank, no identifier is held or the page is loading, that is
while the start request is in flight; in particular a send initiated while
loading posts nothing and leaves the transcript unchanged. A send in flight is
not among the conditions. -/
theorem send_rejected_exactly_when (s : ChatPage) (now : Nat) :
    (s.step (ChatEvent.send now) = s ↔
      (truthyString (jsTrim s.inputMessage) = false ∨ truthyId s.conversationId = false ∨
        s.loading = true)) ∧
    (s.loading = true →
      (s.step (ChatEvent.send now)).requests = s.requests ∧
      (s.step (ChatEvent.send now)).messages = s.messages) := by
  have hguard : sendRejected s = true ↔
      (truthyString (jsTrim s.inputMessage) = false ∨ truthyId s.conversationId = false ∨
        s.loading = true) := by
    simp [sendRejected, or_assoc]
  constructor
  · rw [← hguard]
    constructor
    · intro h
      by_contra hn
      have hacc : sendRejected s = false := by simpa using hn
      have hreq := congrArg (fun p => p.requests.length) h
      simp only [ChatPage.step] at hreq
      rw [sendMessage_of_accepted now s hacc] at hreq
      simp at hreq
    · intro h
      exact sendMessage_of_rejected now s h
  · intro h
    have hrej : sendRejected s = true := hguard.mpr (Or.inr (Or.inr h))
    have : s.step (ChatEvent.send now) = s := sendMessage_of_rejected now s hrej
    rw [this]
    exact ⟨rfl, rfl⟩

theorem userTexts_append (xs ys : List Message) :
    userTexts (xs ++ ys) = userTexts xs ++ userTexts ys := by
  simp [userTexts]

theorem sentTexts_append (xs ys : List TransportCall) :
    sentTexts (xs ++ ys) = sentTexts xs ++ sentTexts ys := by
  simp [sentTexts, List.filterMap_append]

theorem inv_initial : ChatPage.initial.Inv :=
  ⟨rfl, fun _ => ⟨rfl, rfl, rfl, rfl⟩, fun h => by simp [ChatPage.initial] at h⟩

/-- What `startConversation` leaves in place after its `await`: everything but
the identifier, the transcript, the loading flag and the notifications; the
transcript is kept or set to the welcome message alone. -/
theorem startConversationSettled_frame (r : Settled ChatResponse) (now : Nat) (s : ChatPage) :
    (startConversationSettled r now s).requests = s.requests ∧
    (startConversationSettled r now s).mounted = s.mounted ∧
    (startConversationSettled r now s).startInFlight = s.startInFlight ∧
    (startConversationSettled r now s).sendsInFlight = s.sendsInFlight ∧
    ((startConversationSettled r now s).messages = s.messages ∨
      ∃ response c, r = Settled.ok response ∧
        (startConversationSettled r now s).messages = [welcomeMessage now c]) := by
  cases r with
  | err => exact ⟨rfl, rfl, rfl, rfl, Or.inl rfl⟩
  | ok response =>
    simp only [startConversationSettled]
    by_cases hid : truthyId response.conversation_id = true
    · cases hw : orStr response.welcome_message response.aiContent with
      | none => simp [hid]
      | some c =>
        by_cases hc : truthyString c = true
        · refine ⟨by simp [hid, hc], by simp [hid, hc], by simp [hid, hc],
            by simp [hid, hc], Or.inr ⟨response, c, rfl, by simp [hid, hc]⟩⟩
        · simp [hid, hc]
    · cases hw : orStr response.welcome_message response.aiContent with
      | none => simp [hid]
      | some c =>
        by_cases hc : truthyString c = true
        · refine ⟨by simp [hid, hc], by simp [hid, hc], by simp [hid, hc],
            by simp [hid, hc], Or.inr ⟨response, c, rfl, by simp [hid, hc]⟩⟩
        · simp [hid, hc]

/-- What an event appends to the transcript. -/
theorem step_messages (s : ChatPage) (hs : s.Inv) (e : ChatEvent) :
    ∃ added : List Message, (s.step e).messages = s.messages ++ added ∧
      (added = [] ∨
       (∃ now, e = ChatEvent.send now ∧ sendRejected s = false ∧
          added = [userMessage now s.inputMessage]) ∨
       (∃ i response now, e = ChatEvent.sendSettled i (Settled.ok response) now ∧
          i < s.sendsInFlight.length ∧ added = [aiMessage now response]) ∨
       (∃ response now c, e = ChatEvent.startSettled (Settled.ok response) now ∧
          s.messages = [] ∧ added = [welcomeMessage now c])) := by
  cases e with
  | mount =>
    refine ⟨[], ?_, Or.inl rfl⟩
    simp only [ChatPage.step]
    by_cases hm : s.mounted = true
    · simp [hm]
    · simp [hm, startConversation]
  | startSettled r now =>
    by_cases hf : s.startInFlight = true
    · have hempty := (hs.starting hf).1
      have hfr := startConversationSettled_frame r now { s with startInFlight := false }
      simp only [ChatPage.step, hf, if_true]
      rcases hfr.2.2.2.2 with h | ⟨response, c, hr, h⟩
      · exact ⟨[], by rw [h]; simp, Or.inl rfl⟩
      · refine ⟨[welcomeMessage now c], by rw [h, hempty]; rfl, ?_⟩
        exact Or.inr (Or.inr (Or.inr ⟨response, now, c, by rw [hr], hempty, rfl⟩))
    · exact ⟨[], by simp [ChatPage.step, hf], Or.inl rfl⟩
  | typeInput value =>
    refine ⟨[], ?_, Or.inl rfl⟩
    simp only [ChatPage.step]
    by_cases hl : s.loading = true
    · simp [hl]
    · simp [hl]
  | send now =>
    by_cases hr : sendRejected s = true
    · exact ⟨[], by simp [ChatPage.step, sendMessage_of_rejected now s hr], Or.inl rfl⟩
    · have hacc : sendRejected s = false := by simpa using hr
      refine ⟨[userMessage now s.inputMessage], ?_, Or.inr (Or.inl ⟨now, rfl, hacc, rfl⟩)⟩
      simp only [ChatPage.step]
      rw [sendMessage_of_accepted now s hacc]
  | sendSettled i r now =>
    simp only [ChatPage.step]
    cases hc : s.sendsInFlight[i]? with
    | none => exact ⟨[], by simp, Or.inl rfl⟩
    | some call =>
      have hi : i < s.sendsInFlight.length := by
        by_contra hn
        rw [List.getElem?_eq_none (Nat.le_of_not_lt hn)] at hc
        exact Option.noConfusion hc
      cases r with
      | err => exact ⟨[], by simp [sendMessageSettled_err_eq], Or.inl rfl⟩
      | ok response =>
        refine ⟨[aiMessage now response], ?_,
          Or.inr (Or.inr (Or.inl ⟨i, response, now, rfl, hi, rfl⟩))⟩
        simp only []
        rw [sendMessageSettled_ok_messages]

theorem inv_step (s : ChatPage) (hs : s.Inv) (e : ChatEvent) : (s.step e).Inv := by
  cases e with
  | mount =>
    simp only [ChatPage.step]
    by_cases hm : s.mounted = true
    · simpa [hm] using hs
    · have hm' : s.mounted = false := by simpa using hm
      obtain ⟨_, hmsg, _, hsends⟩ := hs.unmounted hm'
      simp only [hm, startConversation]
      refine ⟨?_, ?_, ?_⟩
      · simpa [sentTexts_append, sentTexts] using hs.texts
      · intro h; simp at h
      · intro _; exact ⟨hmsg, rfl, hsends⟩
  | startSettled r now =>
    by_cases hf : s.startInFlight = true
    · obtain ⟨hempty, _, hsends⟩ := hs.starting hf
      have hmounted : s.mounted = true := by
        by_contra hn
        have := (hs.unmounted (by simpa using hn)).2.2.1
        rw [hf] at this
        exact Bool.noConfusion this
      have hfr := startConversationSettled_frame r now { s with startInFlight := false }
      simp only [ChatPage.step, hf, if_true]
      refine ⟨?_, ?_, ?_⟩
      · rw [hfr.1]
        rcases hfr.2.2.2.2 with h | ⟨response, c, _, h⟩
        · rw [h]; exact hs.texts
        · rw [h]
          have := hs.texts
          rw [hempty] at this
          rw [← this]
          rfl
      · intro h
        rw [hfr.2.1] at h
        rw [hmounted] at h
        exact Bool.noConfusion h
      · intro h
        rw [hfr.2.2.1] at h
        exact Bool.noConfusion h
    · simpa [ChatPage.step, hf] using hs
  | typeInput value =>
    simp only [ChatPage.step]
    by_cases hl : s.loading = true
    · simpa [hl] using hs
    · rw [if_neg hl]
      exact ⟨hs.texts, hs.unmounted, hs.starting⟩
  | send now =>
    by_cases hr : sendRejected s = true
    · simpa [ChatPage.step, sendMessage_of_rejected now s hr] using hs
    · have hacc : sendRejected s = false := by simpa using hr
      obtain ⟨_, hid, hload⟩ := (sendRejected_eq_false_iff s).mp hacc
      have hmounted : s.mounted = true := by
        by_contra hn
        have := (hs.unmounted (by simpa using hn)).1
        rw [this] at hid
        exact Bool.noConfusion hid
      have hstart : s.startInFlight = false := by
        by_contra hn
        have := (hs.starting (by simpa using hn)).2.1
        rw [hload] at this
        exact Bool.noConfusion this
      simp only [ChatPage.step]
      rw [sendMessage_of_accepted now s hacc]
      refine ⟨?_, ?_, ?_⟩
      · simp only [userTexts_append, sentTexts_append, hs.texts]
        rfl
      · intro h
        rw [hmounted] at h
        exact Bool.noConfusion h
      · intro h
        rw [hstart] at h
        exact Bool.noConfusion h
  | sendSettled i r now =>
    simp only [ChatPage.step]
    cases hc : s.sendsInFlight[i]? with
    | none => simpa using hs
    | some call =>
      have hne : s.sendsInFlight ≠ [] := by
        intro hn
        rw [hn] at hc
        simp at hc
      have hmounted : s.mounted = true := by
        by_contra hn
        exact hne (hs.unmounted (by simpa using hn)).2.2.2
      have hstart : s.startInFlight = false := by
        by_contra hn
        exact hne (hs.starting (by simpa using hn)).2.2
      have hfr := sendMessageSettled_frame call r now
        { s with sendsInFlight := s.sendsInFlight.eraseIdx i }
      simp only []
      refine ⟨?_, ?_, ?_⟩
      · rw [hfr.2.2.2.1]
        cases r with
        | err => exact hs.texts
        | ok response =>
          rw [sendMessageSettled_ok_messages, userTexts_append]
          have : userTexts [aiMessage now response] = [] := rfl
          rw [this, List.append_nil]
          exact hs.texts
      · intro h
        rw [hfr.2.2.2.2, hmounted] at h
        exact Bool.noConfusion h
      · intro h
        rw [hfr.2.1, hstart] at h
        exact Bool.noConfusion h

theorem inv_run (es : List ChatEvent) (s : ChatPage) (hs : s.Inv) : (s.run es).Inv := by
  induction es generalizing s with
  | nil => exact hs
  | cons e es ih => exact ih (s.step e) (inv_step s hs e)

theorem inv_of_reachable (s : ChatPage) (hs : s.Reachable) : s.Inv := by
  obtain ⟨es, rfl⟩ := hs
  exact inv_run es ChatPage.initial inv_initial

/-- C8 (as stated, refuted): the sends of `first` and `second` are both
accepted before either is answered; the reply to `first` is then appended after
the user Message `second`. -/
theorem reply_after_later_user_message :
    overlappedPage.messages.map Message.content = ["Welcome", "first", "second", "one"] ∧
    overlappedPage.messages.map Message.sender =
      [Sender.ai, Sender.user, Sender.user, Sender.ai] ∧
    sentTexts overlappedPage.requests = ["first", "second"] := by
  refine ⟨?_, ?_, ?_⟩ <;> decide

/-- C8 (amended): in every state the page can reach, the user's Messages stand
in the transcript in the order their sends were initiated (they are the texts
posted, in posting order), and every event keeps the transcript and appends at
most one Message at its end: an accepted send its user Message when it is
initiated, a fulfilled response its agent reply when it arrives, the start
response the welcome message on an empty transcript. A reply therefore follows
its own user Message, and follows a later send's user Message exactly when that
send was initiated before the reply arrived. -/
theorem user_messages_in_initiation_order (s : ChatPage) (hs : s.Reachable) (e : ChatEvent) :
    userTexts s.messages = sentTexts s.requests ∧
    ∃ added : List Message, (s.step e).messages = s.messages ++ added ∧
      (added = [] ∨
       (∃ now, e = ChatEvent.send now ∧ sendRejected s = false ∧
          added = [userMessage now s.inputMessage]) ∨
       (∃ i response now, e = ChatEvent.sendSettled i (Settled.ok response) now ∧
          i < s.sendsInFlight.length ∧ added = [aiMessage now response]) ∨
       (∃ response now c, e = ChatEvent.startSettled (Settled.ok response) now ∧
          s.messages = [] ∧ added = [welcomeMessage now c])) :=
  ⟨(inv_of_reachable s hs).texts, step_messages s (inv_of_reachable s hs) e⟩

/-- C8 (amended), at the page with two sends in flight and the first answered. -/
theorem user_messages_in_initiation_order_witness :
    overlappedPage.Reachable ∧
    userTexts overlappedPage.messages = sentTexts overlappedPage.requests ∧
    userTexts overlappedPage.messages = ["first", "second"] :=
  ⟨⟨[ChatEvent.mount,
      ChatEvent.startSettled
        (Settled.ok ⟨some (JsId.str "c1"), some "Welcome", none, none⟩) 10,
      ChatEvent.typeInput "first", ChatEvent.send 20, ChatEvent.typeInput "second",
      ChatEvent.send 21, ChatEvent.sendSettled 0 (Settled.ok (replyWith "c2" "one")) 30], rfl⟩,
    (user_messages_in_initiation_order overlappedPage
      ⟨[ChatEvent.mount,
        ChatEvent.startSettled
          (Settled.ok ⟨some (JsId.str "c1"), some "Welcome", none, none⟩) 10,
        ChatEvent.typeInput "first", ChatEvent.send 20, ChatEvent.typeInput "second",
        ChatEvent.send 21, ChatEvent.sendSettled 0 (Settled.ok (replyWith "c2" "one")) 30],
        rfl⟩
      ChatEvent.mount).1,
    by decide⟩

/-! ## Voice chat page: theorems -/

theorem voice_run_append (s : VoicePage) (es fs : List VoiceEvent) :
    s.run (es ++ fs) = (s.run es).run fs := by
  simp [VoicePage.run, List.foldl_append]

/-- When `processVoiceRecording` starts, after the duration probe has answered,
it sets both flags and appends the user's Message with status `uploading`. -/
theorem processVoiceRecording_sets_flags (audioBlob : Blob) (durationSeconds : JsNumber)
    (blobType : String) (now : Nat) (s : VoicePage) :
    (processVoiceRecording audioBlob durationSeconds blobType now s).isProcessing = true ∧
    (processVoiceRecording audioBlob durationSeconds blobType now s).isUploading = true ∧
    (processVoiceRecording audioBlob durationSeconds blobType now s).conversation =
      s.conversation ++ [voiceUserMessage now s.urlsCreated durationSeconds] :=
  ⟨rfl, rfl, rfl⟩

/-- C9 (the code at the failing input): a first recording is made and stopped;
while its duration probe has not answered, the flags `isProcessing` and
`isUploading` are still unset, so a second recording is started and stopped;
both probes then answer, and the transcript holds two Messages with status
`uploading`, with two uploads in flight. -/
theorem two_messages_uploading :
    ((VoicePage.initial anyBrowser).run (recordOnce 0 [1, 2, 3])).isProcessing = false ∧
    ((VoicePage.initial anyBrowser).run (recordOnce 0 [1, 2, 3])).isUploading = false ∧
    ((VoicePage.initial anyBrowser).run (recordOnce 0 [1, 2, 3])).probes.length = 1 ∧
    twoUploadingPage.conversation.map VoiceMessage.status =
      [some UploadStatus.uploading, some UploadStatus.uploading] ∧
    uploadingCount twoUploadingPage.conversation = 2 ∧
    twoUploadingPage.uploadsInFlight = [100, 200] := by
  refine ⟨?_, ?_, ?_, ?_, ?_, ?_⟩ <;> decide

theorem startRecording_of_flag (s : VoicePage)
    (h : s.isProcessing = true ∨ s.isUploading = true) :
    s.step VoiceEvent.startRecording = s := by
  simp only [VoicePage.step, startRecording]
  rcases h with h | h <;> simp [h]

/-- Only the settlement of an upload clears `isProcessing` or `isUploading`. -/
theorem flags_kept (s : VoicePage) (e : VoiceEvent) (he : e.isUploadSettled = false)
    (h : s.isProcessing = true ∨ s.isUploading = true) :
    (s.step e).isProcessing = true ∨ (s.step e).isUploading = true := by
  cases e with
  | startRecording => rw [startRecording_of_flag s h]; exact h
  | micSettled r =>
    simp only [VoicePage.step]
    by_cases hp : s.micPending = 0
    · rw [if_pos hp]; exact h
    · rw [if_neg hp]
      cases r <;> exact h
  | dataAvailable i data =>
    simp only [VoicePage.step]
    cases s.recorders[i]? with
    | none => exact h
    | some rec =>
      by_cases hr : rec.state = RecorderState.inactive
      · simp only [hr, if_true]; exact h
      · simp only [hr, if_false]; exact h
  | stopRecording =>
    simp only [VoicePage.step, stopRecording]
    by_cases hu : s.unmounted = true
    · rw [if_pos hu]; exact h
    · rw [if_neg hu]
      cases s.mediaRecorderRef with
      | none => exact h
      | some i =>
        by_cases hr : s.isRecording = true
        · simp only [hr, if_true]; exact h
        · simp only [hr]; exact h
  | recorderStopped i =>
    simp only [VoicePage.step]
    cases s.recorders[i]? with
    | none => exact h
    | some rec =>
      by_cases hr : rec.state = RecorderState.stopping
      · simp only [hr, if_true]; exact h
      · simp only [hr, if_false]; exact h
  | probeSettled j r now =>
    simp only [VoicePage.step]
    cases s.probes[j]? with
    | none => exact h
    | some p => exact Or.inl rfl
  | uploadSettled k r now => simp [VoiceEvent.isUploadSettled] at he
  | unmount =>
    simp only [VoicePage.step]
    by_cases hu : s.unmounted = true
    · rw [if_pos hu]; exact h
    · rw [if_neg hu]; exact h

theorem flags_kept_run (es : List VoiceEvent) (s : VoicePage)
    (hes : ∀ e ∈ es, e.isUploadSettled = false)
    (h : s.isProcessing = true ∨ s.isUploading = true) :
    (s.run es).isProcessing = true ∨ (s.run es).isUploading = true := by
  induction es generalizing s with
  | nil => exact h
  | cons e es ih =>
    exact ih (s.step e) (fun x hx => hes x (List.mem_cons_of_mem e hx))
      (flags_kept s e (hes e (List.mem_cons_self e es)) h)

/-- The guard of `startRecording`: when `isProcessing` or `isUploading` is set,
as they are from the moment `processVoiceRecording` appends an artifact's
Message, `startRecording` returns at its guard: `getUserMedia` is not called, no recorder is created, and
the recording flag, the transcript and the rest of the page are as before; and
this stays so after any events among which no upload settles. -/
theorem start_rejected_while_processing (s : VoicePage) (es : List VoiceEvent)
    (h : s.isProcessing = true ∨ s.isUploading = true)
    (hes : ∀ e ∈ es, e.isUploadSettled = false) :
    s.step VoiceEvent.startRecording = s ∧
    (s.step VoiceEvent.startRecording).micRequests = s.micRequests ∧
    (s.step VoiceEvent.startRecording).micPending = s.micPending ∧
    (s.step VoiceEvent.startRecording).recorders = s.recorders ∧
    (s.step VoiceEvent.startRecording).mediaRecorderRef = s.mediaRecorderRef ∧
    (s.step VoiceEvent.startRecording).isRecording = s.isRecording ∧
    (s.step VoiceEvent.startRecording).conversation = s.conversation ∧
    (s.run es).step VoiceEvent.startRecording = s.run es := by
  have hstep := startRecording_of_flag s h
  refine ⟨hstep, ?_, ?_, ?_, ?_, ?_, ?_, ?_⟩
  all_goals first
    | rw [hstep]
    | exact startRecording_of_flag (s.run es) (flags_kept_run es s hes h)

/-- The guard at the page whose first recording is uploading, pressed again and
released. -/
theorem start_rejected_while_processing_witness :
    uploadingPage.isProcessing = true ∧ uploadingPage.uploadsInFlight = [100] ∧
    (∀ e ∈ [VoiceEvent.stopRecording], e.isUploadSettled = false) ∧
    uploadingPage.step VoiceEvent.startRecording = uploadingPage ∧
    (uploadingPage.step VoiceEvent.startRecording).micRequests = 1 :=
  ⟨by decide, by decide, by simp [VoiceEvent.isUploadSettled],
    (start_rejected_while_processing uploadingPage [VoiceEvent.stopRecording]
      (Or.inl (by decide)) (by simp [VoiceEvent.isUploadSettled])).1, by decide⟩

/-- C11 (the code at the failing input): `startRecording` is invoked while a
recording is in progress (recording flag set, recorder 0 recording). Its guard
tests only `isProcessing` and `isUploading`, so the microphone is requested
again; when it is granted a second recorder is created and replaces the first
in `mediaRecorderRef`. Both recorders are then recording, and `stopRecording`
stops the second only: the first keeps recording with its tracks live. Two
presses before the first grant lead to two recorders recording as well. -/
theorem second_recorder_while_recording :
    recordingPage.isRecording = true ∧
    recordingPage.recorders.map Recorder.state = [RecorderState.recording] ∧
    (recordingPage.step VoiceEvent.startRecording).micRequests = 2 ∧
    (recordingPage.run [VoiceEvent.startRecording,
        VoiceEvent.micSettled (MicResult.granted "audio/webm;codecs=opus")]).recorders.map Recorder.state =
      [RecorderState.recording, RecorderState.recording] ∧
    (recordingPage.run [VoiceEvent.startRecording,
        VoiceEvent.micSettled (MicResult.granted "audio/webm;codecs=opus")]).mediaRecorderRef = some 1 ∧
    (recordingPage.run [VoiceEvent.startRecording,
        VoiceEvent.micSettled (MicResult.granted "audio/webm;codecs=opus"),
        VoiceEvent.stopRecording]).recorders.map Recorder.state =
      [RecorderState.recording, RecorderState.stopping] ∧
    (recordingPage.run [VoiceEvent.startRecording,
        VoiceEvent.micSettled (MicResult.granted "audio/webm;codecs=opus"),
        VoiceEvent.stopRecording]).recorders.map Recorder.tracksLive = [true, false] ∧
    ((VoicePage.initial anyBrowser).run [VoiceEvent.startRecording, VoiceEvent.startRecording,
        VoiceEvent.micSettled (MicResult.granted "audio/webm;codecs=opus"),
        VoiceEvent.micSettled (MicResult.granted "audio/webm;codecs=opus")]).recorders.map Recorder.state =
      [RecorderState.recording, RecorderState.recording] := by
  refine ⟨?_, ?_, ?_, ?_, ?_, ?_, ?_, ?_⟩ <;> decide

/-- C12: `stopRecording` called when `mediaRecorderRef` holds no recorder, or
when the recording flag is unset, does nothing: no Message is created and the
transcript, the three flags, the refs and the rest of the page are as before. -/
theorem stop_without_session_noop (s : VoicePage)
    (h : s.mediaRecorderRef = none ∨ s.isRecording = false) :
    s.step VoiceEvent.stopRecording = s ∧
    (s.step VoiceEvent.stopRecording).conversation = s.conversation ∧
    (s.step VoiceEvent.stopRecording).isRecording = s.isRecording ∧
    (s.step VoiceEvent.stopRecording).isProcessing = s.isProcessing ∧
    (s.step VoiceEvent.stopRecording).isUploading = s.isUploading ∧
    (s.step VoiceEvent.stopRecording).probes = s.probes ∧
    (s.step VoiceEvent.stopRecording).uploads = s.uploads := by
  have hstep : s.step VoiceEvent.stopRecording = s := by
    simp only [VoicePage.step, stopRecording]
    by_cases hu : s.unmounted = true
    · rw [if_pos hu]
    · rw [if_neg hu]
      rcases h with h | h
      · rw [h]
      · cases s.mediaRecorderRef with
        | none => rfl
        | some i => simp [h]
  rw [hstep]
  exact ⟨rfl, rfl, rfl, rfl, rfl, rfl, rfl⟩

/-- C12, at the first render (no recorder) and after a recording was stopped
(recorder present, flag unset). -/
theorem stop_without_session_noop_witness :
    (VoicePage.initial anyBrowser).mediaRecorderRef = none ∧
    (VoicePage.initial anyBrowser).step VoiceEvent.stopRecording = VoicePage.initial anyBrowser ∧
    probingPage.mediaRecorderRef = some 0 ∧ probingPage.isRecording = false ∧
    probingPage.step VoiceEvent.stopRecording = probingPage :=
  ⟨rfl,
    (stop_without_session_noop (VoicePage.initial anyBrowser) (Or.inl rfl)).1,
    by decide, by decide,
    (stop_without_session_noop probingPage (Or.inr (by decide))).1⟩

theorem step_probeSettled (v : VoicePage) (j : Nat) (p : Probe) (r : ProbeResult) (now : Nat)
    (hj : v.probes[j]? = some p) :
    v.step (VoiceEvent.probeSettled j r now) =
      processVoiceRecording p.audioBlob (durationOf r) p.blobType now
        { v with probes := v.probes.eraseIdx j } := by
  simp only [VoicePage.step, hj]

/-- C17: when the duration probe of a captured artifact fails, the awaited
duration is `0` and `processVoiceRecording` runs all the same: the user's Message
is appended with status `uploading` and metadata duration `0`, and the file made
of the artifact's bytes is uploaded with duration `0`. -/
theorem probe_failure_still_uploads (v : VoicePage) (j : Nat) (p : Probe) (now : Nat)
    (hj : v.probes[j]? = some p) :
    getAudioDuration ProbeResult.error = Settled.err ∧
    durationOf ProbeResult.error = JsNumber.finite 0 ∧
    (v.step (VoiceEvent.probeSettled j ProbeResult.error now)).conversation =
      v.conversation ++ [voiceUserMessage now v.urlsCreated (JsNumber.finite 0)] ∧
    (voiceUserMessage now v.urlsCreated (JsNumber.finite 0)).status =
      some UploadStatus.uploading ∧
    (voiceUserMessage now v.urlsCreated (JsNumber.finite 0)).metadata =
      VoiceMetadata.duration (JsNumber.finite 0) ∧
    (v.step (VoiceEvent.probeSettled j ProbeResult.error now)).uploads =
      v.uploads ++ [⟨voiceFile now p.audioBlob p.blobType, JsNumber.finite 0⟩] ∧
    (voiceFile now p.audioBlob p.blobType).bytes = p.audioBlob.bytes ∧
    (v.step (VoiceEvent.probeSettled j ProbeResult.error now)).uploadsInFlight =
      v.uploadsInFlight ++ [now] := by
  rw [step_probeSettled v j p ProbeResult.error now hj]
  exact ⟨rfl, rfl, rfl, rfl, rfl, rfl, rfl, rfl⟩

/-- C17, at the page whose first recording awaits its duration probe. -/
theorem probe_failure_still_uploads_witness :
    probingPage.probes[0]? = some ⟨⟨[1, 2, 3], "audio/webm;codecs=opus"⟩, "audio/webm;codecs=opus"⟩ ∧
    (probingPage.step (VoiceEvent.probeSettled 0 ProbeResult.error 100)).conversation =
      probingPage.conversation ++ [voiceUserMessage 100 probingPage.urlsCreated (JsNumber.finite 0)] ∧
    (probingPage.step (VoiceEvent.probeSettled 0 ProbeResult.error 100)).uploads.map
      (fun u => u.audioFile.bytes) = [[1, 2, 3]] :=
  ⟨by decide,
    (probe_failure_still_uploads probingPage 0
      ⟨⟨[1, 2, 3], "audio/webm;codecs=opus"⟩, "audio/webm;codecs=opus"⟩ 100 (by decide)).2.2.1,
    by decide⟩

theorem truthy_of_supported (t : String) (h : t ∈ SUPPORTED_AUDIO_TYPES) :
    truthyString t = true := by
  simp only [SUPPORTED_AUDIO_TYPES, List.mem_cons, List.mem_singleton, List.not_mem_nil,
    or_false] at h
  rcases h with h | h | h <;> rw [h] <;> decide

theorem getSupportedMimeType_of_none (b : Browser)
    (h : ∀ t ∈ SUPPORTED_AUDIO_TYPES, b.isTypeSupported t = false) :
    getSupportedMimeType b = "audio/webm" := by
  have hfind : SUPPORTED_AUDIO_TYPES.find? b.isTypeSupported = none := by
    rw [List.find?_eq_none]
    intro x hx
    simp [h x hx]
  unfold getSupportedMimeType
  rw [hfind]
  simp

/-- C18: for every browser, `getSupportedMimeType` returns `'audio/webm'` when
there is no `MediaRecorder` and when the support predicate accepts no entry of
the preference list; otherwise it returns the first entry the predicate
accepts, the one before which every entry is refused. -/
theorem getSupportedMimeType_first_supported (b : Browser) :
    SUPPORTED_AUDIO_TYPES = ["audio/webm;codecs=opus", "audio/ogg;codecs=opus", "audio/webm"] ∧
    (b.hasMediaRecorder = false → getSupportedMimeType b = "audio/webm") ∧
    ((∀ t ∈ SUPPORTED_AUDIO_TYPES, b.isTypeSupported t = false) →
      getSupportedMimeType b = "audio/webm") ∧
    (b.hasMediaRecorder = true →
      ∀ (pre : List String) (t : String) (post : List String),
        SUPPORTED_AUDIO_TYPES = pre ++ t :: post →
        (∀ x ∈ pre, b.isTypeSupported x = false) → b.isTypeSupported t = true →
        getSupportedMimeType b = t) := by
  refine ⟨rfl, ?_, getSupportedMimeType_of_none b, ?_⟩
  · intro h
    simp [getSupportedMimeType, h]
  · intro hrec pre t post hsplit hpre ht
    have hmem : t ∈ SUPPORTED_AUDIO_TYPES := by
      rw [hsplit]; simp
    have hfind : SUPPORTED_AUDIO_TYPES.find? b.isTypeSupported = some t := by
      rw [hsplit, List.find?_append]
      have hnone : pre.find? b.isTypeSupported = none := by
        rw [List.find?_eq_none]
        intro x hx
        simp [hpre x hx]
      rw [hnone]
      simp [List.find?_cons, ht]
    unfold getSupportedMimeType
    rw [hfind]
    simp [hrec, truthy_of_supported t hmem]

theorem setStatus_length (id : VoiceId) (st : UploadStatus) (l : List VoiceMessage) :
    (setStatus id st l).length = l.length := by
  simp [setStatus]

theorem setStatus_eq_self (id : VoiceId) (st : UploadStatus) (l : List VoiceMessage)
    (h : ∀ m ∈ l, m.id ≠ id) : setStatus id st l = l := by
  induction l with
  | nil => rfl
  | cons a t ih =>
    have ha : a.id ≠ id := h a (List.mem_cons_self a t)
    have ht : setStatus id st t = t := ih (fun m hm => h m (List.mem_cons_of_mem a hm))
    simp only [setStatus, List.map_cons, if_neg ha]
    exact congrArg (a :: ·) ht

theorem setStatus_append (id : VoiceId) (st : UploadStatus) (l₁ l₂ : List VoiceMessage) :
    setStatus id st (l₁ ++ l₂) = setStatus id st l₁ ++ setStatus id st l₂ := by
  simp [setStatus]

/-- Where ids are distinct, the status update rewrites the one entry with the id. -/
theorem setStatus_split (id : VoiceId) (st : UploadStatus) (pre post : List VoiceMessage)
    (m : VoiceMessage) (hm : m.id = id)
    (hnd : ((pre ++ m :: post).map VoiceMessage.id).Nodup) :
    setStatus id st (pre ++ m :: post) = pre ++ { m with status := some st } :: post := by
  rw [List.map_append, List.map_cons, List.nodup_append] at hnd
  obtain ⟨_, hpost, hdisj⟩ := hnd
  have hpre : ∀ x ∈ pre, x.id ≠ id := by
    intro x hx hxid
    exact hdisj (List.mem_map_of_mem VoiceMessage.id hx) (by rw [hxid, ← hm]; simp)
  have hpost' : ∀ x ∈ post, x.id ≠ id := by
    intro x hx hxid
    rw [List.nodup_cons] at hpost
    exact hpost.1 (by rw [hm, ← hxid]; exact List.mem_map_of_mem VoiceMessage.id hx)
  rw [setStatus_append, setStatus_eq_self id st pre hpre]
  have hcons : setStatus id st (m :: post) =
      { m with status := some st } :: setStatus id st post := by
    simp [setStatus, hm]
  rw [hcons, setStatus_eq_self id st post hpost']

theorem changedCount_self (l : List VoiceMessage) : changedCount l l = 0 := by
  induction l with
  | nil => rfl
  | cons a t ih =>
    simp only [changedCount, List.zip_cons_cons, List.length_eq_zero] at ih ⊢
    rw [List.filter_cons_of_neg (by simp)]
    exact ih

theorem changedCount_setStatus (id : VoiceId) (st : UploadStatus) (l : List VoiceMessage)
    (hnd : (l.map VoiceMessage.id).Nodup) : changedCount l (setStatus id st l) ≤ 1 := by
  induction l with
  | nil => simp [changedCount, setStatus]
  | cons a t ih =>
    rw [List.map_cons, List.nodup_cons] at hnd
    by_cases ha : a.id = id
    · have ht : setStatus id st t = t := by
        apply setStatus_eq_self
        intro m hm hmid
        exact hnd.1 (by rw [ha, ← hmid]; exact List.mem_map_of_mem VoiceMessage.id hm)
      have h0 := changedCount_self t
      have hcons : setStatus id st (a :: t) =
          { a with status := some st } :: setStatus id st t := by
        simp [setStatus, ha]
      rw [hcons, ht]
      simp only [changedCount, List.zip_cons_cons] at h0 ⊢
      rw [List.filter_cons]
      split
      · rw [List.length_cons, h0]
      · rw [h0]
        exact Nat.zero_le 1
    · have hcons : setStatus id st (a :: t) = a :: setStatus id st t := by
        simp [setStatus, ha]
      rw [hcons]
      have := ih hnd.2
      simp only [changedCount, List.zip_cons_cons] at this ⊢
      rw [List.filter_cons_of_neg (by simp)]
      exact this

theorem setStatus_forall₂ (id : VoiceId) (st : UploadStatus) (l : List VoiceMessage) :
    List.Forall₂
      (fun before after => sameButStatus before after ∧ (before.id ≠ id → after = before) ∧
        (before.id = id → after.status = some st))
      l (setStatus id st l) := by
  induction l with
  | nil => exact List.Forall₂.nil
  | cons a t ih =>
    by_cases ha : a.id = id
    · have hcons : setStatus id st (a :: t) =
          { a with status := some st } :: setStatus id st t := by
        simp [setStatus, ha]
      rw [hcons]
      exact List.Forall₂.cons
        ⟨⟨rfl, rfl, rfl, rfl, rfl, rfl⟩, fun hn => absurd ha hn, fun _ => rfl⟩ ih
    · have hcons : setStatus id st (a :: t) = a :: setStatus id st t := by
        simp [setStatus, ha]
      rw [hcons]
      exact List.Forall₂.cons
        ⟨⟨rfl, rfl, rfl, rfl, rfl, rfl⟩, fun _ => rfl, fun h => absurd h ha⟩ ih

/-- C13: each transcript update of a text or voice send keeps what was there, in
the same order, and adds at most one Message at the end. The text updates (user
append, agent append) and the voice user append leave every earlier entry as it
was. The voice settlement leaves id, author, content, timestamp, audio reference
and metadata of every earlier entry as they were and rewrites only the status
of entries whose id is the settled upload's; where the ids of the transcript
are distinct that is at most one entry. -/
theorem transcript_updates_append_only (s : ChatPage) (call : SendCall)
    (r : Settled ChatResponse) (now : Nat) (v : VoicePage) (audioBlob : Blob)
    (durationSeconds : JsNumber) (blobType : String) (userId : Nat)
    (r' : Settled (Option VoiceResponse)) :
    (∃ added, (sendMessage now s).messages = s.messages ++ added ∧ added.length ≤ 1) ∧
    (∃ added, (sendMessageSettled call r now s).messages = s.messages ++ added ∧
      added.length ≤ 1) ∧
    (∃ added, (processVoiceRecording audioBlob durationSeconds blobType now v).conversation =
      v.conversation ++ added ∧ added.length ≤ 1) ∧
    (∃ kept added, (processVoiceRecordingSettled userId r' now v).conversation = kept ++ added ∧
      added.length ≤ 1 ∧
      List.Forall₂
        (fun before after => sameButStatus before after ∧
          (before.id ≠ VoiceId.clock userId → after = before))
        v.conversation kept ∧
      ((v.conversation.map VoiceMessage.id).Nodup → changedCount v.conversation kept ≤ 1)) := by
  refine ⟨?_, ?_, ⟨_, rfl, by simp⟩, ?_⟩
  · by_cases h : sendRejected s = true
    · exact ⟨[], by rw [sendMessage_of_rejected now s h]; simp, by simp⟩
    · have hacc : sendRejected s = false := by simpa using h
      exact ⟨_, by rw [sendMessage_of_accepted now s hacc], by simp⟩
  · cases r with
    | err => exact ⟨[], by simp [sendMessageSettled_err_eq], by simp⟩
    | ok response => exact ⟨_, sendMessageSettled_ok_messages call response now s, by simp⟩
  · cases r' with
    | ok apiResponse =>
      refine ⟨setStatus (VoiceId.clock userId) UploadStatus.uploaded v.conversation,
        [resultMessage userId now apiResponse], rfl, by simp, ?_,
        changedCount_setStatus _ _ _⟩
      exact (setStatus_forall₂ _ _ _).imp fun _ _ h => ⟨h.1, h.2.1⟩
    | err =>
      refine ⟨setStatus (VoiceId.clock userId) UploadStatus.error v.conversation, [],
        by simp [processVoiceRecordingSettled], by simp, ?_, changedCount_setStatus _ _ _⟩
      exact (setStatus_forall₂ _ _ _).imp fun _ _ h => ⟨h.1, h.2.1⟩

theorem voice_run_cons (s : VoicePage) (e : VoiceEvent) (es : List VoiceEvent) :
    s.run (e :: es) = (s.step e).run es := rfl

theorem voice_run_nil (s : VoicePage) : s.run [] = s := rfl

theorem sameUploads_refl (v : VoicePage) : v.SameUploads v :=
  ⟨rfl, rfl, rfl, rfl, rfl, rfl, rfl⟩

/-- The four ways an event acts on the part of the page uploads work on:
not at all, or as the start of `processVoiceRecording`, its settlement, or the
cleanup. -/
theorem voice_step_cases (v : VoicePage) (e : VoiceEvent) :
    v.SameUploads (v.step e) ∨
    (∃ j p r now, e = VoiceEvent.probeSettled j r now ∧ v.probes[j]? = some p ∧
      v.step e = processVoiceRecording p.audioBlob (durationOf r) p.blobType now
        { v with probes := v.probes.eraseIdx j }) ∨
    (∃ k u r now, e = VoiceEvent.uploadSettled k r now ∧ v.uploadsInFlight[k]? = some u ∧
      v.step e = processVoiceRecordingSettled u r now
        { v with uploadsInFlight := v.uploadsInFlight.eraseIdx k }) ∨
    (e = VoiceEvent.unmount ∧ v.unmounted = false ∧ v.step e = cleanup v) := by
  cases e with
  | startRecording =>
    left
    simp only [VoicePage.step, startRecording]
    by_cases hu : v.unmounted = true
    · rw [if_pos hu]; exact sameUploads_refl v
    · rw [if_neg hu]
      by_cases hf : (v.isProcessing || v.isUploading) = true
      · rw [if_pos hf]; exact sameUploads_refl v
      · rw [if_neg hf]; exact ⟨rfl, rfl, rfl, rfl, rfl, rfl, rfl⟩
  | micSettled r =>
    left
    simp only [VoicePage.step]
    by_cases hp : v.micPending = 0
    · rw [if_pos hp]; exact sameUploads_refl v
    · rw [if_neg hp]
      cases r <;> exact ⟨rfl, rfl, rfl, rfl, rfl, rfl, rfl⟩
  | dataAvailable i data =>
    left
    simp only [VoicePage.step]
    cases v.recorders[i]? with
    | none => exact sameUploads_refl v
    | some rec =>
      by_cases hr : rec.state = RecorderState.inactive
      · simp only [hr, if_true]; exact sameUploads_refl v
      · simp only [hr, if_false]; exact ⟨rfl, rfl, rfl, rfl, rfl, rfl, rfl⟩
  | stopRecording =>
    left
    simp only [VoicePage.step, stopRecording]
    by_cases hu : v.unmounted = true
    · rw [if_pos hu]; exact sameUploads_refl v
    · rw [if_neg hu]
      cases v.mediaRecorderRef with
      | none => exact sameUploads_refl v
      | some i =>
        by_cases hr : v.isRecording = true
        · simp only [hr, if_true]; exact ⟨rfl, rfl, rfl, rfl, rfl, rfl, rfl⟩
        · simp only [hr]; exact sameUploads_refl v
  | recorderStopped i =>
    left
    simp only [VoicePage.step]
    cases v.recorders[i]? with
    | none => exact sameUploads_refl v
    | some rec =>
      by_cases hr : rec.state = RecorderState.stopping
      · simp only [hr, if_true]; exact ⟨rfl, rfl, rfl, rfl, rfl, rfl, rfl⟩
      · simp only [hr, if_false]; exact sameUploads_refl v
  | probeSettled j r now =>
    cases hj : v.probes[j]? with
    | none =>
      left
      simp only [VoicePage.step, hj]
      exact sameUploads_refl v
    | some p =>
      right; left
      exact ⟨j, p, r, now, rfl, hj, by simp only [VoicePage.step, hj]⟩
  | uploadSettled k r now =>
    cases hk : v.uploadsInFlight[k]? with
    | none =>
      left
      simp only [VoicePage.step, hk]
      exact sameUploads_refl v
    | some u =>
      right; right; left
      exact ⟨k, u, r, now, rfl, hk, by simp only [VoicePage.step, hk]⟩
  | unmount =>
    by_cases hu : v.unmounted = true
    · left
      simp only [VoicePage.step, if_pos hu]
      exact sameUploads_refl v
    · right; right; right
      exact ⟨rfl, by simpa using hu, by simp only [VoicePage.step, if_neg hu]⟩

theorem voice_inv_initial (b : Browser) : (VoicePage.initial b).Inv :=
  ⟨rfl, fun _ => rfl, fun h => by simp [VoicePage.initial] at h,
    fun m hm => by simp [VoicePage.initial] at hm⟩

theorem setStatus_mem (id : VoiceId) (st : UploadStatus) (l : List VoiceMessage)
    (m : VoiceMessage) (hm : m ∈ setStatus id st l) :
    ∃ m₀ ∈ l, sameButStatus m₀ m ∧ (m₀.id ≠ id → m = m₀) := by
  simp only [setStatus, List.mem_map] at hm
  obtain ⟨m₀, hm₀, rfl⟩ := hm
  refine ⟨m₀, hm₀, ?_, ?_⟩
  · by_cases h : m₀.id = id
    · rw [if_pos h]; exact ⟨rfl, rfl, rfl, rfl, rfl, rfl⟩
    · rw [if_neg h]; exact ⟨rfl, rfl, rfl, rfl, rfl, rfl⟩
  · intro h
    rw [if_neg h]

theorem mem_setStatus_of_ne (id : VoiceId) (st : UploadStatus) (l : List VoiceMessage)
    (m : VoiceMessage) (hm : m ∈ l) (hne : m.id ≠ id) : m ∈ setStatus id st l := by
  simp only [setStatus, List.mem_map]
  exact ⟨m, hm, by rw [if_neg hne]⟩

theorem setStatus_ids (id : VoiceId) (st : UploadStatus) (l : List VoiceMessage) :
    (setStatus id st l).map VoiceMessage.id = l.map VoiceMessage.id := by
  induction l with
  | nil => rfl
  | cons a t ih =>
    simp only [setStatus, List.map_cons] at ih ⊢
    rw [ih]
    by_cases h : a.id = id
    · rw [if_pos h]
    · rw [if_neg h]

/-- The transcript after a settlement: the status update, then the reply if any. -/
theorem settled_conversation (u : Nat) (r : Settled (Option VoiceResponse)) (now : Nat)
    (v : VoicePage) :
    ∃ st added, (processVoiceRecordingSettled u r now v).conversation =
        setStatus (VoiceId.clock u) st v.conversation ++ added ∧
      (added = [] ∨ ∃ apiResponse, added = [resultMessage u now apiResponse]) := by
  cases r with
  | ok apiResponse =>
    exact ⟨UploadStatus.uploaded, [resultMessage u now apiResponse], rfl,
      Or.inr ⟨apiResponse, rfl⟩⟩
  | err =>
    exact ⟨UploadStatus.error, [], by simp [processVoiceRecordingSettled], Or.inl rfl⟩

theorem settled_frame (u : Nat) (r : Settled (Option VoiceResponse)) (now : Nat)
    (v : VoicePage) :
    (processVoiceRecordingSettled u r now v).uploadsInFlight = v.uploadsInFlight ∧
    (processVoiceRecordingSettled u r now v).objectUrlsRef = v.objectUrlsRef ∧
    (processVoiceRecordingSettled u r now v).urlsCreated = v.urlsCreated ∧
    (processVoiceRecordingSettled u r now v).revoked = v.revoked ∧
    (processVoiceRecordingSettled u r now v).unmounted = v.unmounted ∧
    (processVoiceRecordingSettled u r now v).uploads = v.uploads := by
  cases r <;> exact ⟨rfl, rfl, rfl, rfl, rfl, rfl⟩

theorem voice_inv_step (v : VoicePage) (hv : v.Inv) (e : VoiceEvent) : (v.step e).Inv := by
  rcases voice_step_cases v e with
    hsame | ⟨j, p, r, now, _, _, hstep⟩ | ⟨k, u, r, now, _, _, hstep⟩ | ⟨_, hun, hstep⟩
  · obtain ⟨hc, _, ho, hn, hr, hu, _⟩ := hsame
    refine ⟨by rw [ho, hn]; exact hv.urls, ?_, ?_, ?_⟩
    · intro h; rw [hr]; exact hv.kept (by rw [← hu]; exact h)
    · intro h; rw [hr, hn]; exact hv.released (by rw [← hu]; exact h)
    · intro m hm; rw [hn]; exact hv.handles m (by rw [← hc]; exact hm)
  · rw [hstep]
    refine ⟨?_, hv.kept, ?_, ?_⟩
    · show v.objectUrlsRef ++ [v.urlsCreated] = List.range (v.urlsCreated + 1)
      rw [List.range_succ, hv.urls]
    · intro h
      obtain ⟨n, hn, hr⟩ := hv.released h
      exact ⟨n, Nat.le_succ_of_le hn, hr⟩
    · intro m hm hty
      have hm' : m ∈ v.conversation ++ [voiceUserMessage now v.urlsCreated (durationOf r)] := hm
      rw [List.mem_append, List.mem_singleton] at hm'
      rcases hm' with hm' | hm'
      · obtain ⟨n, hn, hlt⟩ := hv.handles m hm' hty
        exact ⟨n, hn, Nat.lt_succ_of_lt hlt⟩
      · rw [hm']
        exact ⟨v.urlsCreated, rfl, Nat.lt_succ_self _⟩
  · rw [hstep]
    obtain ⟨_, ho, hn, hr, hu, _⟩ := settled_frame u r now
      { v with uploadsInFlight := v.uploadsInFlight.eraseIdx k }
    refine ⟨by rw [ho, hn]; exact hv.urls, ?_, ?_, ?_⟩
    · intro h; rw [hr]; exact hv.kept (by rw [← hu]; exact h)
    · intro h; rw [hr, hn]; exact hv.released (by rw [← hu]; exact h)
    · intro m hm hty
      rw [hn]
      obtain ⟨st, added, hconv, hadded⟩ := settled_conversation u r now
        { v with uploadsInFlight := v.uploadsInFlight.eraseIdx k }
      rw [hconv, List.mem_append] at hm
      rcases hm with hm | hm
      · obtain ⟨m₀, hm₀, hsame, _⟩ := setStatus_mem _ _ _ m hm
        obtain ⟨n, hn', hlt⟩ := hv.handles m₀ hm₀ (by rw [← hsame.2.1]; exact hty)
        exact ⟨n, by rw [hsame.2.2.2.2.1]; exact hn', hlt⟩
      · rcases hadded with hadded | ⟨apiResponse, hadded⟩
        · rw [hadded] at hm; simp at hm
        · rw [hadded, List.mem_singleton] at hm
          rw [hm] at hty
          simp [resultMessage] at hty
  · rw [hstep]
    refine ⟨hv.urls, fun h => by simp [cleanup] at h, ?_, hv.handles⟩
    intro _
    refine ⟨v.urlsCreated, Nat.le_refl _, ?_⟩
    show v.revoked ++ v.objectUrlsRef = List.range v.urlsCreated
    rw [hv.kept hun, hv.urls, List.nil_append]

theorem voice_inv_run (es : List VoiceEvent) (v : VoicePage) (hv : v.Inv) : (v.run es).Inv := by
  induction es generalizing v with
  | nil => exact hv
  | cons e es ih => exact ih (v.step e) (voice_inv_step v hv e)

theorem voice_inv_of_reachable (v : VoicePage) (hv : v.Reachable) : v.Inv := by
  obtain ⟨b, es, rfl⟩ := hv
  exact voice_inv_run es (VoicePage.initial b) (voice_inv_initial b)

theorem fresh_initial (b : Browser) : (VoicePage.initial b).Fresh [] :=
  ⟨List.nodup_nil, List.nodup_nil, fun m hm => by simp [VoicePage.initial] at hm,
    fun u hu => by simp [VoicePage.initial] at hu,
    fun u hu => by simp [VoicePage.initial] at hu,
    fun u hu => by simp [VoicePage.initial] at hu⟩

theorem fresh_mono (used used' : List Nat) (v : VoicePage) (hsub : ∀ t ∈ used, t ∈ used')
    (h : v.Fresh used) : v.Fresh used' :=
  ⟨h.ids, h.inFlight, fun m hm => hsub _ (h.usedIds m hm),
    fun u hu => hsub _ (h.usedInFlight u hu), h.pending, h.unanswered⟩

theorem fresh_of_same (used : List Nat) (v v' : VoicePage) (h : v.Fresh used)
    (hc : v'.conversation = v.conversation) (hu : v'.uploadsInFlight = v.uploadsInFlight) :
    v'.Fresh used := by
  refine ⟨by rw [hc]; exact h.ids, by rw [hu]; exact h.inFlight, ?_, ?_, ?_, ?_⟩
  · intro m hm; exact h.usedIds m (by rw [← hc]; exact hm)
  · intro u hu'; exact h.usedInFlight u (by rw [← hu]; exact hu')
  · intro u hu'
    obtain ⟨m, hm, hrest⟩ := h.pending u (by rw [← hu]; exact hu')
    exact ⟨m, by rw [hc]; exact hm, hrest⟩
  · intro u hu' m hm
    exact h.unanswered u (by rw [← hu]; exact hu') m (by rw [← hc]; exact hm)

/-- The uploads left in flight once the `k`-th, `u`, is taken out: distinct,
among those in flight before, and none of them `u`. -/
theorem eraseIdx_of_nodup (l : List Nat) (k u : Nat) (hk : l[k]? = some u) (hnd : l.Nodup) :
    (l.eraseIdx k).Nodup ∧ ∀ x ∈ l.eraseIdx k, x ∈ l ∧ x ≠ u := by
  refine ⟨List.Nodup.sublist (List.eraseIdx_sublist l k) hnd, ?_⟩
  intro x hx
  refine ⟨(List.eraseIdx_sublist l k).subset hx, ?_⟩
  rw [List.mem_eraseIdx_iff_getElem] at hx
  obtain ⟨i, hi, hik, hix⟩ := hx
  obtain ⟨hklt, hku⟩ := List.getElem?_eq_some.mp hk
  intro hxu
  apply hik
  have : l[i] = l[k] := by rw [hix, hku, hxu]
  exact (List.Nodup.getElem_inj_iff hnd).mp this

theorem fresh_probe (used : List Nat) (v : VoicePage) (h : v.Fresh used) (audioBlob : Blob)
    (durationSeconds : JsNumber) (blobType : String) (now : Nat) (hnow : now ∉ used)
    (probes : List Probe) :
    (processVoiceRecording audioBlob durationSeconds blobType now
      { v with probes := probes }).Fresh (now :: used) := by
  have hconv : (processVoiceRecording audioBlob durationSeconds blobType now
      { v with probes := probes }).conversation =
      v.conversation ++ [voiceUserMessage now v.urlsCreated durationSeconds] := rfl
  have hfl : (processVoiceRecording audioBlob durationSeconds blobType now
      { v with probes := probes }).uploadsInFlight = v.uploadsInFlight ++ [now] := rfl
  have hnotin : now ∉ v.uploadsInFlight := fun hin => hnow (h.usedInFlight now hin)
  refine ⟨?_, ?_, ?_, ?_, ?_, ?_⟩
  · rw [hconv, List.map_append, List.nodup_append]
    refine ⟨h.ids, by simp, ?_⟩
    intro id hid hid'
    simp only [List.map_cons, List.map_nil, List.mem_singleton] at hid'
    obtain ⟨m, hm, hmid⟩ := List.mem_map.mp hid
    have := h.usedIds m hm
    rw [hmid, hid'] at this
    exact hnow this
  · rw [hfl, List.nodup_append]
    refine ⟨h.inFlight, by simp, ?_⟩
    intro x hx hx'
    rw [List.mem_singleton] at hx'
    exact hnotin (hx' ▸ hx)
  · intro m hm
    rw [hconv, List.mem_append, List.mem_singleton] at hm
    rcases hm with hm | hm
    · exact List.mem_cons_of_mem _ (h.usedIds m hm)
    · rw [hm]; exact List.mem_cons_self _ _
  · intro u hu
    rw [hfl, List.mem_append, List.mem_singleton] at hu
    rcases hu with hu | hu
    · exact List.mem_cons_of_mem _ (h.usedInFlight u hu)
    · rw [hu]; exact List.mem_cons_self _ _
  · intro u hu
    rw [hfl, List.mem_append, List.mem_singleton] at hu
    rw [hconv]
    rcases hu with hu | hu
    · obtain ⟨m, hm, hrest⟩ := h.pending u hu
      exact ⟨m, List.mem_append_left _ hm, hrest⟩
    · exact ⟨voiceUserMessage now v.urlsCreated durationSeconds,
        List.mem_append_right _ (List.mem_singleton_self _), by rw [hu]; rfl, rfl, rfl⟩
  · intro u hu m hm
    rw [hfl, List.mem_append, List.mem_singleton] at hu
    rw [hconv, List.mem_append, List.mem_singleton] at hm
    rcases hm with hm | hm
    · rcases hu with hu | hu
      · exact h.unanswered u hu m hm
      · intro hid
        have := h.usedIds m hm
        rw [hid, hu] at this
        exact hnow this
    · rw [hm]
      intro hid
      exact VoiceId.noConfusion hid

theorem fresh_settled (used : List Nat) (v : VoicePage) (h : v.Fresh used) (k u : Nat)
    (r : Settled (Option VoiceResponse)) (now : Nat) (hk : v.uploadsInFlight[k]? = some u) :
    (processVoiceRecordingSettled u r now
      { v with uploadsInFlight := v.uploadsInFlight.eraseIdx k }).Fresh used := by
  obtain ⟨hnd, hrest⟩ := eraseIdx_of_nodup v.uploadsInFlight k u hk h.inFlight
  have hu : u ∈ v.uploadsInFlight := by
    obtain ⟨hlt, hget⟩ := List.getElem?_eq_some.mp hk
    rw [← hget]; exact List.getElem_mem _
  obtain ⟨hfl, _⟩ := settled_frame u r now
    { v with uploadsInFlight := v.uploadsInFlight.eraseIdx k }
  obtain ⟨st, added, hconv, hadded⟩ := settled_conversation u r now
    { v with uploadsInFlight := v.uploadsInFlight.eraseIdx k }
  have hadded' : ∀ m ∈ added, m.id = VoiceId.result u := by
    intro m hm
    rcases hadded with hadded | ⟨apiResponse, hadded⟩
    · rw [hadded] at hm; simp at hm
    · rw [hadded, List.mem_singleton] at hm
      rw [hm]; rfl
  have haddedNodup : (added.map VoiceMessage.id).Nodup := by
    rcases hadded with hadded | ⟨apiResponse, hadded⟩ <;> rw [hadded] <;> simp
  refine ⟨?_, by rw [hfl]; exact hnd, ?_, ?_, ?_, ?_⟩
  · rw [hconv, List.map_append, setStatus_ids, List.nodup_append]
    refine ⟨h.ids, haddedNodup, ?_⟩
    intro id hid hid'
    obtain ⟨m, hm, hmid⟩ := List.mem_map.mp hid
    obtain ⟨m', hm', hmid'⟩ := List.mem_map.mp hid'
    have := hadded' m' hm'
    exact h.unanswered u hu m hm (by rw [hmid, ← hmid', this])
  · intro m hm
    rw [hconv, List.mem_append] at hm
    rcases hm with hm | hm
    · obtain ⟨m₀, hm₀, hsame, _⟩ := setStatus_mem _ _ _ m hm
      rw [hsame.1]; exact h.usedIds m₀ hm₀
    · rw [hadded' m hm]; exact h.usedInFlight u hu
  · intro x hx
    rw [hfl] at hx
    exact h.usedInFlight x (hrest x hx).1
  · intro x hx
    rw [hfl] at hx
    obtain ⟨hxin, hxu⟩ := hrest x hx
    obtain ⟨m, hm, hid, hty, hst⟩ := h.pending x hxin
    refine ⟨m, ?_, hid, hty, hst⟩
    rw [hconv]
    apply List.mem_append_left
    apply mem_setStatus_of_ne _ _ _ m hm
    rw [hid]
    intro heq
    exact hxu (VoiceId.clock.inj heq)
  · intro x hx m hm
    rw [hfl] at hx
    obtain ⟨hxin, hxu⟩ := hrest x hx
    rw [hconv, List.mem_append] at hm
    rcases hm with hm | hm
    · obtain ⟨m₀, hm₀, hsame, _⟩ := setStatus_mem _ _ _ m hm
      rw [hsame.1]; exact h.unanswered x hxin m₀ hm₀
    · rw [hadded' m hm]
      intro heq
      exact hxu (VoiceId.result.inj heq).symm

theorem fresh_step (used : List Nat) (v : VoicePage) (h : v.Fresh used) (e : VoiceEvent)
    (hnew : ∀ t ∈ probeTimes [e], t ∉ used) : (v.step e).Fresh (probeTimes [e] ++ used) := by
  rcases voice_step_cases v e with
    hsame | ⟨j, p, r, now, he, _, hstep⟩ | ⟨k, u, r, now, he, hk, hstep⟩ | ⟨he, _, hstep⟩
  · exact fresh_mono used _ _ (fun t ht => List.mem_append_right _ ht)
      (fresh_of_same used v _ h hsame.1 hsame.2.1)
  · rw [hstep, he]
    have hnow : now ∉ used := hnew now (by rw [he]; simp [probeTimes])
    exact fresh_probe used v h p.audioBlob (durationOf r) p.blobType now hnow _
  · rw [hstep, he]
    exact fresh_settled used v h k u r now hk
  · rw [hstep, he]
    exact fresh_of_same used v _ h rfl rfl

theorem probeTimes_cons (e : VoiceEvent) (es : List VoiceEvent) :
    probeTimes (e :: es) = probeTimes [e] ++ probeTimes es := by
  cases e <;> simp [probeTimes]

theorem fresh_run (es : List VoiceEvent) (used : List Nat) (v : VoicePage) (h : v.Fresh used)
    (hnd : (probeTimes es).Nodup) (hnew : ∀ t ∈ probeTimes es, t ∉ used) :
    ∃ used', (v.run es).Fresh used' := by
  induction es generalizing used v with
  | nil => exact ⟨used, h⟩
  | cons e es ih =>
    rw [probeTimes_cons, List.nodup_append] at hnd
    obtain ⟨_, hes, hdisj⟩ := hnd
    have hstep := fresh_step used v h e
      (fun t ht => hnew t (by rw [probeTimes_cons]; exact List.mem_append_left _ ht))
    refine ih (probeTimes [e] ++ used) (v.step e) hstep hes ?_
    intro t ht hin
    rw [List.mem_append] at hin
    rcases hin with hin | hin
    · exact hdisj hin ht
    · exact hnew t (by rw [probeTimes_cons]; exact List.mem_append_right _ ht) hin

/-- In a state reached while the clock readings of the duration probes were
pairwise distinct, the user Message of an upload in flight is the one entry of
the transcript with its id, and its status is `uploading`. -/
theorem pending_message_split (b : Browser) (es : List VoiceEvent) (v : VoicePage)
    (hv : (VoicePage.initial b).run es = v) (hclock : (probeTimes es).Nodup)
    (k u : Nat) (hk : v.uploadsInFlight[k]? = some u) :
    (v.conversation.map VoiceMessage.id).Nodup ∧
    ∃ pre m post, v.conversation = pre ++ m :: post ∧ m.id = VoiceId.clock u ∧
      m.type = Author.user ∧ m.status = some UploadStatus.uploading := by
  obtain ⟨used, hfresh⟩ := fresh_run es [] (VoicePage.initial b) (fresh_initial b) hclock
    (fun t _ => by simp)
  rw [hv] at hfresh
  have hu : u ∈ v.uploadsInFlight := by
    obtain ⟨hlt, hget⟩ := List.getElem?_eq_some.mp hk
    rw [← hget]; exact List.getElem_mem _
  obtain ⟨m, hm, hid, hty, hst⟩ := hfresh.pending u hu
  obtain ⟨pre, post, hsplit⟩ := List.append_of_mem hm
  exact ⟨hfresh.ids, pre, m, post, hsplit, hid, hty, hst⟩

theorem step_uploadSettled (v : VoicePage) (k u : Nat) (r : Settled (Option VoiceResponse))
    (now : Nat) (hk : v.uploadsInFlight[k]? = some u) :
    v.step (VoiceEvent.uploadSettled k r now) =
      processVoiceRecordingSettled u r now
        { v with uploadsInFlight := v.uploadsInFlight.eraseIdx k } := by
  simp only [VoicePage.step, hk]

/-- A fulfilled upload under distinct ids: in a state reached while the clock
readings of the duration probes were pairwise distinct, when the upload in flight for the user Message with id
`u` is fulfilled, that Message, which had status `uploading`, gets status
`uploaded`, every other entry of the transcript is as before, in the same
place, and exactly one Message, the agent's reply, is appended at the end. -/
theorem upload_success_marks_uploaded (b : Browser) (es : List VoiceEvent) (v : VoicePage)
    (k u now : Nat) (apiResponse : Option VoiceResponse)
    (hv : (VoicePage.initial b).run es = v) (hclock : (probeTimes es).Nodup)
    (hk : v.uploadsInFlight[k]? = some u) :
    ∃ pre m post, v.conversation = pre ++ m :: post ∧ m.id = VoiceId.clock u ∧
      m.type = Author.user ∧ m.status = some UploadStatus.uploading ∧
      (v.step (VoiceEvent.uploadSettled k (Settled.ok apiResponse) now)).conversation =
        pre ++ { m with status := some UploadStatus.uploaded } :: post ++
          [resultMessage u now apiResponse] ∧
      (resultMessage u now apiResponse).type = Author.ai := by
  obtain ⟨hnd, pre, m, post, hsplit, hid, hty, hst⟩ :=
    pending_message_split b es v hv hclock k u hk
  refine ⟨pre, m, post, hsplit, hid, hty, hst, ?_, rfl⟩
  rw [step_uploadSettled v k u _ now hk]
  show setStatus (VoiceId.clock u) UploadStatus.uploaded v.conversation ++
      [resultMessage u now apiResponse] = _
  rw [hsplit] at hnd ⊢
  rw [setStatus_split (VoiceId.clock u) UploadStatus.uploaded pre post m hid hnd]

/-- A fulfilled upload at the page whose first recording is uploading. -/
theorem upload_success_marks_uploaded_witness :
    (probeTimes (recordOnce 0 [1, 2, 3] ++
      [VoiceEvent.probeSettled 0 (ProbeResult.loadedmetadata (JsNumber.finite 2)) 100])).Nodup ∧
    uploadingPage.uploadsInFlight[0]? = some 100 ∧
    (∃ pre m post, uploadingPage.conversation = pre ++ m :: post ∧ m.id = VoiceId.clock 100 ∧
      m.type = Author.user ∧ m.status = some UploadStatus.uploading ∧
      (uploadingPage.step (VoiceEvent.uploadSettled 0 (Settled.ok none) 300)).conversation =
        pre ++ { m with status := some UploadStatus.uploaded } :: post ++
          [resultMessage 100 300 none] ∧
      (resultMessage 100 300 none).type = Author.ai) ∧
    (uploadingPage.step (VoiceEvent.uploadSettled 0 (Settled.ok none) 300)).conversation.map
      VoiceMessage.status = [some UploadStatus.uploaded, none] :=
  ⟨by decide, by decide,
    upload_success_marks_uploaded anyBrowser _ uploadingPage 0 100 300 none rfl (by decide)
      (by decide),
    by decide⟩

/-- The transcript after the rejection of the upload in flight for `u`: its user
Message, alone, gets status `error`. -/
theorem failure_split (b : Browser) (es : List VoiceEvent) (v : VoicePage)
    (k u now : Nat) (hv : (VoicePage.initial b).run es = v) (hclock : (probeTimes es).Nodup)
    (hk : v.uploadsInFlight[k]? = some u) :
    ∃ pre m post, v.conversation = pre ++ m :: post ∧ m.id = VoiceId.clock u ∧
      m.type = Author.user ∧ m.status = some UploadStatus.uploading ∧
      (v.step (VoiceEvent.uploadSettled k Settled.err now)).conversation =
        pre ++ { m with status := some UploadStatus.error } :: post := by
  obtain ⟨hnd, pre, m, post, hsplit, hid, hty, hst⟩ :=
    pending_message_split b es v hv hclock k u hk
  refine ⟨pre, m, post, hsplit, hid, hty, hst, ?_⟩
  rw [step_uploadSettled v k u _ now hk]
  show setStatus (VoiceId.clock u) UploadStatus.error v.conversation = _
  rw [hsplit] at hnd ⊢
  exact setStatus_split (VoiceId.clock u) UploadStatus.error pre post m hid hnd

/-- A rejected upload under distinct ids: in a state reached while the clock
readings of the duration probes were pairwise distinct, when the upload in flight for the user Message with id
`u` is rejected, that Message, which had status `uploading`, gets status
`error`, the status the page shows as a failed upload; every other entry is as
before and nothing is appended. In any state a rejected upload leaves the
transcript as long as it was. -/
theorem upload_failure_marks_error (b : Browser) (es : List VoiceEvent) (v : VoicePage)
    (k u now : Nat) (hv : (VoicePage.initial b).run es = v) (hclock : (probeTimes es).Nodup)
    (hk : v.uploadsInFlight[k]? = some u) :
    (∃ pre m post, v.conversation = pre ++ m :: post ∧ m.id = VoiceId.clock u ∧
      m.type = Author.user ∧ m.status = some UploadStatus.uploading ∧
      (v.step (VoiceEvent.uploadSettled k Settled.err now)).conversation =
        pre ++ { m with status := some UploadStatus.error } :: post) ∧
    (∀ (p : VoicePage) (i : Nat),
      (p.step (VoiceEvent.uploadSettled i Settled.err now)).conversation.length =
        p.conversation.length) := by
  refine ⟨failure_split b es v k u now hv hclock hk, ?_⟩
  · intro p i
    cases hi : p.uploadsInFlight[i]? with
    | none => simp only [VoicePage.step, hi]
    | some w =>
      rw [step_uploadSettled p i w _ now hi]
      show (setStatus (VoiceId.clock w) UploadStatus.error p.conversation).length = _
      exact setStatus_length _ _ _

/-- A rejected upload at the page whose first recording is uploading. -/
theorem upload_failure_marks_error_witness :
    (probeTimes (recordOnce 0 [1, 2, 3] ++
      [VoiceEvent.probeSettled 0 (ProbeResult.loadedmetadata (JsNumber.finite 2)) 100])).Nodup ∧
    uploadingPage.uploadsInFlight[0]? = some 100 ∧
    (∃ pre m post, uploadingPage.conversation = pre ++ m :: post ∧ m.id = VoiceId.clock 100 ∧
      m.type = Author.user ∧ m.status = some UploadStatus.uploading ∧
      (uploadingPage.step (VoiceEvent.uploadSettled 0 Settled.err 300)).conversation =
        pre ++ { m with status := some UploadStatus.error } :: post) ∧
    (uploadingPage.step (VoiceEvent.uploadSettled 0 Settled.err 300)).conversation.map
      VoiceMessage.status = [some UploadStatus.error] :=
  ⟨by decide, by decide,
    (upload_failure_marks_error anyBrowser _ uploadingPage 0 100 300 rfl (by decide)
      (by decide)).1,
    by decide⟩

/-- An event other than the unmount revokes nothing and keeps every object URL
held in `objectUrlsRef`. -/
theorem handles_kept_step (v : VoicePage) (e : VoiceEvent) (he : e ≠ VoiceEvent.unmount) :
    (v.step e).revoked = v.revoked ∧ ∀ n ∈ v.objectUrlsRef, n ∈ (v.step e).objectUrlsRef := by
  rcases voice_step_cases v e with
    hsame | ⟨j, p, r, now, _, _, hstep⟩ | ⟨k, u, r, now, _, _, hstep⟩ | ⟨hun, _, _⟩
  · exact ⟨hsame.2.2.2.2.1, fun n hn => by rw [hsame.2.2.1]; exact hn⟩
  · rw [hstep]
    exact ⟨rfl, fun n hn => List.mem_append_left _ hn⟩
  · rw [hstep]
    obtain ⟨_, ho, _, hr, _, _⟩ := settled_frame u r now
      { v with uploadsInFlight := v.uploadsInFlight.eraseIdx k }
    exact ⟨hr, fun n hn => by rw [ho]; exact hn⟩
  · exact absurd hun he

theorem handles_kept_run (es : List VoiceEvent) (v : VoicePage)
    (hes : ∀ e ∈ es, e ≠ VoiceEvent.unmount) :
    (v.run es).revoked = v.revoked ∧ ∀ n ∈ v.objectUrlsRef, n ∈ (v.run es).objectUrlsRef := by
  induction es generalizing v with
  | nil => exact ⟨rfl, fun n hn => hn⟩
  | cons e es ih =>
    obtain ⟨h1, h2⟩ := handles_kept_step v e (hes e (List.mem_cons_self e es))
    obtain ⟨h3, h4⟩ := ih (v.step e) (fun x hx => hes x (List.mem_cons_of_mem e hx))
    exact ⟨by rw [voice_run_cons, h3, h1], fun n hn => h4 n (h2 n hn)⟩

/-- C16: in a state reached while the clock readings of the duration probes
were pairwise distinct, when the upload in flight for the user Message with id
`u` is rejected, that Message keeps its audio reference and its metadata; the
reference is an object URL held in `objectUrlsRef`; the failure revokes nothing;
and through any later events short of the unmount the URL stays held and
nothing is revoked. -/
theorem upload_failure_keeps_handle (b : Browser) (es : List VoiceEvent) (v : VoicePage)
    (k u now : Nat) (later : List VoiceEvent)
    (hv : (VoicePage.initial b).run es = v) (hclock : (probeTimes es).Nodup)
    (hk : v.uploadsInFlight[k]? = some u) (hlater : ∀ e ∈ later, e ≠ VoiceEvent.unmount) :
    ∃ pre m m' post n, v.conversation = pre ++ m :: post ∧ m.id = VoiceId.clock u ∧
      (v.step (VoiceEvent.uploadSettled k Settled.err now)).conversation = pre ++ m' :: post ∧
      m'.audioUrl = m.audioUrl ∧ m'.metadata = m.metadata ∧
      m'.status = some UploadStatus.error ∧
      m.audioUrl = some (AudioRef.object n) ∧
      n ∈ (v.step (VoiceEvent.uploadSettled k Settled.err now)).objectUrlsRef ∧
      (v.step (VoiceEvent.uploadSettled k Settled.err now)).revoked = v.revoked ∧
      n ∈ ((v.step (VoiceEvent.uploadSettled k Settled.err now)).run later).objectUrlsRef ∧
      ((v.step (VoiceEvent.uploadSettled k Settled.err now)).run later).revoked = v.revoked := by
  obtain ⟨pre, m, post, hsplit, hid, hty, _, hconv⟩ :=
    failure_split b es v k u now hv hclock hk
  have hinv : v.Inv := voice_inv_of_reachable v ⟨b, es, hv⟩
  obtain ⟨n, hn, hlt⟩ := hinv.handles m (by rw [hsplit]; simp) hty
  have hheld : n ∈ v.objectUrlsRef := by
    rw [hinv.urls]; exact List.mem_range.mpr hlt
  obtain ⟨hrev, hkeep⟩ := handles_kept_step v (VoiceEvent.uploadSettled k Settled.err now)
    (fun h => VoiceEvent.noConfusion h)
  obtain ⟨hrev', hkeep'⟩ := handles_kept_run later
    (v.step (VoiceEvent.uploadSettled k Settled.err now)) hlater
  exact ⟨pre, m, { m with status := some UploadStatus.error }, post, n, hsplit, hid, hconv,
    rfl, rfl, rfl, hn, hkeep n hheld, hrev, hkeep' n (hkeep n hheld), by rw [hrev', hrev]⟩

/-- C16, at the page whose first recording is uploading, with a press and a
release after the failure. -/
theorem upload_failure_keeps_handle_witness :
    (probeTimes (recordOnce 0 [1, 2, 3] ++
      [VoiceEvent.probeSettled 0 (ProbeResult.loadedmetadata (JsNumber.finite 2)) 100])).Nodup ∧
    uploadingPage.uploadsInFlight[0]? = some 100 ∧
    (∀ e ∈ [VoiceEvent.startRecording, VoiceEvent.stopRecording], e ≠ VoiceEvent.unmount) ∧
    (∃ pre m m' post n, uploadingPage.conversation = pre ++ m :: post ∧
      m.id = VoiceId.clock 100 ∧
      (uploadingPage.step (VoiceEvent.uploadSettled 0 Settled.err 300)).conversation =
        pre ++ m' :: post ∧
      m'.audioUrl = m.audioUrl ∧ m'.metadata = m.metadata ∧
      m'.status = some UploadStatus.error ∧
      m.audioUrl = some (AudioRef.object n) ∧
      n ∈ (uploadingPage.step (VoiceEvent.uploadSettled 0 Settled.err 300)).objectUrlsRef ∧
      (uploadingPage.step (VoiceEvent.uploadSettled 0 Settled.err 300)).revoked =
        uploadingPage.revoked ∧
      n ∈ ((uploadingPage.step (VoiceEvent.uploadSettled 0 Settled.err 300)).run
        [VoiceEvent.startRecording, VoiceEvent.stopRecording]).objectUrlsRef ∧
      ((uploadingPage.step (VoiceEvent.uploadSettled 0 Settled.err 300)).run
        [VoiceEvent.startRecording, VoiceEvent.stopRecording]).revoked = uploadingPage.revoked) ∧
    (uploadingPage.step (VoiceEvent.uploadSettled 0 Settled.err 300)).objectUrlsRef = [0] :=
  ⟨by decide, by decide,
    by
      intro e he
      simp only [List.mem_cons, List.mem_singleton, List.not_mem_nil, or_false] at he
      rcases he with he | he <;> rw [he] <;> exact fun h => VoiceEvent.noConfusion h,
    upload_failure_keeps_handle anyBrowser _ uploadingPage 0 100 300
      [VoiceEvent.startRecording, VoiceEvent.stopRecording] rfl (by decide) (by decide)
      (by
        intro e he
        simp only [List.mem_cons, List.mem_singleton, List.not_mem_nil, or_false] at he
        rcases he with he | he <;> rw [he] <;> exact fun h => VoiceEvent.noConfusion h),
    by decide⟩

/-- Once the page is unmounted nothing more is revoked. -/
theorem revoked_fixed_step (v : VoicePage) (e : VoiceEvent) (hu : v.unmounted = true) :
    (v.step e).revoked = v.revoked ∧ (v.step e).unmounted = true := by
  rcases voice_step_cases v e with
    hsame | ⟨j, p, r, now, _, _, hstep⟩ | ⟨k, u, r, now, _, _, hstep⟩ | ⟨_, hun, _⟩
  · exact ⟨hsame.2.2.2.2.1, by rw [hsame.2.2.2.2.2.1]; exact hu⟩
  · rw [hstep]; exact ⟨rfl, hu⟩
  · rw [hstep]
    obtain ⟨_, _, _, hr, hun, _⟩ := settled_frame u r now
      { v with uploadsInFlight := v.uploadsInFlight.eraseIdx k }
    exact ⟨hr, by rw [hun]; exact hu⟩
  · rw [hu] at hun
    exact Bool.noConfusion hun

theorem revoked_fixed_run (es : List VoiceEvent) (v : VoicePage) (hu : v.unmounted = true) :
    (v.run es).revoked = v.revoked := by
  induction es generalizing v with
  | nil => rfl
  | cons e es ih =>
    obtain ⟨h1, h2⟩ := revoked_fixed_step v e hu
    rw [voice_run_cons, ih (v.step e) h2, h1]

/-- Handles created before the teardown: when the page is unmounted in any
state it can reach, whatever the status of its uploads, the cleanup revokes the object URLs created by
`processVoiceRecording` up to then, each exactly once: as many are revoked as were
created, the URL of every user Message is among them, and no later event
revokes anything again. -/
theorem teardown_releases_each_handle_once (v : VoicePage) (later : List VoiceEvent)
    (hv : v.Reachable) (hu : v.unmounted = false) :
    (v.step VoiceEvent.unmount).revoked = List.range v.urlsCreated ∧
    (∀ n, n < v.urlsCreated → (v.step VoiceEvent.unmount).revoked.count n = 1) ∧
    (v.step VoiceEvent.unmount).revoked.length = v.urlsCreated ∧
    (∀ m ∈ v.conversation, m.type = Author.user →
      ∃ n, m.audioUrl = some (AudioRef.object n) ∧
        (v.step VoiceEvent.unmount).revoked.count n = 1) ∧
    ((v.step VoiceEvent.unmount).run later).revoked = List.range v.urlsCreated := by
  have hinv := voice_inv_of_reachable v hv
  have hstep : v.step VoiceEvent.unmount = cleanup v := by
    simp only [VoicePage.step, hu]
    rfl
  have hrev : (v.step VoiceEvent.unmount).revoked = List.range v.urlsCreated := by
    rw [hstep]
    show v.revoked ++ v.objectUrlsRef = _
    rw [hinv.kept hu, hinv.urls, List.nil_append]
  have hcount : ∀ n, n < v.urlsCreated → (v.step VoiceEvent.unmount).revoked.count n = 1 := by
    intro n hn
    rw [hrev]
    exact List.count_eq_one_of_mem (List.nodup_range _) (List.mem_range.mpr hn)
  refine ⟨hrev, hcount, by rw [hrev, List.length_range], ?_, ?_⟩
  · intro m hm hty
    obtain ⟨n, hn, hlt⟩ := hinv.handles m hm hty
    exact ⟨n, hn, hcount n hlt⟩
  · rw [revoked_fixed_run later (v.step VoiceEvent.unmount) (by rw [hstep]; rfl), hrev]

/-- The teardown at the page with two uploads in flight, unmounted, after which both
uploads settle. -/
theorem teardown_releases_each_handle_once_witness :
    twoUploadingPage.Reachable ∧ twoUploadingPage.unmounted = false ∧
    twoUploadingPage.urlsCreated = 2 ∧
    (twoUploadingPage.step VoiceEvent.unmount).revoked = List.range twoUploadingPage.urlsCreated ∧
    ((twoUploadingPage.step VoiceEvent.unmount).run
      [VoiceEvent.uploadSettled 0 Settled.err 300,
       VoiceEvent.uploadSettled 0 (Settled.ok none) 400]).revoked =
      List.range twoUploadingPage.urlsCreated :=
  ⟨⟨anyBrowser, _, rfl⟩, by decide, by decide,
    (teardown_releases_each_handle_once twoUploadingPage
      [VoiceEvent.uploadSettled 0 Settled.err 300,
       VoiceEvent.uploadSettled 0 (Settled.ok none) 400]
      ⟨anyBrowser, _, rfl⟩ (by decide)).1,
    (teardown_releases_each_handle_once twoUploadingPage
      [VoiceEvent.uploadSettled 0 Settled.err 300,
       VoiceEvent.uploadSettled 0 (Settled.ok none) 400]
      ⟨anyBrowser, _, rfl⟩ (by decide)).2.2.2.2⟩

theorem allDefault_initial (b : Browser)
    (hnone : ∀ t ∈ SUPPORTED_AUDIO_TYPES, b.isTypeSupported t = false) :
    (VoicePage.initial b).AllDefault :=
  ⟨getSupportedMimeType_of_none b hnone, fun p hp => by simp [VoicePage.initial] at hp,
    fun u hu => by simp [VoicePage.initial] at hu⟩

theorem allDefault_of_same (v v' : VoicePage) (h : v.AllDefault)
    (hm : v'.mimeTypeRef = v.mimeTypeRef) (hp : v'.probes = v.probes)
    (hu : v'.uploads = v.uploads) : v'.AllDefault :=
  ⟨by rw [hm]; exact h.negotiated, fun p hp' => h.blobs p (by rw [← hp]; exact hp'),
    fun u hu' => h.files u (by rw [← hu]; exact hu')⟩

theorem allDefault_step (v : VoicePage) (h : v.AllDefault) (e : VoiceEvent)
    (hr : ∀ r, e = VoiceEvent.micSettled (MicResult.granted r) →
      truthyString r = false ∨ r = v.mimeTypeRef) : (v.step e).AllDefault := by
  cases e with
  | startRecording =>
    simp only [VoicePage.step, startRecording]
    by_cases hu : v.unmounted = true
    · rw [if_pos hu]; exact h
    · rw [if_neg hu]
      by_cases hf : (v.isProcessing || v.isUploading) = true
      · rw [if_pos hf]; exact h
      · rw [if_neg hf]; exact allDefault_of_same v _ h rfl rfl rfl
  | micSettled r =>
    simp only [VoicePage.step]
    by_cases hp : v.micPending = 0
    · rw [if_pos hp]; exact h
    · rw [if_neg hp]
      cases r with
      | denied => exact allDefault_of_same v _ h rfl rfl rfl
      | recorderFailed => exact allDefault_of_same v _ h rfl rfl rfl
      | granted t =>
        refine allDefault_of_same v _ h ?_ rfl rfl
        show (if truthyString t then t else v.mimeTypeRef) = v.mimeTypeRef
        rcases hr t rfl with ht | ht
        · simp [ht]
        · rw [ht]; simp
  | dataAvailable i data =>
    simp only [VoicePage.step]
    cases v.recorders[i]? with
    | none => exact h
    | some rec =>
      by_cases hs : rec.state = RecorderState.inactive
      · simp only [hs, if_true]; exact h
      · simp only [hs, if_false]; exact allDefault_of_same v _ h rfl rfl rfl
  | stopRecording =>
    simp only [VoicePage.step, stopRecording]
    by_cases hu : v.unmounted = true
    · rw [if_pos hu]; exact h
    · rw [if_neg hu]
      cases v.mediaRecorderRef with
      | none => exact h
      | some i =>
        by_cases hs : v.isRecording = true
        · simp only [hs, if_true]; exact allDefault_of_same v _ h rfl rfl rfl
        · simp only [hs]; exact h
  | recorderStopped i =>
    simp only [VoicePage.step]
    cases v.recorders[i]? with
    | none => exact h
    | some rec =>
      by_cases hs : rec.state = RecorderState.stopping
      · simp only [hs, if_true]
        have hty : (if truthyString v.mimeTypeRef then v.mimeTypeRef else "audio/webm") =
            "audio/webm" := by
          rw [h.negotiated]; simp
        refine ⟨h.negotiated, ?_, h.files⟩
        intro p hp
        have hp' : p ∈ v.probes ++
            [⟨Blob.ofParts v.audioChunksRef
                (if truthyString v.mimeTypeRef then v.mimeTypeRef else "audio/webm"),
              if truthyString v.mimeTypeRef then v.mimeTypeRef else "audio/webm"⟩] := hp
        rw [List.mem_append, List.mem_singleton] at hp'
        rcases hp' with hp' | hp'
        · exact h.blobs p hp'
        · rw [hp']
          refine ⟨hty, ?_⟩
          show normalizeType _ = "audio/webm"
          rw [hty]
          decide
      · simp only [hs, if_false]; exact h
  | probeSettled j r now =>
    cases hj : v.probes[j]? with
    | none => simp only [VoicePage.step, hj]; exact h
    | some p =>
      rw [step_probeSettled v j p r now hj]
      have hpmem : p ∈ v.probes := by
        obtain ⟨hlt, hget⟩ := List.getElem?_eq_some.mp hj
        rw [← hget]; exact List.getElem_mem _
      refine ⟨h.negotiated, ?_, ?_⟩
      · intro q hq
        exact h.blobs q ((List.eraseIdx_sublist v.probes j).subset hq)
      · intro u hu
        have hu' : u ∈ v.uploads ++ [⟨voiceFile now p.audioBlob p.blobType, durationOf r⟩] := hu
        rw [List.mem_append, List.mem_singleton] at hu'
        rcases hu' with hu' | hu'
        · exact h.files u hu'
        · rw [hu']
          show normalizeType p.blobType = "audio/webm"
          rw [(h.blobs p hpmem).1]
          decide
  | uploadSettled k r now =>
    cases hk : v.uploadsInFlight[k]? with
    | none => simp only [VoicePage.step, hk]; exact h
    | some u =>
      rw [step_uploadSettled v k u r now hk]
      cases r <;> exact allDefault_of_same v _ h rfl rfl rfl
  | unmount =>
    simp only [VoicePage.step]
    by_cases hu : v.unmounted = true
    · rw [if_pos hu]; exact h
    · rw [if_neg hu]; exact allDefault_of_same v _ h rfl rfl rfl

theorem allDefault_run (es : List VoiceEvent) (v : VoicePage) (h : v.AllDefault)
    (hr : recorderHonoursRequest v es) : (v.run es).AllDefault := by
  induction es generalizing v with
  | nil => exact h
  | cons e es ih => exact ih (v.step e) (allDefault_step v h e hr.1) hr.2

theorem typedBy_of_same (types : List String) (v v' : VoicePage) (h : v.TypedBy types)
    (hm : v'.mimeTypeRef = v.mimeTypeRef) (hp : v'.probes = v.probes)
    (hu : v'.uploads = v.uploads) : v'.TypedBy types :=
  ⟨by rw [hm]; exact h.negotiated, fun p hp' => h.blobs p (by rw [← hp]; exact hp'),
    fun u hu' => h.files u (by rw [← hu]; exact hu')⟩

theorem typedBy_step (types : List String) (v : VoicePage) (h : v.TypedBy types)
    (hd : "audio/webm" ∈ types) (e : VoiceEvent)
    (hr : ∀ r, e = VoiceEvent.micSettled (MicResult.granted r) → truthyString r = true →
      r ∈ types) : (v.step e).TypedBy types := by
  cases e with
  | startRecording =>
    simp only [VoicePage.step, startRecording]
    by_cases hu : v.unmounted = true
    · rw [if_pos hu]; exact h
    · rw [if_neg hu]
      by_cases hf : (v.isProcessing || v.isUploading) = true
      · rw [if_pos hf]; exact h
      · rw [if_neg hf]; exact typedBy_of_same types v _ h rfl rfl rfl
  | micSettled r =>
    simp only [VoicePage.step]
    by_cases hp : v.micPending = 0
    · rw [if_pos hp]; exact h
    · rw [if_neg hp]
      cases r with
      | denied => exact typedBy_of_same types v _ h rfl rfl rfl
      | recorderFailed => exact typedBy_of_same types v _ h rfl rfl rfl
      | granted t =>
        refine ⟨?_, h.blobs, h.files⟩
        show (if truthyString t then t else v.mimeTypeRef) ∈ types
        by_cases ht : truthyString t = true
        · rw [if_pos ht]; exact hr t rfl ht
        · rw [if_neg ht]; exact h.negotiated
  | dataAvailable i data =>
    simp only [VoicePage.step]
    cases v.recorders[i]? with
    | none => exact h
    | some rec =>
      by_cases hs : rec.state = RecorderState.inactive
      · simp only [hs, if_true]; exact h
      · simp only [hs, if_false]; exact typedBy_of_same types v _ h rfl rfl rfl
  | stopRecording =>
    simp only [VoicePage.step, stopRecording]
    by_cases hu : v.unmounted = true
    · rw [if_pos hu]; exact h
    · rw [if_neg hu]
      cases v.mediaRecorderRef with
      | none => exact h
      | some i =>
        by_cases hs : v.isRecording = true
        · simp only [hs, if_true]; exact typedBy_of_same types v _ h rfl rfl rfl
        · simp only [hs]; exact h
  | recorderStopped i =>
    simp only [VoicePage.step]
    cases v.recorders[i]? with
    | none => exact h
    | some rec =>
      by_cases hs : rec.state = RecorderState.stopping
      · simp only [hs, if_true]
        have hty : (if truthyString v.mimeTypeRef then v.mimeTypeRef else "audio/webm") ∈
            types := by
          by_cases ht : truthyString v.mimeTypeRef = true
          · rw [if_pos ht]; exact h.negotiated
          · rw [if_neg ht]; exact hd
        refine ⟨h.negotiated, ?_, h.files⟩
        intro p hp
        have hp' : p ∈ v.probes ++
            [⟨Blob.ofParts v.audioChunksRef
                (if truthyString v.mimeTypeRef then v.mimeTypeRef else "audio/webm"),
              if truthyString v.mimeTypeRef then v.mimeTypeRef else "audio/webm"⟩] := hp
        rw [List.mem_append, List.mem_singleton] at hp'
        rcases hp' with hp' | hp'
        · exact h.blobs p hp'
        · rw [hp']
          exact ⟨hty, rfl⟩
      · simp only [hs, if_false]; exact h
  | probeSettled j r now =>
    cases hj : v.probes[j]? with
    | none => simp only [VoicePage.step, hj]; exact h
    | some p =>
      rw [step_probeSettled v j p r now hj]
      have hpmem : p ∈ v.probes := by
        obtain ⟨hlt, hget⟩ := List.getElem?_eq_some.mp hj
        rw [← hget]; exact List.getElem_mem _
      refine ⟨h.negotiated, ?_, ?_⟩
      · intro q hq
        exact h.blobs q ((List.eraseIdx_sublist v.probes j).subset hq)
      · intro u hu
        have hu' : u ∈ v.uploads ++ [⟨voiceFile now p.audioBlob p.blobType, durationOf r⟩] := hu
        rw [List.mem_append, List.mem_singleton] at hu'
        rcases hu' with hu' | hu'
        · exact h.files u hu'
        · rw [hu']
          exact ⟨p.blobType, (h.blobs p hpmem).1, rfl⟩
  | uploadSettled k r now =>
    cases hk : v.uploadsInFlight[k]? with
    | none => simp only [VoicePage.step, hk]; exact h
    | some u =>
      rw [step_uploadSettled v k u r now hk]
      cases r <;> exact typedBy_of_same types v _ h rfl rfl rfl
  | unmount =>
    simp only [VoicePage.step]
    by_cases hu : v.unmounted = true
    · rw [if_pos hu]; exact h
    · rw [if_neg hu]; exact typedBy_of_same types v _ h rfl rfl rfl

theorem reportedTypes_head (r : String) (es : List VoiceEvent) (h : truthyString r = true) :
    r ∈ reportedTypes (VoiceEvent.micSettled (MicResult.granted r) :: es) := by
  simp [reportedTypes, h]

theorem reportedTypes_tail (e : VoiceEvent) (es : List VoiceEvent) :
    ∀ r ∈ reportedTypes es, r ∈ reportedTypes (e :: es) := by
  intro r hr
  cases e with
  | micSettled m =>
    cases m with
    | granted t =>
      by_cases ht : truthyString t = true
      · simp [reportedTypes, ht, hr]
      · simp [reportedTypes, ht, hr]
    | denied => simpa [reportedTypes] using hr
    | recorderFailed => simpa [reportedTypes] using hr
  | startRecording => simpa [reportedTypes] using hr
  | dataAvailable i data => simpa [reportedTypes] using hr
  | stopRecording => simpa [reportedTypes] using hr
  | recorderStopped i => simpa [reportedTypes] using hr
  | probeSettled j r now => simpa [reportedTypes] using hr
  | uploadSettled k r now => simpa [reportedTypes] using hr
  | unmount => simpa [reportedTypes] using hr

theorem typedBy_run (types : List String) (es : List VoiceEvent) (v : VoicePage)
    (h : v.TypedBy types) (hd : "audio/webm" ∈ types)
    (hr : ∀ r ∈ reportedTypes es, r ∈ types) : (v.run es).TypedBy types := by
  induction es generalizing v with
  | nil => exact h
  | cons e es ih =>
    refine ih (v.step e) (typedBy_step types v h hd e ?_)
      (fun r hmem => hr r (reportedTypes_tail e es r hmem))
    intro r he ht
    rw [he] at hr
    exact hr r (reportedTypes_head r es ht)

/-- C19, as the code has it: when the browser supports none of the preferred
encodings, the media type negotiated at the first render, which the recorder is
asked for, is the default `'audio/webm'`. The `blobType` of every artifact is
then `'audio/webm'` or a non-empty media type that a recorder created along the
run reported, and the blob built when a recording stops and the file uploaded
have that type as their constructors store it, in lower case. So when every
recorder reports the media type it was asked for or none, every blob and every
file has media type `'audio/webm'`. When `new MediaRecorder` throws, no recorder
and no artifact is made and the user is told `Failed to access microphone`. -/
theorem default_type_when_none_supported (b : Browser) (es : List VoiceEvent)
    (hnone : ∀ t ∈ SUPPORTED_AUDIO_TYPES, b.isTypeSupported t = false) :
    getSupportedMimeType b = "audio/webm" ∧
    (VoicePage.initial b).mimeTypeRef = "audio/webm" ∧
    (∀ p ∈ ((VoicePage.initial b).run es).probes,
      p.blobType ∈ "audio/webm" :: reportedTypes es ∧
      p.audioBlob.type = normalizeType p.blobType) ∧
    (∀ u ∈ ((VoicePage.initial b).run es).uploads,
      ∃ t ∈ "audio/webm" :: reportedTypes es, u.audioFile.type = normalizeType t) ∧
    (recorderHonoursRequest (VoicePage.initial b) es →
      (∀ p ∈ ((VoicePage.initial b).run es).probes,
        p.audioBlob.type = "audio/webm" ∧ p.blobType = "audio/webm") ∧
      (∀ u ∈ ((VoicePage.initial b).run es).uploads, u.audioFile.type = "audio/webm")) ∧
    (∀ v : VoicePage,
      (startRecordingSettled MicResult.recorderFailed v).recorders = v.recorders ∧
      (startRecordingSettled MicResult.recorderFailed v).isRecording = v.isRecording ∧
      (startRecordingSettled MicResult.recorderFailed v).probes = v.probes ∧
      (startRecordingSettled MicResult.recorderFailed v).uploads = v.uploads ∧
      (startRecordingSettled MicResult.recorderFailed v).conversation = v.conversation ∧
      (startRecordingSettled MicResult.recorderFailed v).notifications =
        v.notifications ++ [⟨"Failed to access microphone", "error"⟩]) := by
  have hneg := getSupportedMimeType_of_none b hnone
  have h0 : (VoicePage.initial b).TypedBy ("audio/webm" :: reportedTypes es) :=
    ⟨by
        show getSupportedMimeType b ∈ _
        rw [hneg]
        exact List.mem_cons_self _ _,
      fun p hp => by simp [VoicePage.initial] at hp,
      fun u hu => by simp [VoicePage.initial] at hu⟩
  have ht := typedBy_run ("audio/webm" :: reportedTypes es) es (VoicePage.initial b) h0
    (List.mem_cons_self _ _) (fun r hr => List.mem_cons_of_mem _ hr)
  refine ⟨hneg, hneg, ht.blobs, ht.files, ?_, ?_⟩
  · intro hrec
    have h := allDefault_run es (VoicePage.initial b) (allDefault_initial b hnone) hrec
    exact ⟨fun p hp => ⟨(h.blobs p hp).2, (h.blobs p hp).1⟩, h.files⟩
  · intro v
    exact ⟨rfl, rfl, rfl, rfl, rfl, rfl⟩

theorem defaultRun_honours : recorderHonoursRequest (VoicePage.initial bareBrowser) defaultRun := by
  simp only [defaultRun, recorderHonoursRequest, and_true]
  refine ⟨?_, ?_, ?_, ?_, ?_, ?_⟩
  · intro r h; exact VoiceEvent.noConfusion h
  · intro r h
    right
    have hr : "audio/webm" = r := MicResult.granted.inj (VoiceEvent.micSettled.inj h)
    rw [← hr]
    decide
  · intro r h; exact VoiceEvent.noConfusion h
  · intro r h; exact VoiceEvent.noConfusion h
  · intro r h; exact VoiceEvent.noConfusion h
  · intro r h; exact VoiceEvent.noConfusion h

/-- C19 as amended, at a browser that supports none of the preferred types,
after one recording was made and uploaded on a recorder that reports the media
type it was asked for. -/
theorem default_type_when_none_supported_witness :
    (∀ t ∈ SUPPORTED_AUDIO_TYPES, bareBrowser.isTypeSupported t = false) ∧
    recorderHonoursRequest (VoicePage.initial bareBrowser) defaultRun ∧
    ((VoicePage.initial bareBrowser).run defaultRun).uploads.map
      (fun u => (u.audioFile.type, u.audioFile.bytes)) = [("audio/webm", [1, 2, 3])] ∧
    (∀ u ∈ ((VoicePage.initial bareBrowser).run defaultRun).uploads,
      u.audioFile.type = "audio/webm") :=
  ⟨fun _ _ => rfl, defaultRun_honours, by decide,
    ((default_type_when_none_supported bareBrowser defaultRun (fun _ _ => rfl)).2.2.2.2.1
      defaultRun_honours).2⟩

/-- C19 does not hold as stated. At a browser that supports none of the
preferred encodings the recorder is asked for `'audio/webm'`; when the recorder
reports `'audio/mp4'`, the page adopts that type, and the blob built at stop and
the file uploaded have media type `'audio/mp4'`. A type reported with capital
letters is adopted as it is, tested for `ogg` as it is, and stored by the blob
and the file in lower case. When `new MediaRecorder` throws instead, as it does
for a type the browser cannot record, there is no artifact at all. -/
theorem recorder_type_adopted :
    (∀ t ∈ SUPPORTED_AUDIO_TYPES, bareBrowser.isTypeSupported t = false) ∧
    getSupportedMimeType bareBrowser = "audio/webm" ∧
    ((VoicePage.initial bareBrowser).run otherTypeRun).mimeTypeRef = "audio/mp4" ∧
    ((VoicePage.initial bareBrowser).run otherTypeRun).probes.map
      (fun p => (p.audioBlob.type, p.audioBlob.bytes)) = [("audio/mp4", [1, 2, 3])] ∧
    ((VoicePage.initial bareBrowser).run
      (otherTypeRun ++ [VoiceEvent.probeSettled 0 ProbeResult.error 100])).uploads.map
      (fun u => (u.audioFile.type, u.audioFile.bytes)) = [("audio/mp4", [1, 2, 3])] ∧
    ((VoicePage.initial bareBrowser).run capitalTypeRun).probes.map
      (fun p => (p.blobType, p.audioBlob.type)) =
      [("audio/OGG;codecs=opus", "audio/ogg;codecs=opus")] ∧
    ((VoicePage.initial bareBrowser).run
      (capitalTypeRun ++ [VoiceEvent.probeSettled 0 ProbeResult.error 100])).uploads.map
      (fun u => (u.audioFile.type, u.audioFile.name)) =
      [("audio/ogg;codecs=opus", "voice-100.webm")] ∧
    ((VoicePage.initial bareBrowser).run refusedRun).recorders = [] ∧
    ((VoicePage.initial bareBrowser).run refusedRun).probes = [] ∧
    ((VoicePage.initial bareBrowser).run refusedRun).notifications =
      [⟨"Failed to access microphone", "error"⟩] :=
  ⟨fun _ _ => rfl, by decide, by decide, by decide, by decide, by decide, by decide, by decide,
    by decide, by decide⟩

/-! ## Remaining properties of both pages -/

/-- C21: when `getUserMedia` is rejected, `startRecording` shows the notification
and does nothing else: the recording flag, the transcript, the recorders and
the refs are as before; so from a page that is not recording, a press whose
microphone request fails leaves the recording flag unset and the transcript
unchanged. -/
theorem mic_failure_no_recording (v : VoicePage) (h : v.isRecording = false) :
    (v.run [VoiceEvent.startRecording, VoiceEvent.micSettled MicResult.denied]).isRecording =
      false ∧
    (v.run [VoiceEvent.startRecording, VoiceEvent.micSettled MicResult.denied]).conversation =
      v.conversation ∧
    (v.run [VoiceEvent.startRecording, VoiceEvent.micSettled MicResult.denied]).recorders =
      v.recorders ∧
    (v.run [VoiceEvent.startRecording, VoiceEvent.micSettled MicResult.denied]).mediaRecorderRef =
      v.mediaRecorderRef ∧
    (v.run [VoiceEvent.startRecording, VoiceEvent.micSettled MicResult.denied]).probes =
      v.probes ∧
    (∀ p : VoicePage, 0 < p.micPending →
      (p.step (VoiceEvent.micSettled MicResult.denied)).isRecording = p.isRecording ∧
      (p.step (VoiceEvent.micSettled MicResult.denied)).conversation = p.conversation ∧
      (p.step (VoiceEvent.micSettled MicResult.denied)).notifications =
        p.notifications ++ [⟨"Failed to access microphone", "error"⟩]) := by
  have hden : ∀ p : VoicePage,
      (p.step (VoiceEvent.micSettled MicResult.denied)).isRecording = p.isRecording ∧
      (p.step (VoiceEvent.micSettled MicResult.denied)).conversation = p.conversation ∧
      (p.step (VoiceEvent.micSettled MicResult.denied)).recorders = p.recorders ∧
      (p.step (VoiceEvent.micSettled MicResult.denied)).mediaRecorderRef = p.mediaRecorderRef ∧
      (p.step (VoiceEvent.micSettled MicResult.denied)).probes = p.probes := by
    intro p
    simp only [VoicePage.step]
    by_cases hp : p.micPending = 0
    · rw [if_pos hp]; exact ⟨rfl, rfl, rfl, rfl, rfl⟩
    · rw [if_neg hp]; exact ⟨rfl, rfl, rfl, rfl, rfl⟩
  have hstart : (v.step VoiceEvent.startRecording).isRecording = v.isRecording ∧
      (v.step VoiceEvent.startRecording).conversation = v.conversation ∧
      (v.step VoiceEvent.startRecording).recorders = v.recorders ∧
      (v.step VoiceEvent.startRecording).mediaRecorderRef = v.mediaRecorderRef ∧
      (v.step VoiceEvent.startRecording).probes = v.probes := by
    simp only [VoicePage.step, startRecording]
    by_cases hu : v.unmounted = true
    · rw [if_pos hu]; exact ⟨rfl, rfl, rfl, rfl, rfl⟩
    · rw [if_neg hu]
      by_cases hf : (v.isProcessing || v.isUploading) = true
      · rw [if_pos hf]; exact ⟨rfl, rfl, rfl, rfl, rfl⟩
      · rw [if_neg hf]; exact ⟨rfl, rfl, rfl, rfl, rfl⟩
  obtain ⟨d1, d2, d3, d4, d5⟩ := hden (v.step VoiceEvent.startRecording)
  obtain ⟨s1, s2, s3, s4, s5⟩ := hstart
  simp only [voice_run_cons, voice_run_nil]
  refine ⟨by rw [d1, s1, h], by rw [d2, s2], by rw [d3, s3], by rw [d4, s4], by rw [d5, s5], ?_⟩
  intro p hp
  have hne : p.micPending ≠ 0 := Nat.pos_iff_ne_zero.mp hp
  simp only [VoicePage.step, if_neg hne]
  exact ⟨rfl, rfl, rfl⟩

/-- C21, at the first render. -/
theorem mic_failure_no_recording_witness :
    (VoicePage.initial anyBrowser).isRecording = false ∧
    ((VoicePage.initial anyBrowser).run
      [VoiceEvent.startRecording, VoiceEvent.micSettled MicResult.denied]).isRecording = false ∧
    ((VoicePage.initial anyBrowser).run
      [VoiceEvent.startRecording, VoiceEvent.micSettled MicResult.denied]).notifications =
      [⟨"Failed to access microphone", "error"⟩] :=
  ⟨rfl, (mic_failure_no_recording (VoicePage.initial anyBrowser) rfl).1, by decide⟩

theorem busy_initial : ChatPage.initial.Busy := fun h => absurd rfl h

theorem busy_step (s : ChatPage) (hinv : s.Inv) (hb : s.Busy) (e : ChatEvent) :
    (s.step e).Busy := by
  cases e with
  | mount =>
    simp only [ChatPage.step]
    by_cases hm : s.mounted = true
    · rw [if_pos hm]; exact hb
    · rw [if_neg hm]
      have hnone := (hinv.unmounted (by simpa using hm)).2.2.2
      intro h
      exact absurd hnone h
  | startSettled r now =>
    simp only [ChatPage.step]
    by_cases hf : s.startInFlight = true
    · rw [if_pos hf]
      have hnone := (hinv.starting hf).2.2
      have hfr := startConversationSettled_frame r now { s with startInFlight := false }
      intro h
      rw [hfr.2.2.2.1] at h
      exact absurd hnone h
    · rw [if_neg hf]; exact hb
  | typeInput value =>
    simp only [ChatPage.step]
    by_cases hl : s.loading = true
    · rw [if_pos hl]; exact hb
    · rw [if_neg hl]; exact hb
  | send now =>
    by_cases hr : sendRejected s = true
    · simpa [ChatPage.step, sendMessage_of_rejected now s hr] using hb
    · have hacc : sendRejected s = false := by simpa using hr
      obtain ⟨_, hid, hload⟩ := (sendRejected_eq_false_iff s).mp hacc
      simp only [ChatPage.step]
      rw [sendMessage_of_accepted now s hacc]
      intro _
      exact ⟨hload, hid⟩
  | sendSettled i r now =>
    simp only [ChatPage.step]
    cases hc : s.sendsInFlight[i]? with
    | none => exact hb
    | some call =>
      have hne : s.sendsInFlight ≠ [] := by
        intro hn
        rw [hn] at hc
        simp at hc
      obtain ⟨hload, hid⟩ := hb hne
      have hfr := sendMessageSettled_frame call r now
        { s with sendsInFlight := s.sendsInFlight.eraseIdx i }
      intro _
      refine ⟨by rw [hfr.1]; exact hload, ?_⟩
      cases r with
      | ok response => exact sendMessageSettled_ok_truthy call response now _ hid
      | err => exact hid

theorem busy_run (es : List ChatEvent) (s : ChatPage) (hinv : s.Inv) (hb : s.Busy) :
    (s.run es).Busy := by
  induction es generalizing s with
  | nil => exact hb
  | cons e es ih => exact ih (s.step e) (inv_step s hinv e) (busy_step s hinv hb e)

theorem busy_of_reachable (s : ChatPage) (hs : s.Reachable) : s.Busy := by
  obtain ⟨es, rfl⟩ := hs
  exact busy_run es ChatPage.initial inv_initial busy_initial

/-- C22: in every state the text page can reach, when a send in flight
settles, fulfilled or rejected, the typing indicator is cleared and a send of
any non-blank text typed next is accepted and posted; on the voice page, when
an upload in flight settles, fulfilled or rejected, `isProcessing` and
`isUploading` are cleared and the next press requests the microphone. -/
theorem idle_after_exchange (s : ChatPage) (hs : s.Reachable) (i : Nat) (call : SendCall)
    (r : Settled ChatResponse) (now : Nat) (hi : s.sendsInFlight[i]? = some call)
    (v : VoicePage) (k u : Nat) (r' : Settled (Option VoiceResponse))
    (hk : v.uploadsInFlight[k]? = some u) (hv : v.unmounted = false) :
    (s.step (ChatEvent.sendSettled i r now)).isTyping = false ∧
    (∀ (text : String) (later : Nat), truthyString (jsTrim text) = true →
      (((s.step (ChatEvent.sendSettled i r now)).step (ChatEvent.typeInput text)).step
        (ChatEvent.send later)).requests =
        (s.step (ChatEvent.sendSettled i r now)).requests ++
          [TransportCall.message (s.step (ChatEvent.sendSettled i r now)).conversationId text]) ∧
    (v.step (VoiceEvent.uploadSettled k r' now)).isProcessing = false ∧
    (v.step (VoiceEvent.uploadSettled k r' now)).isUploading = false ∧
    ((v.step (VoiceEvent.uploadSettled k r' now)).step VoiceEvent.startRecording).micRequests =
      (v.step (VoiceEvent.uploadSettled k r' now)).micRequests + 1 := by
  have hne : s.sendsInFlight ≠ [] := by
    intro hn
    rw [hn] at hi
    simp at hi
  obtain ⟨hload, hid⟩ := busy_of_reachable s hs hne
  have hstep : s.step (ChatEvent.sendSettled i r now) =
      sendMessageSettled call r now { s with sendsInFlight := s.sendsInFlight.eraseIdx i } := by
    simp only [ChatPage.step, hi]
  have hfr := sendMessageSettled_frame call r now
    { s with sendsInFlight := s.sendsInFlight.eraseIdx i }
  have hload' : (s.step (ChatEvent.sendSettled i r now)).loading = false := by
    rw [hstep, hfr.1]; exact hload
  have hid' : truthyId (s.step (ChatEvent.sendSettled i r now)).conversationId = true := by
    rw [hstep]
    cases r with
    | ok response => exact sendMessageSettled_ok_truthy call response now _ hid
    | err => exact hid
  have htyping : (s.step (ChatEvent.sendSettled i r now)).isTyping = false := by
    rw [hstep]
    cases r with
    | ok response => rfl
    | err => rfl
  have hvstep := step_uploadSettled v k u r' now hk
  have hflags : (v.step (VoiceEvent.uploadSettled k r' now)).isProcessing = false ∧
      (v.step (VoiceEvent.uploadSettled k r' now)).isUploading = false ∧
      (v.step (VoiceEvent.uploadSettled k r' now)).unmounted = false := by
    rw [hvstep]
    cases r' <;> exact ⟨rfl, rfl, hv⟩
  refine ⟨htyping, ?_, hflags.1, hflags.2.1, ?_⟩
  · intro text later htext
    generalize s.step (ChatEvent.sendSettled i r now) = p at hload' hid'
    have h1 : p.step (ChatEvent.typeInput text) = { p with inputMessage := text } := by
      simp [ChatPage.step, hload']
    have hacc : sendRejected { p with inputMessage := text } = false := by
      rw [sendRejected_eq_false_iff]
      exact ⟨htext, hid', hload'⟩
    rw [h1]
    simp only [ChatPage.step]
    rw [sendMessage_of_accepted later _ hacc]
  · generalize v.step (VoiceEvent.uploadSettled k r' now) = w at hflags
    obtain ⟨hp, hu, hun⟩ := hflags
    simp [VoicePage.step, startRecording, hp, hu, hun]

theorem oneInFlightPage_reachable : oneInFlightPage.Reachable :=
  ⟨[ChatEvent.mount,
    ChatEvent.startSettled (Settled.ok ⟨some (JsId.str "c1"), some "Welcome", none, none⟩) 10,
    ChatEvent.typeInput "first", ChatEvent.send 20, ChatEvent.typeInput "second"], rfl⟩

/-- C22, at the text page with one send in flight and at the voice page with
one upload in flight. -/
theorem idle_after_exchange_witness :
    oneInFlightPage.Reachable ∧
    oneInFlightPage.sendsInFlight[0]? = some ⟨some (JsId.str "c1"), "first"⟩ ∧
    uploadingPage.uploadsInFlight[0]? = some 100 ∧ uploadingPage.unmounted = false ∧
    (oneInFlightPage.step (ChatEvent.sendSettled 0 Settled.err 30)).isTyping = false ∧
    (uploadingPage.step (VoiceEvent.uploadSettled 0 Settled.err 30)).isUploading = false :=
  ⟨oneInFlightPage_reachable, by decide, by decide, by decide,
    (idle_after_exchange oneInFlightPage oneInFlightPage_reachable 0 ⟨some (JsId.str "c1"), "first"⟩ Settled.err 30
      (by decide) uploadingPage 0 100 Settled.err (by decide) (by decide)).1,
    (idle_after_exchange oneInFlightPage oneInFlightPage_reachable 0 ⟨some (JsId.str "c1"), "first"⟩ Settled.err 30
      (by decide) uploadingPage 0 100 Settled.err (by decide) (by decide)).2.2.2.1⟩

/-- C23 (the code at the failing input): a text send initiated at 100 is
answered at 105, so the agent's Message gets id `105 + 1`; the next send is
initiated at 106 and its user Message gets id 106 too. The clock never went
back, and two Messages of the transcript share an id. On the voice page two
duration probes that answer at the same clock reading give two user Messages
the same id. -/
theorem id_reused_next_millisecond :
    reusedIdPage.messages.map Message.id = [10, 100, 106, 106] ∧
    reusedIdPage.messages.map Message.sender =
      [Sender.ai, Sender.user, Sender.ai, Sender.user] ∧
    sameReadingPage.conversation.map VoiceMessage.id = [VoiceId.clock 100, VoiceId.clock 100] := by
  refine ⟨?_, ?_, ?_⟩ <;> decide

/-- C24 (as stated, refuted): `hello` is sent at 20 and its request is rejected
at 30. The transcript is what it was when the send was initiated, the user's
entry is the very entry that stands there when the request is fulfilled
instead, and an entry has no status: nothing in the transcript tells the
failed turn; the failure is a notification. -/
theorem failed_text_send_leaves_no_mark :
    (typedPage.run [ChatEvent.send 20, ChatEvent.sendSettled 0 Settled.err 30]).messages =
      (typedPage.run [ChatEvent.send 20]).messages ∧
    (typedPage.run [ChatEvent.send 20, ChatEvent.sendSettled 0 Settled.err 30]).messages =
      typedPage.messages ++ [userMessage 20 "hello"] ∧
    (typedPage.run [ChatEvent.send 20,
        ChatEvent.sendSettled 0 (Settled.ok (replyWith "c1" "Hi")) 30]).messages =
      typedPage.messages ++ [userMessage 20 "hello", aiMessage 30 (replyWith "c1" "Hi")] ∧
    userMessage 20 "hello" =
      { id := 20, content := "hello", sender := Sender.user, timestamp := 20, metadata := none } ∧
    (typedPage.run [ChatEvent.send 20, ChatEvent.sendSettled 0 Settled.err 30]).notifications =
      [⟨"Failed to send message", "error"⟩] := by
  refine ⟨?_, ?_, ?_, ?_, ?_⟩ <;> decide

/-- C24 (amended): when the request of a text send in flight is rejected, the
transcript, the user's Message included, is left exactly as it was; the
failure is shown by the notification `Failed to send message` and the typing
indicator is cleared. -/
theorem failed_text_send_notifies (s : ChatPage) (i : Nat) (call : SendCall) (now : Nat)
    (hi : s.sendsInFlight[i]? = some call) :
    (s.step (ChatEvent.sendSettled i Settled.err now)).messages = s.messages ∧
    (s.step (ChatEvent.sendSettled i Settled.err now)).notifications =
      s.notifications ++ [⟨"Failed to send message", "error"⟩] ∧
    (s.step (ChatEvent.sendSettled i Settled.err now)).isTyping = false ∧
    (s.step (ChatEvent.sendSettled i Settled.err now)).sendsInFlight =
      s.sendsInFlight.eraseIdx i := by
  have hstep : s.step (ChatEvent.sendSettled i Settled.err now) =
      sendMessageSettled call Settled.err now
        { s with sendsInFlight := s.sendsInFlight.eraseIdx i } := by
    simp only [ChatPage.step, hi]
  rw [hstep, sendMessageSettled_err_eq]
  exact ⟨rfl, rfl, rfl, rfl⟩

/-- C24 (amended), at the page with the send of `first` in flight. -/
theorem failed_text_send_notifies_witness :
    oneInFlightPage.sendsInFlight[0]? = some ⟨some (JsId.str "c1"), "first"⟩ ∧
    (oneInFlightPage.step (ChatEvent.sendSettled 0 Settled.err 30)).messages =
      oneInFlightPage.messages ∧
    (oneInFlightPage.step (ChatEvent.sendSettled 0 Settled.err 30)).notifications =
      [⟨"Failed to send message", "error"⟩] :=
  ⟨by decide,
    (failed_text_send_notifies oneInFlightPage 0 ⟨some (JsId.str "c1"), "first"⟩ 30
      (by decide)).1,
    by decide⟩

/-- C25: the metadata of the agent's Message is what the response carries,
unchanged. Text: the `metadata` of `ai_response` when it has one, else the
`metadata` of the response. Voice: the response itself. -/
theorem agent_metadata_verbatim (call : SendCall) (response : ChatResponse) (now : Nat)
    (s : ChatPage) (userId : Nat) (apiResponse : Option VoiceResponse) (v : VoicePage) :
    (sendMessageSettled call (Settled.ok response) now s).messages =
      s.messages ++ [aiMessage now response] ∧
    (∀ a m, response.ai_response = some a → a.metadata = some m →
      (aiMessage now response).metadata = some m) ∧
    ((∀ a, response.ai_response = some a → a.metadata = none) →
      (aiMessage now response).metadata = response.metadata) ∧
    (processVoiceRecordingSettled userId (Settled.ok apiResponse) now v).conversation =
      setStatus (VoiceId.clock userId) UploadStatus.uploaded v.conversation ++
        [resultMessage userId now apiResponse] ∧
    (resultMessage userId now apiResponse).metadata = VoiceMetadata.response apiResponse := by
  refine ⟨sendMessageSettled_ok_messages call response now s, ?_, ?_, rfl, rfl⟩
  · intro a m ha hm
    simp [aiMessage, ChatResponse.replyMetadata, ha, hm]
  · intro h
    cases ha : response.ai_response with
    | none => simp [aiMessage, ChatResponse.replyMetadata, ha]
    | some a => simp [aiMessage, ChatResponse.replyMetadata, ha, h a ha]

/-- C27 (as stated, refuted): `hello` is sent at 20. The entry appended is the
object with `id`, `content`, `sender` and `timestamp` and nothing else, and the
entry at its place is that same object when the request has been fulfilled and
when it has been rejected: no status `pending` is set and none changes. -/
theorem user_entry_has_no_status :
    (typedPage.run [ChatEvent.send 20]).messages.getLast? =
      some { id := 20, content := "hello", sender := Sender.user, timestamp := 20,
             metadata := none } ∧
    (typedPage.run [ChatEvent.send 20]).messages[1]? = some (userMessage 20 "hello") ∧
    (typedPage.run [ChatEvent.send 20,
        ChatEvent.sendSettled 0 (Settled.ok (replyWith "c1" "Hi")) 30]).messages[1]? =
      some (userMessage 20 "hello") ∧
    (typedPage.run [ChatEvent.send 20, ChatEvent.sendSettled 0 Settled.err 30]).messages[1]? =
      some (userMessage 20 "hello") := by
  refine ⟨?_, ?_, ?_, ?_⟩ <;> decide

/-- C27 (amended): an accepted text send appends the user's Message as the last
entry of the transcript, sets the typing indicator and posts the request, all
before the request settles; whichever way it settles later, the entries that
are there then stay in place. A text Message carries no status. -/
theorem user_entry_appended_at_once (s : ChatPage) (now : Nat) (h : sendRejected s = false) :
    (s.step (ChatEvent.send now)).messages = s.messages ++ [userMessage now s.inputMessage] ∧
    (s.step (ChatEvent.send now)).messages.getLast? = some (userMessage now s.inputMessage) ∧
    (s.step (ChatEvent.send now)).isTyping = true ∧
    (s.step (ChatEvent.send now)).sendsInFlight =
      s.sendsInFlight ++ [⟨s.conversationId, s.inputMessage⟩] ∧
    (s.step (ChatEvent.send now)).requests =
      s.requests ++ [TransportCall.message s.conversationId s.inputMessage] ∧
    (∀ (p : ChatPage) (call : SendCall) (r : Settled ChatResponse) (later : Nat),
      ∃ added, (sendMessageSettled call r later p).messages = p.messages ++ added) := by
  have hstep : s.step (ChatEvent.send now) = _ := sendMessage_of_accepted now s h
  rw [hstep]
  refine ⟨rfl, by simp, rfl, rfl, rfl, ?_⟩
  intro p call r later
  cases r with
  | err => exact ⟨[], by simp [sendMessageSettled_err_eq]⟩
  | ok response => exact ⟨_, sendMessageSettled_ok_messages call response later p⟩

/-- C27 (amended), at the welcomed page with `hello` typed. -/
theorem user_entry_appended_at_once_witness :
    sendRejected typedPage = false ∧
    (typedPage.step (ChatEvent.send 20)).messages =
      typedPage.messages ++ [userMessage 20 typedPage.inputMessage] ∧
    (typedPage.step (ChatEvent.send 20)).isTyping = true :=
  ⟨by decide, (user_entry_appended_at_once typedPage 20 (by decide)).1, by decide⟩

theorem orStr_of_truthy (a b : Option String) (h : truthyStr a = true) : orStr a b = a := by
  simp [orStr, h]

theorem orStr_of_falsy (a b : Option String) (h : truthyStr a = false) : orStr a b = b := by
  simp [orStr, h]

/-- The value of `a || 'fixed'` for a non-empty fixed text is never empty. -/
theorem orStr_fixed_truthy (a : Option String) (fixed : String)
    (hf : truthyString fixed = true) :
    truthyString ((orStr a (some fixed)).getD fixed) = true := by
  by_cases h : truthyStr a = true
  · rw [orStr_of_truthy a _ h]
    cases a with
    | none => simp [truthyStr] at h
    | some c => exact h
  · rw [orStr_of_falsy a _ (by simpa using h)]
    exact hf

/-- C30: the content of the agent's Message appended for a fulfilled response
is never empty. Text: the `content` of `ai_response` when it is there and not
empty, else `I have received your message.`. Voice: `ai_response` when it is
there and not empty, else `transcript` when it is there and not empty, else
`Voice recording processed.`. -/
theorem agent_content_nonempty (now : Nat) (response : ChatResponse) (userId : Nat)
    (apiResponse : Option VoiceResponse) :
    response.aiContent = response.ai_response.bind AiResponse.content ∧
    truthyString (aiMessage now response).content = true ∧
    (∀ c, response.aiContent = some c → truthyString c = true →
      (aiMessage now response).content = c) ∧
    (truthyStr response.aiContent = false →
      (aiMessage now response).content = "I have received your message.") ∧
    truthyString (resultMessage userId now apiResponse).content = true ∧
    (∀ c, apiResponse.bind VoiceResponse.ai_response = some c → truthyString c = true →
      (resultMessage userId now apiResponse).content = c) ∧
    (truthyStr (apiResponse.bind VoiceResponse.ai_response) = false →
      ∀ c, apiResponse.bind VoiceResponse.transcript = some c → truthyString c = true →
        (resultMessage userId now apiResponse).content = c) ∧
    (truthyStr (apiResponse.bind VoiceResponse.ai_response) = false →
      truthyStr (apiResponse.bind VoiceResponse.transcript) = false →
      (resultMessage userId now apiResponse).content = "Voice recording processed.") := by
  refine ⟨?_, orStr_fixed_truthy _ _ (by decide), ?_, ?_,
    orStr_fixed_truthy _ _ (by decide), ?_, ?_, ?_⟩
  · cases h : response.ai_response <;> simp [ChatResponse.aiContent, h]
  · intro c hc ht
    have : truthyStr response.aiContent = true := by rw [hc]; exact ht
    simp only [aiMessage]
    rw [orStr_of_truthy _ _ this, hc]
    rfl
  · intro h
    simp only [aiMessage]
    rw [orStr_of_falsy _ _ h]
    rfl
  · intro c hc ht
    have h1 : truthyStr (apiResponse.bind VoiceResponse.ai_response) = true := by
      rw [hc]; exact ht
    simp only [resultMessage]
    rw [orStr_of_truthy _ _ h1, hc, orStr_of_truthy _ _ (by exact ht)]
    rfl
  · intro h c hc ht
    simp only [resultMessage]
    rw [orStr_of_falsy _ _ h, hc, orStr_of_truthy _ _ (by exact ht)]
    rfl
  · intro h1 h2
    simp only [resultMessage]
    rw [orStr_of_falsy _ _ h1, orStr_of_falsy _ _ h2]
    rfl

/-! ## Numbers: rounding, division by sixty, printing -/

theorem roundHalfEven_intCast (z : ℤ) : roundHalfEven (z : ℚ) = z := by
  simp [roundHalfEven]

theorem abs_roundHalfEven_sub_le (q : ℚ) : |(roundHalfEven q : ℚ) - q| ≤ 1 / 2 := by
  have h1 : (⌊q⌋ : ℚ) ≤ q := Int.floor_le q
  have h2 : q < ⌊q⌋ + 1 := Int.lt_floor_add_one q
  unfold roundHalfEven
  split_ifs with ha hb hc
  · rw [abs_le]; constructor <;> linarith
  · push_cast; rw [abs_le]; constructor <;> linarith
  · rw [abs_le]; constructor <;> linarith
  · push_cast; rw [abs_le]; constructor <;> linarith

theorem toDouble_of_pos (x : ℚ) (hx : 0 < x) :
    toDouble x = (roundHalfEven (x / 2 ^ (Int.log 2 x - 52)) : ℚ) * 2 ^ (Int.log 2 x - 52) := by
  unfold toDouble
  rw [if_neg (ne_of_gt hx), abs_of_pos hx]

/-- The logarithm of a positive rational, from the two powers around it. -/
theorem int_log_eq (b : ℕ) (x : ℚ) (n : ℤ) (hb : 1 < b) (hx : 0 < x)
    (h1 : (b : ℚ) ^ n ≤ x) (h2 : x < (b : ℚ) ^ (n + 1)) : Int.log b x = n := by
  have h3 : n ≤ Int.log b x := (Int.zpow_le_iff_le_log hb hx).mp h1
  have h4 : Int.log b x < n + 1 := (Int.lt_zpow_iff_log_lt hb hx).mp h2
  omega

/-- A positive number whose 53-bit significand is whole is a double. -/
theorem toDouble_eq_self (x : ℚ) (z : ℤ) (hx : 0 < x)
    (h : x / 2 ^ (Int.log 2 x - 52) = (z : ℚ)) : toDouble x = x := by
  rw [toDouble_of_pos x hx, h, roundHalfEven_intCast, ← h]
  exact div_mul_cancel₀ _ (ne_of_gt (zpow_pos (by norm_num) _))

theorem floor_toDouble_div_aux (a b : ℕ) (hb : b ≤ 59) (h : 60 * a + b < 2 ^ 53)
    (hs : 60 * a + b ≠ 0) :
    ⌊toDouble ((60 * (a : ℚ) + (b : ℚ)) / 60)⌋ = (a : ℤ) := by
  have hbq : (b : ℚ) ≤ 59 := by exact_mod_cast hb
  have hb0q : (0 : ℚ) ≤ (b : ℚ) := Nat.cast_nonneg b
  have ha0q : (0 : ℚ) ≤ (a : ℚ) := Nat.cast_nonneg a
  have hspos : (0 : ℚ) < 60 * (a : ℚ) + (b : ℚ) := by
    have : 0 < 60 * a + b := Nat.pos_of_ne_zero hs
    exact_mod_cast this
  have hx : (0 : ℚ) < (60 * (a : ℚ) + (b : ℚ)) / 60 := by positivity
  have hs53 : 60 * (a : ℚ) + (b : ℚ) < 9007199254740992 := by
    have : 60 * a + b < 9007199254740992 := by
      have h' : (2 : ℕ) ^ 53 = 9007199254740992 := by norm_num
      omega
    exact_mod_cast this
  have hx48 : (60 * (a : ℚ) + (b : ℚ)) / 60 < ((2 : ℕ) : ℚ) ^ (48 : ℤ) := by
    have : ((2 : ℕ) : ℚ) ^ (48 : ℤ) = 281474976710656 := by norm_num
    rw [this, div_lt_iff₀ (by norm_num)]
    linarith
  have hL : Int.log 2 ((60 * (a : ℚ) + (b : ℚ)) / 60) < 48 :=
    (Int.lt_zpow_iff_log_lt (by norm_num) hx).mp hx48
  rw [toDouble_of_pos _ hx]
  generalize he : Int.log 2 ((60 * (a : ℚ) + (b : ℚ)) / 60) - 52 = e
  have he5 : e ≤ -5 := by omega
  obtain ⟨t, ht⟩ : ∃ t : ℕ, e = -(t : ℤ) := ⟨(-e).toNat, by omega⟩
  have ht5 : 5 ≤ t := by omega
  have hpow2 : (2 : ℚ) ^ e = ((2 : ℚ) ^ t)⁻¹ := by rw [ht, zpow_neg, zpow_natCast]
  have htpos : (0 : ℚ) < (2 : ℚ) ^ t := by positivity
  have ht32 : (32 : ℚ) ≤ (2 : ℚ) ^ t := by
    have : (2 : ℚ) ^ 5 ≤ (2 : ℚ) ^ t := pow_le_pow_right₀ (by norm_num) ht5
    norm_num at this
    exact this
  have hpos : (0 : ℚ) < 2 ^ e := by rw [hpow2]; positivity
  have hpow : (2 : ℚ) ^ e ≤ 1 / 32 := by
    rw [hpow2, inv_le_comm₀ htpos (by norm_num)]
    norm_num
    exact ht32
  have herr := abs_roundHalfEven_sub_le ((60 * (a : ℚ) + (b : ℚ)) / 60 / 2 ^ e)
  have hmul : (60 * (a : ℚ) + (b : ℚ)) / 60 / 2 ^ e * 2 ^ e = (60 * (a : ℚ) + (b : ℚ)) / 60 :=
    div_mul_cancel₀ _ (ne_of_gt hpos)
  by_cases hb0 : b = 0
  · -- the quotient is a whole number: the division is exact
    subst hb0
    have hxa : (60 * (a : ℚ) + ((0 : ℕ) : ℚ)) / 60 = (a : ℚ) := by
      push_cast; field_simp
    have hint : (a : ℚ) / 2 ^ e = (((a : ℤ) * 2 ^ t : ℤ) : ℚ) := by
      rw [hpow2]
      push_cast
      field_simp
    rw [hxa, hint, roundHalfEven_intCast, ← hint, div_mul_cancel₀ _ (ne_of_gt hpos)]
    exact_mod_cast Int.floor_natCast a
  · generalize hm : (roundHalfEven ((60 * (a : ℚ) + (b : ℚ)) / 60 / 2 ^ e) : ℚ) = m at herr
    have hdiff : |m * 2 ^ e - (60 * (a : ℚ) + (b : ℚ)) / 60| ≤ 1 / 64 := by
      have : m * 2 ^ e - (60 * (a : ℚ) + (b : ℚ)) / 60 =
          (m - (60 * (a : ℚ) + (b : ℚ)) / 60 / 2 ^ e) * 2 ^ e := by
        rw [sub_mul, hmul]
      rw [this, abs_mul, abs_of_pos hpos]
      calc |m - (60 * (a : ℚ) + (b : ℚ)) / 60 / 2 ^ e| * 2 ^ e ≤ 1 / 2 * (1 / 32) :=
            mul_le_mul herr hpow (le_of_lt hpos) (by norm_num)
        _ = 1 / 64 := by norm_num
    rw [abs_le] at hdiff
    have hb1 : (1 : ℚ) ≤ (b : ℚ) := by
      have : 1 ≤ b := Nat.one_le_iff_ne_zero.mpr hb0
      exact_mod_cast this
    have hsplit : (60 * (a : ℚ) + (b : ℚ)) / 60 = (a : ℚ) + (b : ℚ) / 60 := by
      field_simp
      ring
    rw [hsplit] at hdiff
    rw [Int.floor_eq_iff]
    push_cast
    constructor
    · linarith [hdiff.1]
    · linarith [hdiff.2]

/-- Below `2 ^ 53` the division by sixty, though rounded to a double, has the
whole part of the exact quotient. -/
theorem floor_toDouble_div (s : ℕ) (h : s < 2 ^ 53) :
    ⌊toDouble ((s : ℚ) / 60)⌋ = ((s / 60 : ℕ) : ℤ) := by
  by_cases hs : s = 0
  · subst hs
    simp [toDouble]
  have hdm : 60 * (s / 60) + s % 60 = s := Nat.div_add_mod s 60
  have hb : s % 60 ≤ 59 := by omega
  have hcast : (s : ℚ) = 60 * ((s / 60 : ℕ) : ℚ) + ((s % 60 : ℕ) : ℚ) := by
    exact_mod_cast hdm.symm
  have := floor_toDouble_div_aux (s / 60) (s % 60) hb (by rw [hdm]; exact h)
    (by rw [hdm]; exact hs)
  rw [← hcast] at this
  exact this

/-- At 67553994410557496 seconds the quotient by sixty is rounded up to the
next whole number when it is stored as a double. -/
theorem floor_toDouble_div_rounds_up :
    ⌊toDouble ((67553994410557496 : ℚ) / 60)⌋ = 1125899906842625 := by
  have hx : (0 : ℚ) < (67553994410557496 : ℚ) / 60 := by norm_num
  have hlog : Int.log 2 ((67553994410557496 : ℚ) / 60) = 50 :=
    int_log_eq 2 _ 50 (by norm_num) hx (by norm_num) (by norm_num)
  rw [toDouble_of_pos _ hx, hlog]
  have hy : (67553994410557496 : ℚ) / 60 / 2 ^ ((50 : ℤ) - 52) = 67553994410557496 / 15 := by
    norm_num
  have hfloor : ⌊(67553994410557496 : ℚ) / 15⌋ = 4503599627370499 := by
    rw [Int.floor_eq_iff]
    constructor <;> norm_num
  have hround : roundHalfEven ((67553994410557496 : ℚ) / 15) = 4503599627370500 := by
    unfold roundHalfEven
    rw [hfloor]
    norm_num
  rw [hy, hround, Int.floor_eq_iff]
  constructor <;> norm_num

/-- The number 67553994410557496 is a double. -/
theorem toDouble_large_example : toDouble 67553994410557496 = 67553994410557496 := by
  have hx : (0 : ℚ) < 67553994410557496 := by norm_num
  have hlog : Int.log 2 (67553994410557496 : ℚ) = 55 :=
    int_log_eq 2 _ 55 (by norm_num) hx (by norm_num) (by norm_num)
  apply toDouble_eq_self _ 8444249301319687 hx
  rw [hlog]
  norm_num

theorem toDouble_natCast (m : ℕ) (hm : 0 < m) (h : m < 2 ^ 53) : toDouble (m : ℚ) = m := by
  have hx : (0 : ℚ) < (m : ℚ) := by exact_mod_cast hm
  have hlog : Int.log 2 (m : ℚ) = (Nat.log 2 m : ℤ) := Int.log_natCast 2 m
  have hle : Nat.log 2 m < 53 := Nat.log_lt_of_lt_pow (by omega) h
  apply toDouble_eq_self _ ((m : ℤ) * 2 ^ (52 - Nat.log 2 m)) hx
  rw [hlog]
  have he : ((Nat.log 2 m : ℤ) - 52) = -((52 - Nat.log 2 m : ℕ) : ℤ) := by omega
  rw [he, zpow_neg, zpow_natCast]
  push_cast
  field_simp

/-! ### The decimal digits of a whole number -/

theorem toDigitsCore_acc (b : Nat) (fuel : Nat) :
    ∀ (n : Nat) (ds : List Char),
      Nat.toDigitsCore b fuel n ds = Nat.toDigitsCore b fuel n [] ++ ds := by
  induction fuel with
  | zero => intro n ds; simp [Nat.toDigitsCore]
  | succ f ih =>
    intro n ds
    simp only [Nat.toDigitsCore]
    by_cases h : n / b = 0
    · simp [h]
    · simp only [h, if_false]
      rw [ih (n / b) (Nat.digitChar (n % b) :: ds), ih (n / b) [Nat.digitChar (n % b)]]
      simp

theorem toDigitsCore_fuel (b : Nat) (hb : 2 ≤ b) (fuel : Nat) :
    ∀ (n : Nat) (fuel' : Nat), n < fuel → n < fuel' →
      Nat.toDigitsCore b fuel n [] = Nat.toDigitsCore b fuel' n [] := by
  induction fuel with
  | zero => intro n fuel' h; omega
  | succ f ih =>
    intro n fuel' h h'
    cases fuel' with
    | zero => omega
    | succ g =>
      simp only [Nat.toDigitsCore]
      by_cases hz : n / b = 0
      · simp [hz]
      · simp only [hz, if_false]
        have hn : 0 < n := by
          rcases Nat.eq_zero_or_pos n with h0 | h0
          · rw [h0] at hz; simp at hz
          · exact h0
        have hlt : n / b < n := Nat.div_lt_self hn hb
        rw [toDigitsCore_acc b f, toDigitsCore_acc b g, ih (n / b) g (by omega) (by omega)]

theorem toDigits_step (b : Nat) (hb : 2 ≤ b) (n : Nat) (hn : b ≤ n) :
    Nat.toDigits b n = Nat.toDigits b (n / b) ++ [Nat.digitChar (n % b)] := by
  have hz : n / b ≠ 0 := by
    have : 0 < n / b := Nat.div_pos hn (by omega)
    omega
  have hlt : n / b < n := Nat.div_lt_self (by omega) hb
  have h1 : Nat.toDigitsCore b (n + 1) n [] =
      Nat.toDigitsCore b n (n / b) [Nat.digitChar (n % b)] := by
    simp only [Nat.toDigitsCore, hz, if_false]
  show Nat.toDigitsCore b (n + 1) n [] = Nat.toDigitsCore b (n / b + 1) (n / b) [] ++ _
  rw [h1, toDigitsCore_acc b n, toDigitsCore_fuel b hb n (n / b) (n / b + 1) hlt (by omega)]

theorem toDigits_mul_ten (a : Nat) (ha : 0 < a) :
    Nat.toDigits 10 (a * 10) = Nat.toDigits 10 a ++ ['0'] := by
  rw [toDigits_step 10 (by norm_num) (a * 10) (by omega)]
  have h1 : a * 10 / 10 = a := by omega
  have h2 : a * 10 % 10 = 0 := by omega
  rw [h1, h2]
  rfl

theorem toDigits_mul_pow_ten (a : Nat) (ha : 0 < a) (z : Nat) :
    Nat.toDigits 10 (a * 10 ^ z) = Nat.toDigits 10 a ++ List.replicate z '0' := by
  induction z with
  | zero => simp
  | succ z ih =>
    have hpos : 0 < a * 10 ^ z := Nat.mul_pos ha (by positivity)
    rw [pow_succ, ← mul_assoc, toDigits_mul_ten _ hpos, ih, List.replicate_succ',
      List.append_assoc]

theorem toString_mul_pow_ten (a : Nat) (ha : 0 < a) (z : Nat) :
    toString (a * 10 ^ z) = toString a ++ (⟨List.replicate z '0'⟩ : String) := by
  show (Nat.toDigits 10 (a * 10 ^ z)).asString = (Nat.toDigits 10 a).asString ++ _
  rw [toDigits_mul_pow_ten a ha z]
  rfl

/-! ### What the digit search finds for a whole number -/

theorem roundHalfEven_floor_or (q : ℚ) :
    roundHalfEven q = ⌊q⌋ ∨ roundHalfEven q = ⌊q⌋ + 1 := by
  unfold roundHalfEven
  split_ifs <;> simp

theorem carry_value (k : ℕ) (hk : 0 < k) (s n : ℤ) :
    ((carry k s n).1 : ℚ) * 10 ^ ((carry k s n).2 - (k : ℤ)) = (s : ℚ) * 10 ^ (n - (k : ℤ)) := by
  unfold carry
  split_ifs with h
  · have h10 : (10 : ℚ) ^ (k - 1) * 10 = 10 ^ k := by
      rw [← pow_succ, Nat.sub_add_cancel hk]
    have he : n + 1 - (k : ℤ) = (n - (k : ℤ)) + 1 := by ring
    simp only
    rw [h, he, zpow_add_one₀ (by norm_num)]
    push_cast
    rw [← h10]
    ring
  · rfl

theorem two_pow_le_toDouble (x : ℚ) (hx : (2 : ℚ) ^ 53 ≤ x) : (2 : ℚ) ^ 53 ≤ toDouble x := by
  have hx0 : (0 : ℚ) < x := lt_of_lt_of_le (by norm_num) hx
  have hL : (53 : ℤ) ≤ Int.log 2 x := by
    apply (Int.zpow_le_iff_le_log (by norm_num) hx0).mp
    norm_num
    exact hx
  have hself : ((2 : ℕ) : ℚ) ^ Int.log 2 x ≤ x := Int.zpow_log_le_self (by norm_num) hx0
  rw [toDouble_of_pos x hx0]
  generalize hLe : Int.log 2 x = L at *
  have hpos : (0 : ℚ) < 2 ^ (L - 52) := zpow_pos (by norm_num) _
  have hsplit : (2 : ℚ) ^ L = 2 ^ (52 : ℤ) * 2 ^ (L - 52) := by
    rw [← zpow_add₀ (by norm_num)]
    congr 1
    ring
  have hy : ((2 ^ 52 : ℤ) : ℚ) ≤ x / 2 ^ (L - 52) := by
    rw [le_div_iff₀ hpos]
    have h2 : ((2 ^ 52 : ℤ) : ℚ) = (2 : ℚ) ^ (52 : ℤ) := by norm_num
    rw [h2, ← hsplit]
    exact_mod_cast hself
  have hfl : (2 ^ 52 : ℤ) ≤ ⌊x / 2 ^ (L - 52)⌋ := Int.le_floor.mpr hy
  have hr : (2 ^ 52 : ℤ) ≤ roundHalfEven (x / 2 ^ (L - 52)) := by
    rcases roundHalfEven_floor_or (x / 2 ^ (L - 52)) with h | h <;> rw [h] <;> omega
  have hrq : ((2 : ℚ) ^ (52 : ℤ)) ≤ (roundHalfEven (x / 2 ^ (L - 52)) : ℚ) := by
    have : ((2 ^ 52 : ℤ) : ℚ) ≤ (roundHalfEven (x / 2 ^ (L - 52)) : ℚ) := by exact_mod_cast hr
    norm_num at this ⊢
    exact this
  calc (2 : ℚ) ^ 53 ≤ 2 ^ L := by
        have : (2 : ℚ) ^ (53 : ℤ) ≤ 2 ^ L := zpow_le_zpow_right₀ (by norm_num) hL
        norm_num at this ⊢
        exact this
    _ = 2 ^ (52 : ℤ) * 2 ^ (L - 52) := hsplit
    _ ≤ (roundHalfEven (x / 2 ^ (L - 52)) : ℚ) * 2 ^ (L - 52) :=
        mul_le_mul_of_nonneg_right hrq (le_of_lt hpos)

theorem toDouble_natCast_ne (D m : ℕ) (hne : D ≠ m) (hm : m < 2 ^ 53) :
    toDouble (D : ℚ) ≠ (m : ℚ) := by
  rcases Nat.eq_zero_or_pos D with h0 | hpos
  · subst h0
    simp only [Nat.cast_zero, toDouble, if_true]
    intro h
    exact hne (by exact_mod_cast h)
  · by_cases hD : D < 2 ^ 53
    · rw [toDouble_natCast D hpos hD]
      intro h
      exact hne (by exact_mod_cast h)
    · have hge : (2 : ℚ) ^ 53 ≤ (D : ℚ) := by
        have : 2 ^ 53 ≤ D := Nat.le_of_not_lt hD
        exact_mod_cast this
      have h1 := two_pow_le_toDouble (D : ℚ) hge
      have h2 : (m : ℚ) < 2 ^ 53 := by exact_mod_cast hm
      intro h
      rw [h] at h1
      linarith

theorem find_carry_none (x : ℚ) (k : ℕ) (hk : 0 < k) (n j1 j2 : ℤ)
    (h1 : toDouble ((j1 : ℚ) * 10 ^ (n - (k : ℤ))) ≠ x)
    (h2 : toDouble ((j2 : ℚ) * 10 ^ (n - (k : ℤ))) ≠ x) :
    ([carry k j1 n, carry k j2 n]).find?
      (fun c => decide (toDouble ((c.1 : ℚ) * 10 ^ (c.2 - (k : ℤ))) = x)) = none := by
  rw [List.find?_eq_none]
  intro c hc
  simp only [List.mem_cons, List.mem_singleton, List.not_mem_nil, or_false] at hc
  rcases hc with hc | hc
  · rw [hc, carry_value k hk]
    simpa using h1
  · rw [hc, carry_value k hk]
    simpa using h2

theorem find_carry_some (x : ℚ) (k : ℕ) (n j1 j2 : ℤ) (hne : j1 ≠ 10 ^ k)
    (h1 : toDouble ((j1 : ℚ) * 10 ^ (n - (k : ℤ))) = x) :
    ([carry k j1 n, carry k j2 n]).find?
      (fun c => decide (toDouble ((c.1 : ℚ) * 10 ^ (c.2 - (k : ℤ))) = x)) = some (j1, n) := by
  have hc : carry k j1 n = (j1, n) := by
    unfold carry
    rw [if_neg hne]
  rw [hc, List.find?_cons_of_pos]
  simpa using h1

theorem toDouble_multiple_ne (m t : ℕ) (j : ℤ) (hj : 0 ≤ j) (hm : m < 2 ^ 53)
    (hnd : ¬ 10 ^ t ∣ m) : toDouble ((j : ℚ) * 10 ^ ((t : ℕ) : ℤ)) ≠ (m : ℚ) := by
  obtain ⟨d, hd⟩ : ∃ d : ℕ, j = (d : ℤ) := ⟨j.toNat, (Int.toNat_of_nonneg hj).symm⟩
  have hcast : (j : ℚ) * 10 ^ ((t : ℕ) : ℤ) = ((d * 10 ^ t : ℕ) : ℚ) := by
    rw [hd, zpow_natCast]
    push_cast
    ring
  rw [hcast]
  apply toDouble_natCast_ne _ _ _ hm
  intro h
  exact hnd ⟨d, by rw [← h]; ring⟩

theorem digitsFor_natCast_none (m k t : ℕ) (hk : 0 < k)
    (ht : (Nat.log 10 m : ℤ) + 1 - (k : ℤ) = (t : ℤ)) (hm : m < 2 ^ 53)
    (hnd : ¬ 10 ^ t ∣ m) : digitsFor (m : ℚ) k = none := by
  have hy : (0 : ℚ) ≤ (m : ℚ) / 10 ^ ((t : ℕ) : ℤ) := by positivity
  have hfl : 0 ≤ ⌊(m : ℚ) / 10 ^ ((t : ℕ) : ℤ)⌋ := Int.floor_nonneg.mpr hy
  have hnear : 0 ≤ roundHalfEven ((m : ℚ) / 10 ^ ((t : ℕ) : ℤ)) := by
    rcases roundHalfEven_floor_or ((m : ℚ) / 10 ^ ((t : ℕ) : ℤ)) with h | h <;> rw [h] <;> omega
  unfold digitsFor
  simp only
  rw [Int.log_natCast, ht]
  apply find_carry_none _ k hk
  · rw [ht]
    exact toDouble_multiple_ne m t _ hnear hm hnd
  · rw [ht]
    apply toDouble_multiple_ne m t _ _ hm hnd
    split_ifs <;> omega

theorem digitsFor_natCast_some (a z : ℕ) (ha : 0 < a) (hm : a * 10 ^ z < 2 ^ 53) :
    digitsFor ((a * 10 ^ z : ℕ) : ℚ) (Nat.log 10 a + 1) =
      some ((a : ℤ), ((Nat.log 10 (a * 10 ^ z) : ℕ) : ℤ) + 1) := by
  have hlog : Nat.log 10 (a * 10 ^ z) = Nat.log 10 a + z := by
    induction z with
    | zero => simp
    | succ z ih =>
      have hlt : a * 10 ^ z < 2 ^ 53 := by
        have : a * 10 ^ z ≤ a * 10 ^ (z + 1) :=
          Nat.mul_le_mul_left a (Nat.pow_le_pow_right (by norm_num) (Nat.le_succ z))
        omega
      have hne : a * 10 ^ z ≠ 0 := Nat.pos_iff_ne_zero.mp (Nat.mul_pos ha (by positivity))
      rw [pow_succ, ← mul_assoc, Nat.log_mul_base (by norm_num) hne, ih hlt]
      ring
  have ht : ((Nat.log 10 (a * 10 ^ z) : ℕ) : ℤ) + 1 - ((Nat.log 10 a + 1 : ℕ) : ℤ) = (z : ℤ) := by
    rw [hlog]
    push_cast
    ring
  have hy : ((a * 10 ^ z : ℕ) : ℚ) / 10 ^ ((z : ℕ) : ℤ) = ((a : ℤ) : ℚ) := by
    rw [zpow_natCast]
    push_cast
    field_simp
  have hlt : a < 10 ^ (Nat.log 10 a + 1) := Nat.lt_pow_succ_log_self (by norm_num) a
  unfold digitsFor
  simp only
  rw [Int.log_natCast, ht, hy, roundHalfEven_intCast]
  apply find_carry_some
  · intro h
    have : a = 10 ^ (Nat.log 10 a + 1) := by exact_mod_cast h
    omega
  · rw [ht, zpow_natCast]
    have : ((a : ℤ) : ℚ) * 10 ^ z = ((a * 10 ^ z : ℕ) : ℚ) := by push_cast; ring
    rw [this]
    exact toDouble_natCast _ (Nat.mul_pos ha (by positivity)) hm

theorem findSome_range_none {β : Type} (f : ℕ → Option β) (N : ℕ)
    (h : ∀ i, i < N → f i = none) : (List.range N).findSome? f = none := by
  rw [List.findSome?_eq_none_iff]
  intro i hi
  exact h i (List.mem_range.mp hi)

theorem findSome_range_first {β : Type} (f : ℕ → Option β) (N j : ℕ) (r : β) (hj : j < N)
    (hnone : ∀ i, i < j → f i = none) (hsome : f j = some r) :
    (List.range N).findSome? f = some r := by
  induction N with
  | zero => omega
  | succ N ih =>
    rw [List.range_succ, List.findSome?_append]
    by_cases hjN : j < N
    · rw [ih hjN]
      rfl
    · have hjeq : j = N := by omega
      subst hjeq
      rw [findSome_range_none f j hnone]
      simp [hsome]

theorem log_mul_pow_ten (a z : ℕ) (ha : 0 < a) :
    Nat.log 10 (a * 10 ^ z) = Nat.log 10 a + z := by
  induction z with
  | zero => simp
  | succ z ih =>
    have hne : a * 10 ^ z ≠ 0 := Nat.pos_iff_ne_zero.mp (Nat.mul_pos ha (by positivity))
    rw [pow_succ, ← mul_assoc, Nat.log_mul_base (by norm_num) hne, ih]
    ring

theorem not_pow_dvd_of_lt (a z t : ℕ) (h10 : ¬ 10 ∣ a) (ht : z < t) :
    ¬ 10 ^ t ∣ a * 10 ^ z := by
  intro h
  have h1 : 10 ^ (z + 1) ∣ a * 10 ^ z := dvd_trans (pow_dvd_pow 10 ht) h
  rw [pow_succ, mul_comm a] at h1
  exact h10 (Nat.dvd_of_mul_dvd_mul_left (by positivity) h1)

theorem shortest_natCast (a z : ℕ) (ha : 0 < a) (h10 : ¬ 10 ∣ a) (hm : a * 10 ^ z < 2 ^ 53) :
    shortest ((a * 10 ^ z : ℕ) : ℚ) =
      (Nat.log 10 a + 1, (a : ℤ), ((Nat.log 10 a + z : ℕ) : ℤ) + 1) := by
  have hlog := log_mul_pow_ten a z ha
  have hm16 : a * 10 ^ z < 10 ^ 16 := lt_trans hm (by norm_num)
  have hK : Nat.log 10 a < 16 := by
    have h1 : Nat.log 10 (a * 10 ^ z) < 16 :=
      Nat.log_lt_of_lt_pow (Nat.pos_iff_ne_zero.mp (Nat.mul_pos ha (by positivity))) hm16
    omega
  have hfirst := findSome_range_first
    (fun i => (digitsFor ((a * 10 ^ z : ℕ) : ℚ) (i + 1)).map (fun c => (i + 1, c))) 17
    (Nat.log 10 a) (Nat.log 10 a + 1, (a : ℤ), ((Nat.log 10 a + z : ℕ) : ℤ) + 1) (by omega)
    (by
      intro i hi
      have hnone := digitsFor_natCast_none (a * 10 ^ z) (i + 1) (Nat.log 10 a - i + z)
        (by omega) (by rw [hlog]; push_cast; omega) hm
        (not_pow_dvd_of_lt a z _ h10 (by omega))
      simp only [hnone, Option.map_none'])
    (by
      simp only [digitsFor_natCast_some a z ha hm, Option.map_some', hlog])
  unfold shortest
  rw [hfirst]

theorem layout_whole (k : ℕ) (a z : ℕ) (hz : (k : ℤ) + z ≤ 21) :
    layout k (a : ℤ) ((k : ℤ) + z) = toString a ++ zeros z := by
  have h1 : (k : ℤ) ≤ (k : ℤ) + z ∧ (k : ℤ) + z ≤ 21 := ⟨by omega, hz⟩
  have h2 : ((k : ℤ) + z - k).toNat = z := by simp
  simp only [layout, if_pos h1, Int.toNat_natCast, h2]

/-- A whole number below `2 ^ 53` is printed as its decimal digits. -/
theorem numberToString_natCast (m : ℕ) (h : m < 2 ^ 53) :
    numberToString (JsNumber.finite (m : ℚ)) = toString m := by
  by_cases hm : m = 0
  · subst hm
    simp [numberToString]
    rfl
  · have hne : (m : ℚ) ≠ 0 := by exact_mod_cast hm
    have hnn : ¬ (m : ℚ) < 0 := not_lt.mpr (Nat.cast_nonneg m)
    obtain ⟨z, a, h10, hma⟩ := Nat.exists_eq_pow_mul_and_not_dvd hm 10 (by norm_num)
    have hma' : m = a * 10 ^ z := by rw [hma, mul_comm]
    have ha : 0 < a := by
      rcases Nat.eq_zero_or_pos a with h0 | h0
      · rw [h0] at h10; simp at h10
      · exact h0
    have hm16 : a * 10 ^ z < 10 ^ 16 := by
      rw [← hma']
      exact lt_trans h (by norm_num)
    have hK : Nat.log 10 a + z < 16 := by
      rw [← log_mul_pow_ten a z ha]
      exact Nat.log_lt_of_lt_pow (Nat.pos_iff_ne_zero.mp (Nat.mul_pos ha (by positivity))) hm16
    simp only [numberToString, if_neg hne, if_neg hnn, positiveToString]
    rw [hma', shortest_natCast a z ha h10 (by rw [← hma']; exact h)]
    simp only
    have hn : ((Nat.log 10 a + z : ℕ) : ℤ) + 1 = ((Nat.log 10 a + 1 : ℕ) : ℤ) + (z : ℤ) := by
      push_cast
      ring
    rw [hn, layout_whole _ a z (by push_cast; omega), toString_mul_pow_ten a ha z]
    rfl

theorem mathRound_natCast (s : Nat) : mathRound (s : ℚ) = (s : Int) := by
  unfold mathRound
  rw [Int.floor_nat_add]
  have : ⌊(1 / 2 : ℚ)⌋ = 0 := by
    rw [Int.floor_eq_zero_iff]
    constructor <;> norm_num
  rw [this, add_zero]

theorem padStart_two_digits :
    ∀ k, k < 60 →
      padStart 2 '0' (toString k) = String.mk [Nat.digitChar (k / 10), Nat.digitChar (k % 10)] := by
  decide

/-- What `formatDuration` prints for a whole number of seconds below `2 ^ 53`. -/
theorem formatDuration_natCast (n : Nat) (h : n < 2 ^ 53) :
    formatDuration (some (JsNumber.finite (n : ℚ))) =
      toString (n / 60) ++ ":" ++
        String.mk [Nat.digitChar (n % 60 / 10), Nat.digitChar (n % 60 % 10)] := by
  have hmax : max 0 (mathRound (n : ℚ)) = (n : ℤ) := by
    rw [mathRound_natCast, max_eq_right (Int.natCast_nonneg n)]
  have hmins : n / 60 < 2 ^ 53 := lt_of_le_of_lt (Nat.div_le_self n 60) h
  have hsecs : n % 60 < 2 ^ 53 := lt_of_lt_of_le (Nat.mod_lt n (by decide)) (by norm_num)
  have hmod : ((n : ℤ) % 60 : ℤ) = ((n % 60 : ℕ) : ℤ) := by norm_cast
  simp only [formatDuration, hmax, Int.cast_natCast]
  rw [floor_toDouble_div n h, hmod, Int.cast_natCast, Int.cast_natCast,
    numberToString_natCast _ hmins, numberToString_natCast _ hsecs,
    padStart_two_digits (n % 60) (Nat.mod_lt n (by decide))]

theorem toDouble_five_halves : toDouble (5 / 2) = 5 / 2 := by
  have hx : (0 : ℚ) < 5 / 2 := by norm_num
  have hlog : Int.log 2 (5 / 2 : ℚ) = 1 :=
    int_log_eq 2 _ 1 (by norm_num) hx (by norm_num) (by norm_num)
  apply toDouble_eq_self _ 5629499534213120 hx
  rw [hlog]
  norm_num

theorem shortest_five_halves : shortest (5 / 2) = (2, 25, 1) := by
  have hx : (0 : ℚ) < 5 / 2 := by norm_num
  have hlog : Int.log 10 (5 / 2 : ℚ) = 0 :=
    int_log_eq 10 _ 0 (by norm_num) hx (by norm_num) (by norm_num)
  have hf : ⌊(5 / 2 : ℚ)⌋ = 2 := by
    rw [Int.floor_eq_iff]; constructor <;> norm_num
  have hr : roundHalfEven (5 / 2) = 2 := by
    unfold roundHalfEven
    rw [hf]
    norm_num
  have h2 : toDouble 2 = 2 := by
    have := toDouble_natCast 2 (by norm_num) (by norm_num)
    exact_mod_cast this
  have h3 : toDouble 3 = 3 := by
    have := toDouble_natCast 3 (by norm_num) (by norm_num)
    exact_mod_cast this
  have h1 : digitsFor (5 / 2) 1 = none := by
    simp only [digitsFor, hlog]
    norm_num [hr, hf, carry, h2, h3]
  have h25 : roundHalfEven (25 : ℚ) = 25 := by
    have := roundHalfEven_intCast 25
    exact_mod_cast this
  have h2' : digitsFor (5 / 2) 2 = some (25, 1) := by
    simp only [digitsFor, hlog]
    norm_num [h25, carry, toDouble_five_halves]
  have hrange : List.range 17 = 0 :: 1 :: (List.range 17).drop 2 := by decide
  unfold shortest
  rw [hrange]
  simp [List.findSome?, h1, h2']

theorem numberToString_five_halves : numberToString (JsNumber.finite (5 / 2)) = "2.5" := by
  simp only [numberToString, positiveToString, shortest_five_halves]
  norm_num
  decide

theorem toDouble_one_tenth :
    toDouble (1 / 10) = 3602879701896397 / 36028797018963968 := by
  have hx : (0 : ℚ) < 1 / 10 := by norm_num
  have hlog : Int.log 2 (1 / 10 : ℚ) = -4 :=
    int_log_eq 2 _ (-4) (by norm_num) hx (by norm_num) (by norm_num)
  have hy : (1 / 10 : ℚ) / 2 ^ ((-4 : ℤ) - 52) = 36028797018963968 / 5 := by
    norm_num
  have hfloor : ⌊(36028797018963968 : ℚ) / 5⌋ = 7205759403792793 := by
    rw [Int.floor_eq_iff]
    constructor <;> norm_num
  have hround : roundHalfEven ((36028797018963968 : ℚ) / 5) = 7205759403792794 := by
    unfold roundHalfEven
    rw [hfloor]
    norm_num
  rw [toDouble_of_pos _ hx, hlog, hy, hround]
  norm_num

theorem shortest_one_tenth :
    shortest (3602879701896397 / 36028797018963968) = (1, 1, 0) := by
  have hx : (0 : ℚ) < 3602879701896397 / 36028797018963968 := by norm_num
  have hlog : Int.log 10 (3602879701896397 / 36028797018963968 : ℚ) = -1 :=
    int_log_eq 10 _ (-1) (by norm_num) hx (by norm_num) (by norm_num)
  have hfloor : ⌊(3602879701896397 / 36028797018963968 : ℚ) / 10 ^ ((-1 : ℤ) + 1 - ((1 : ℕ) : ℤ))⌋
      = 1 := by
    rw [Int.floor_eq_iff]
    constructor <;> norm_num
  have hround : roundHalfEven
      ((3602879701896397 / 36028797018963968 : ℚ) / 10 ^ ((-1 : ℤ) + 1 - ((1 : ℕ) : ℤ))) = 1 := by
    unfold roundHalfEven
    rw [hfloor]
    norm_num
  have hback : toDouble (((1 : ℤ) : ℚ) * 10 ^ ((-1 : ℤ) + 1 - ((1 : ℕ) : ℤ))) =
      3602879701896397 / 36028797018963968 := by
    have : (((1 : ℤ) : ℚ) * 10 ^ ((-1 : ℤ) + 1 - ((1 : ℕ) : ℤ))) = 1 / 10 := by norm_num
    rw [this, toDouble_one_tenth]
  have hd : digitsFor (3602879701896397 / 36028797018963968) 1 = some (1, 0) := by
    unfold digitsFor
    simp only
    rw [hlog, hround]
    have := find_carry_some (3602879701896397 / 36028797018963968) 1 ((-1 : ℤ) + 1) 1
      (if (1 : ℤ) = ⌊(3602879701896397 / 36028797018963968 : ℚ) /
          10 ^ ((-1 : ℤ) + 1 - ((1 : ℕ) : ℤ))⌋
        then ⌊(3602879701896397 / 36028797018963968 : ℚ) /
          10 ^ ((-1 : ℤ) + 1 - ((1 : ℕ) : ℤ))⌋ + 1
        else ⌊(3602879701896397 / 36028797018963968 : ℚ) /
          10 ^ ((-1 : ℤ) + 1 - ((1 : ℕ) : ℤ))⌋) (by norm_num) hback
    simpa using this
  unfold shortest
  rw [findSome_range_first _ 17 0 (1, 1, 0) (by norm_num) (by intro i hi; omega)
    (by simp only [hd]; rfl)]

/-- The double nearest to one tenth is printed as `0.1`. -/
theorem numberToString_one_tenth :
    numberToString (JsNumber.finite (toDouble (1 / 10))) = "0.1" := by
  rw [toDouble_one_tenth]
  simp only [numberToString, positiveToString, shortest_one_tenth]
  norm_num
  decide

/-- The negative of a whole number below `2 ^ 53` is printed with a minus sign. -/
theorem numberToString_neg_natCast (m : ℕ) (h0 : 0 < m) (h : m < 2 ^ 53) :
    numberToString (JsNumber.finite (-(m : ℚ))) = "-" ++ toString m := by
  have hpos : (0 : ℚ) < (m : ℚ) := by exact_mod_cast h0
  have hne : -(m : ℚ) ≠ 0 := by linarith
  have hlt : -(m : ℚ) < 0 := by linarith
  have hne' : (m : ℚ) ≠ 0 := ne_of_gt hpos
  have hnn : ¬ (m : ℚ) < 0 := not_lt.mpr (le_of_lt hpos)
  have hm := numberToString_natCast m h
  simp only [numberToString, if_neg hne', if_neg hnn] at hm
  simp only [numberToString, if_neg hne, if_pos hlt, neg_neg, hm]

/-- C28: the form `uploadVoiceRecording` posts to `/chat/voice/` starts with the
file under `audio_file`; it has a `duration` field exactly when `durationSeconds`
is a number other than `NaN`, and the field is then the text
`Number.prototype.toString` gives for that number: `0` for the number 0, the
decimal digits for a whole number below `2 ^ 53`, with a minus sign before them
for its negative, `2.5` for two and a half, `0.1` for the double nearest to one
tenth, `Infinity` for infinity. So a duration of `0` is sent, and `undefined`,
`null`, a string or `NaN` add no field. -/
theorem upload_form_fields (audioFile : File) (d : JsValue) :
    (uploadVoiceRecording audioFile d).formData.head? =
      some ("audio_file", FormValue.file audioFile) ∧
    ((∃ val, ("duration", val) ∈ (uploadVoiceRecording audioFile d).formData) ↔
      ∃ n, d = JsValue.number n ∧ n ≠ JsNumber.nan) ∧
    (∀ n, d = JsValue.number n → n ≠ JsNumber.nan →
      (uploadVoiceRecording audioFile d).formData =
        [("audio_file", FormValue.file audioFile),
         ("duration", FormValue.text (numberToString n))]) ∧
    ((∀ n, d = JsValue.number n → n = JsNumber.nan) →
      (uploadVoiceRecording audioFile d).formData =
        [("audio_file", FormValue.file audioFile)]) ∧
    (uploadVoiceRecording audioFile (JsValue.number (JsNumber.finite 0))).formData =
      [("audio_file", FormValue.file audioFile), ("duration", FormValue.text "0")] ∧
    (∀ m : Nat, m < 2 ^ 53 →
      (uploadVoiceRecording audioFile (JsValue.number (JsNumber.finite (m : ℚ)))).formData =
        [("audio_file", FormValue.file audioFile), ("duration", FormValue.text (toString m))]) ∧
    (∀ m : Nat, 0 < m → m < 2 ^ 53 →
      (uploadVoiceRecording audioFile (JsValue.number (JsNumber.finite (-(m : ℚ))))).formData =
        [("audio_file", FormValue.file audioFile),
         ("duration", FormValue.text ("-" ++ toString m))]) ∧
    (uploadVoiceRecording audioFile (JsValue.number (JsNumber.finite (5 / 2)))).formData =
      [("audio_file", FormValue.file audioFile), ("duration", FormValue.text "2.5")] ∧
    (uploadVoiceRecording audioFile
        (JsValue.number (JsNumber.finite (toDouble (1 / 10))))).formData =
      [("audio_file", FormValue.file audioFile), ("duration", FormValue.text "0.1")] ∧
    (uploadVoiceRecording audioFile (JsValue.number JsNumber.infinity)).formData =
      [("audio_file", FormValue.file audioFile), ("duration", FormValue.text "Infinity")] ∧
    (uploadVoiceRecording audioFile d).url = "/chat/voice/" ∧
    (uploadVoiceRecording audioFile d).contentType = "multipart/form-data" := by
  have hnum : ∀ n, n ≠ JsNumber.nan →
      (uploadVoiceRecording audioFile (JsValue.number n)).formData =
        [("audio_file", FormValue.file audioFile),
         ("duration", FormValue.text (numberToString n))] := by
    intro n hn
    cases n with
    | finite q => rfl
    | infinity => rfl
    | nan => exact absurd rfl hn
  have hnone : (∀ n, d = JsValue.number n → n = JsNumber.nan) →
      (uploadVoiceRecording audioFile d).formData =
        [("audio_file", FormValue.file audioFile)] := by
    intro h
    cases d with
    | undefined => rfl
    | null => rfl
    | string s => rfl
    | number n =>
      rw [h n rfl]
      rfl
  refine ⟨?_, ?_, ?_, hnone, ?_, ?_, ?_, ?_, ?_, ?_, rfl, rfl⟩
  · cases d with
    | undefined => rfl
    | null => rfl
    | string s => rfl
    | number n => cases n <;> rfl
  · constructor
    · rintro ⟨val, hval⟩
      by_contra hcon
      have hall : ∀ n, d = JsValue.number n → n = JsNumber.nan := by
        intro n hn
        by_contra hne
        exact hcon ⟨n, hn, hne⟩
      rw [hnone hall] at hval
      simp at hval
    · rintro ⟨n, hn, hne⟩
      rw [hn, hnum n hne]
      exact ⟨FormValue.text (numberToString n), by simp⟩
  · intro n hn hne
    rw [hn]
    exact hnum n hne
  · rw [hnum _ (by simp)]
    simp [numberToString]
  · intro m hm
    rw [hnum _ (by simp), numberToString_natCast m hm]
  · intro m hm0 hm
    rw [hnum _ (by simp), numberToString_neg_natCast m hm0 hm]
  · rw [hnum _ (by simp), numberToString_five_halves]
  · rw [hnum _ (by simp), numberToString_one_tenth]
  · rw [hnum _ (by simp)]
    rfl

/-- C29, as the code has it: for a whole number `s` of seconds below `2 ^ 53`,
`formatDuration` gives the decimal of `s / 60`, a colon, and `s % 60` as two
digits: the seconds shown are below 60, sixty times the minutes plus the
seconds is `s`, and for `0` the text is `0:00`. -/
theorem formatDuration_whole_seconds (s : Nat) (h : s < 2 ^ 53) :
    formatDuration (some (JsNumber.finite (s : ℚ))) =
      toString (s / 60) ++ ":" ++
        String.mk [Nat.digitChar (s % 60 / 10), Nat.digitChar (s % 60 % 10)] ∧
    s % 60 < 60 ∧ 60 * (s / 60) + s % 60 = s ∧
    formatDuration (some (JsNumber.finite 0)) = "0:00" := by
  refine ⟨formatDuration_natCast s h, Nat.mod_lt s (by decide), Nat.div_add_mod s 60, ?_⟩
  have h0 := formatDuration_natCast 0 (by norm_num)
  rw [Nat.cast_zero] at h0
  rw [h0]
  decide

/-- C29, for 125 seconds: the text is `2:05`. -/
theorem formatDuration_whole_seconds_witness :
    125 < 2 ^ 53 ∧ formatDuration (some (JsNumber.finite ((125 : Nat) : ℚ))) = "2:05" := by
  refine ⟨by norm_num, ?_⟩
  rw [(formatDuration_whole_seconds 125 (by norm_num)).1]
  decide

/-- C29 does not hold for every whole number of seconds: 67553994410557496 is a
double, its quotient by sixty is 1125899906842624 with remainder 56, and
`formatDuration` prints 1125899906842625 minutes, because the quotient is
rounded to a double before `Math.floor` is applied; sixty times the minutes
shown plus the seconds shown is then 67553994410557556. -/
theorem formatDuration_rounds_minutes_up :
    toDouble 67553994410557496 = 67553994410557496 ∧
    formatDuration (some (JsNumber.finite ((67553994410557496 : Nat) : ℚ))) =
      "1125899906842625:56" ∧
    toString (67553994410557496 / 60) ++ ":" ++
        String.mk [Nat.digitChar (67553994410557496 % 60 / 10),
          Nat.digitChar (67553994410557496 % 60 % 10)] = "1125899906842624:56" ∧
    60 * 1125899906842625 + 56 = 67553994410557556 := by
  refine ⟨toDouble_large_example, ?_, by decide, by decide⟩
  have hmax : max 0 (mathRound ((67553994410557496 : Nat) : ℚ)) = ((67553994410557496 : Nat) : ℤ) := by
    rw [mathRound_natCast, max_eq_right (Int.natCast_nonneg _)]
  have hfloor : ⌊toDouble (((67553994410557496 : Nat) : ℚ) / 60)⌋ =
      ((1125899906842625 : Nat) : ℤ) := by
    have := floor_toDouble_div_rounds_up
    exact_mod_cast this
  have hmod : (((67553994410557496 : Nat) : ℤ) % 60 : ℤ) = ((56 : Nat) : ℤ) := by norm_num
  simp only [formatDuration, hmax, Int.cast_natCast]
  rw [hfloor, hmod, Int.cast_natCast, Int.cast_natCast,
    numberToString_natCast _ (by norm_num), numberToString_natCast _ (by norm_num)]
  decide

theorem session_grant (v : VoicePage) (r : String) (hp : 0 < v.micPending)
    (hu : v.unmounted = false) :
    (v.step (VoiceEvent.micSettled (MicResult.granted r))).Session v.recorders.length
      RecorderState.recording [] true v.probes
      (if truthyString r then r else v.mimeTypeRef) := by
  have hne : v.micPending ≠ 0 := Nat.pos_iff_ne_zero.mp hp
  have hstep : v.step (VoiceEvent.micSettled (MicResult.granted r)) =
      startRecordingSettled (MicResult.granted r) { v with micPending := v.micPending - 1 } := by
    simp only [VoicePage.step, if_neg hne]
  rw [hstep]
  refine ⟨⟨_, List.getElem?_concat_length v.recorders _, rfl⟩, rfl, rfl, rfl, hu, rfl, rfl⟩

theorem session_chunk (w : VoicePage) (n : Nat) (st : RecorderState) (chunks : List Blob)
    (b : Bool) (P : List Probe) (M : String) (c : Blob) (h : w.Session n st chunks b P M)
    (hst : st ≠ RecorderState.inactive) :
    (w.step (VoiceEvent.dataAvailable n c)).Session n st (chunks ++ [c]) b P M := by
  obtain ⟨rec, hrec, hstate⟩ := h.recorder
  have hne : rec.state ≠ RecorderState.inactive := by rw [hstate]; exact hst
  have hstep : w.step (VoiceEvent.dataAvailable n c) = ondataavailable c w := by
    simp only [VoicePage.step, hrec, if_neg hne]
  rw [hstep]
  exact ⟨⟨rec, hrec, hstate⟩, by show w.audioChunksRef ++ [c] = _; rw [h.buffer],
    h.current, h.flag, h.mounted, h.pending, h.negotiated⟩

theorem session_chunks (cs : List Blob) (w : VoicePage) (n : Nat) (st : RecorderState)
    (chunks : List Blob) (b : Bool) (P : List Probe) (M : String)
    (h : w.Session n st chunks b P M) (hst : st ≠ RecorderState.inactive) :
    (w.run (cs.map (VoiceEvent.dataAvailable n))).Session n st (chunks ++ cs) b P M := by
  induction cs generalizing w chunks with
  | nil => simpa [voice_run_nil] using h
  | cons c cs ih =>
    have h1 := session_chunk w n st chunks b P M c h hst
    have h2 := ih (w.step (VoiceEvent.dataAvailable n c)) (chunks ++ [c]) h1
    rw [List.map_cons, voice_run_cons]
    simpa [List.append_assoc] using h2

theorem session_stop (w : VoicePage) (n : Nat) (chunks : List Blob) (P : List Probe)
    (M : String) (h : w.Session n RecorderState.recording chunks true P M) :
    (w.step VoiceEvent.stopRecording).Session n RecorderState.stopping chunks false P M := by
  obtain ⟨rec, hrec, hstate⟩ := h.recorder
  have hstep : w.step VoiceEvent.stopRecording =
      { w with recorders := stopRecorder n w.recorders, isRecording := false } := by
    simp only [VoicePage.step, stopRecording, h.mounted, h.current, h.flag]
    simp
  rw [hstep]
  refine ⟨?_, h.buffer, h.current, rfl, h.mounted, h.pending, h.negotiated⟩
  refine ⟨{ rec with
      state := if rec.state = RecorderState.recording then RecorderState.stopping
        else rec.state
      tracksLive := false }, ?_, ?_⟩
  · show (stopRecorder n w.recorders)[n]? = _
    rw [stopRecorder, List.getElem?_modify_eq, hrec]
    rfl
  · simp [hstate]

theorem session_stopped (w : VoicePage) (n : Nat) (chunks : List Blob) (b : Bool)
    (P : List Probe) (M : String) (h : w.Session n RecorderState.stopping chunks b P M) :
    (w.step (VoiceEvent.recorderStopped n)).probes =
      P ++ [⟨Blob.ofParts chunks (if truthyString M then M else "audio/webm"),
        if truthyString M then M else "audio/webm"⟩] := by
  obtain ⟨rec, hrec, hstate⟩ := h.recorder
  simp only [VoicePage.step, hrec, hstate, if_true, onstop]
  rw [h.pending, h.buffer, h.negotiated]

/-- A recording session that runs from the grant of the microphone to the
`stop` event of its recorder with no event of another recorder and no other
grant in between: whatever the buffer held before, the blob built at `stop` is
made of the chunks delivered in the session, those that came before the release
and those that came after it, in arrival order and each once: its bytes are
their bytes one after the other. -/
theorem artifact_is_chunks_in_order (v : VoicePage) (r : String) (before after : List Blob)
    (hp : 0 < v.micPending) (hu : v.unmounted = false) :
    ∃ blobType,
      (v.run (sessionEvents v.recorders.length r before after)).probes =
        v.probes ++ [⟨Blob.ofParts (before ++ after) blobType, blobType⟩] ∧
      (Blob.ofParts (before ++ after) blobType).bytes =
        (before.map Blob.bytes).flatten ++ (after.map Blob.bytes).flatten ∧
      (Blob.ofParts (before ++ after) blobType).type = normalizeType blobType := by
  have h1 := session_grant v r hp hu
  have h2 := session_chunks before _ _ _ _ _ _ _ h1 (fun h => RecorderState.noConfusion h)
  have h3 := session_stop _ _ _ _ _ h2
  have h4 := session_chunks after _ _ _ _ _ _ _ h3 (fun h => RecorderState.noConfusion h)
  have h5 := session_stopped _ _ _ _ _ _ h4
  refine ⟨if truthyString (if truthyString r then r else v.mimeTypeRef) then
      (if truthyString r then r else v.mimeTypeRef) else "audio/webm", ?_, ?_, rfl⟩
  · simp only [sessionEvents, voice_run_append, List.singleton_append, voice_run_cons,
      voice_run_nil]
    simpa using h5
  · simp [Blob.ofParts, List.flatten_append]

/-- An uninterrupted session at the page whose first recording was answered
and whose buffer still holds its chunk: the blob of the second recording is
made of the two chunks of the second recording. -/
theorem artifact_is_chunks_in_order_witness :
    0 < pressedAgainPage.micPending ∧ pressedAgainPage.unmounted = false ∧
    pressedAgainPage.audioChunksRef = [⟨[1, 2, 3], "audio/webm;codecs=opus"⟩] ∧
    (∃ blobType,
      (pressedAgainPage.run (sessionEvents pressedAgainPage.recorders.length
          "audio/webm;codecs=opus" [] [⟨[7], "audio/webm;codecs=opus"⟩,
            ⟨[8, 9], "audio/webm;codecs=opus"⟩])).probes =
        pressedAgainPage.probes ++
          [⟨Blob.ofParts ([] ++ [⟨[7], "audio/webm;codecs=opus"⟩,
              ⟨[8, 9], "audio/webm;codecs=opus"⟩]) blobType, blobType⟩] ∧
      (Blob.ofParts ([] ++ [⟨[7], "audio/webm;codecs=opus"⟩,
          ⟨[8, 9], "audio/webm;codecs=opus"⟩]) blobType).bytes =
        (([] : List Blob).map Blob.bytes).flatten ++
          (([⟨[7], "audio/webm;codecs=opus"⟩, ⟨[8, 9], "audio/webm;codecs=opus"⟩] :
            List Blob).map Blob.bytes).flatten ∧
      (Blob.ofParts ([] ++ [⟨[7], "audio/webm;codecs=opus"⟩,
          ⟨[8, 9], "audio/webm;codecs=opus"⟩]) blobType).type = normalizeType blobType) ∧
    (pressedAgainPage.run (sessionEvents pressedAgainPage.recorders.length
        "audio/webm;codecs=opus" [] [⟨[7], "audio/webm;codecs=opus"⟩,
          ⟨[8, 9], "audio/webm;codecs=opus"⟩])).probes.map (fun p => p.audioBlob.bytes) =
      [[7, 8, 9]] :=
  ⟨by decide, by decide, by decide,
    artifact_is_chunks_in_order pressedAgainPage "audio/webm;codecs=opus" []
      [⟨[7], "audio/webm;codecs=opus"⟩, ⟨[8, 9], "audio/webm;codecs=opus"⟩] (by decide)
      (by decide),
    by decide⟩
/-! ## Voice chat page: presses, probes and teardown that overlap -/

/-- C10 fails on the code. While the duration probe of a stopped recording is
pending, both flags are still clear: a press requests the microphone, and on
the grant a second recorder is created and the recording flag is set. The same
holds while an upload is in flight once another upload has settled and cleared
the flags: the transcript holds a Message with status `uploading`, and a press
requests the microphone. -/
theorem start_accepted_while_artifact_pending :
    probingPage.probes.length = 1 ∧
    probingPage.isProcessing = false ∧ probingPage.isUploading = false ∧
    probingPage.micRequests = 1 ∧
    (probingPage.step VoiceEvent.startRecording).micRequests = 2 ∧
    (probingPage.step VoiceEvent.startRecording).micPending = 1 ∧
    (probingPage.run [VoiceEvent.startRecording,
      VoiceEvent.micSettled (MicResult.granted "audio/webm;codecs=opus")]).recorders.length = 2 ∧
    (probingPage.run [VoiceEvent.startRecording,
      VoiceEvent.micSettled (MicResult.granted "audio/webm;codecs=opus")]).isRecording = true ∧
    probingPage.isRecording = false ∧
    oneSettledPage.uploadsInFlight = [200] ∧
    uploadingCount oneSettledPage.conversation = 1 ∧
    oneSettledPage.isProcessing = false ∧ oneSettledPage.isUploading = false ∧
    oneSettledPage.micRequests = 2 ∧
    (oneSettledPage.step VoiceEvent.startRecording).micRequests = 3 ∧
    (oneSettledPage.run [VoiceEvent.startRecording,
      VoiceEvent.micSettled (MicResult.granted "audio/webm;codecs=opus")]).recorders.length = 3 ∧
    (oneSettledPage.run [VoiceEvent.startRecording,
      VoiceEvent.micSettled (MicResult.granted "audio/webm;codecs=opus")]).isRecording = true := by
  decide

/-- C14 fails on the code. Two recordings whose duration probes answered at the
same clock reading have user Messages with the same id; when the upload of the
first is answered, both Messages go from `uploading` to `uploaded`, though the
upload of the second is still in flight: two entries of the transcript change
where the claim allows one. -/
theorem twin_marked_uploaded :
    sameReadingPage.conversation.map (fun m => (m.id, m.status)) =
      [(VoiceId.clock 100, some UploadStatus.uploading),
       (VoiceId.clock 100, some UploadStatus.uploading)] ∧
    sameReadingPage.conversation.map VoiceMessage.audioUrl =
      [some (AudioRef.object 0), some (AudioRef.object 1)] ∧
    sameReadingPage.uploadsInFlight = [100, 100] ∧
    (sameReadingPage.step
        (VoiceEvent.uploadSettled 0 (Settled.ok none) 300)).conversation.map
        (fun m => (m.id, m.status)) =
      [(VoiceId.clock 100, some UploadStatus.uploaded),
       (VoiceId.clock 100, some UploadStatus.uploaded),
       (VoiceId.result 100, none)] ∧
    (sameReadingPage.step
        (VoiceEvent.uploadSettled 0 (Settled.ok none) 300)).uploadsInFlight = [100] ∧
    changedCount sameReadingPage.conversation
      (sameReadingPage.step
        (VoiceEvent.uploadSettled 0 (Settled.ok none) 300)).conversation = 2 := by
  decide

/-- C15 fails on the code. Two recordings whose duration probes answered at the
same clock reading have user Messages with the same id. When the upload of the
first fails, both Messages are marked `error`; when the upload of the second is
then answered, both are marked `uploaded`: the Message of the failed upload ends
with status `uploaded`. -/
theorem failed_upload_ends_uploaded :
    sameReadingPage.conversation.map (fun m => (m.id, m.status)) =
      [(VoiceId.clock 100, some UploadStatus.uploading),
       (VoiceId.clock 100, some UploadStatus.uploading)] ∧
    (sameReadingPage.step
        (VoiceEvent.uploadSettled 0 Settled.err 300)).conversation.map
        (fun m => (m.id, m.status)) =
      [(VoiceId.clock 100, some UploadStatus.error),
       (VoiceId.clock 100, some UploadStatus.error)] ∧
    (sameReadingPage.step
        (VoiceEvent.uploadSettled 0 Settled.err 300)).uploadsInFlight = [100] ∧
    (sameReadingPage.run
        [VoiceEvent.uploadSettled 0 Settled.err 300,
         VoiceEvent.uploadSettled 0 (Settled.ok none) 400]).conversation.map
        (fun m => (m.id, m.status)) =
      [(VoiceId.clock 100, some UploadStatus.uploaded),
       (VoiceId.clock 100, some UploadStatus.uploaded),
       (VoiceId.result 100, none)] ∧
    (sameReadingPage.run
        [VoiceEvent.uploadSettled 0 Settled.err 300,
         VoiceEvent.uploadSettled 0 (Settled.ok none) 400]).uploadsInFlight = [] := by
  decide

/-- C20 fails on the code. The page is left while the duration probe of its
recording is pending; the teardown finds no handle to release. The probe then
answers, `processVoiceRecording` creates a handle for the Message, and nothing
releases it: one handle acquired, none released, also after the upload has
settled and the teardown is asked for again. -/
theorem late_handle_never_released :
    probingPage.unmounted = false ∧ probingPage.probes.length = 1 ∧
    (probingPage.step VoiceEvent.unmount).revoked = [] ∧
    lateProbePage.unmounted = true ∧
    lateProbePage.urlsCreated = 1 ∧
    lateProbePage.objectUrlsRef = [0] ∧
    lateProbePage.conversation.map VoiceMessage.audioUrl = [some (AudioRef.object 0)] ∧
    lateProbePage.revoked = [] ∧
    (lateProbePage.run
      [VoiceEvent.uploadSettled 0 (Settled.ok none) 300, VoiceEvent.unmount]).revoked = [] ∧
    (lateProbePage.run
      [VoiceEvent.uploadSettled 0 (Settled.ok none) 300, VoiceEvent.unmount]).urlsCreated -
      (lateProbePage.run
        [VoiceEvent.uploadSettled 0 (Settled.ok none) 300, VoiceEvent.unmount]).revoked.length =
      1 := by
  decide

/-- C26 fails on the code. Every recorder pushes its chunks to the one buffer
that each grant of the microphone resets. The button is released and pressed
again, and the second recorder is created before the first has handed over its
data: the chunk of the first session lands in the buffer of the second. The
artifact of the first session is its chunk; the artifact of the second session,
in which the one chunk `[2, 3]` was delivered, is made of the chunk of the first
session followed by its own. -/
theorem earlier_chunk_in_later_artifact :
    ((VoicePage.initial anyBrowser).run (overlappingSessions.take 5)).recorders.map
        Recorder.state = [RecorderState.stopping, RecorderState.recording] ∧
    ((VoicePage.initial anyBrowser).run (overlappingSessions.take 5)).audioChunksRef = [] ∧
    ((VoicePage.initial anyBrowser).run (overlappingSessions.take 7)).probes.map
        (fun p => p.audioBlob.bytes) = [[1]] ∧
    ((VoicePage.initial anyBrowser).run (overlappingSessions.take 7)).audioChunksRef =
      [⟨[1], "audio/webm;codecs=opus"⟩] ∧
    ((VoicePage.initial anyBrowser).run overlappingSessions).probes.map
        (fun p => p.audioBlob.bytes) = [[1], [1, 2, 3]] ∧
    ((VoicePage.initial anyBrowser).run overlappingSessions).recorders.map
        Recorder.state = [RecorderState.inactive, RecorderState.inactive] := by
  decide

end Omnifin
